import Mathlib

/-! # jira-claude: branch naming, prompt formatting and the two workflows

A shallow embedding of the Go sources

* `internal/git/branch.go`   (`GenerateBranchName`)
* `internal/git/git.go`      (the `Git` methods, all built on `run`)
* `internal/jira/types.go`   (`Ticket`, `Ticket.FormatAsPrompt`)
* `internal/jira/client.go`  (`JiraClient.GetTicket`)
* `internal/github/*.go`     (`FormatCommentsAsPrompt`, `FormatPRBody`, the `GitHub` methods)
* `cmd/work.go`, `cmd/address_pr_comments.go` (`runWork`, `runAddressPRComments`)

A Go `string` is a Lean `String`, read as its sequence of runes (the inputs are
taken to be valid UTF-8, as decoded JSON is).  Go `int`
and `int64` values are `Int`; no arithmetic is done on them apart from `i+1`
on a loop index, which is a `Nat`.  A Go `error` is the text of its message.
-/

namespace JiraClaude

/-! ## Runes and the string helpers used by `GenerateBranchName` -/

/-- The character class `[a-z0-9]` of the regular expression `nonAlphanumeric`
(which is its complement, `[^a-z0-9]+`). -/
def isSlugRune (c : Char) : Bool :=
  ('a' ≤ c && c ≤ 'z') || ('0' ≤ c && c ≤ '9')

/-- One entry of the lower-case table: the runes `Lo`, `Lo + Stride`, ... up to `Hi`
have the lower case `Lower`, `Lower + Stride`, ... in this order. -/
structure LowerRange where
  Lo : Nat
  Hi : Nat
  Stride : Nat
  Lower : Nat
deriving DecidableEq, Repr

/-- The lower-case column of the table `unicode.CaseRanges` that Go's `unicode.ToLower`
searches for a rune outside ASCII: the simple lower-case mappings of the Unicode
Character Database (`UnicodeData.txt`; they are the same in Unicode 14.0 and 15.0),
which give a lower case different from the rune itself to 1407 runes outside ASCII.
A run of upper-case letters at a constant distance from their lower case is one
entry of stride 1 (`U+00C0`..`U+00D6` go to `U+00E0`..`U+00F6`); a run in which upper
and lower case alternate is one entry of stride 2 (`U+0100`, `U+0102`, ... go to
`U+0101`, `U+0103`, ...). -/
def lowerRanges : List LowerRange :=
  [LowerRange.mk 0x00C0 0x00D6 1 0x00E0, LowerRange.mk 0x00D8 0x00DE 1 0x00F8,
   LowerRange.mk 0x0100 0x012E 2 0x0101, LowerRange.mk 0x0130 0x0130 1 0x0069,
   LowerRange.mk 0x0132 0x0136 2 0x0133, LowerRange.mk 0x0139 0x0147 2 0x013A,
   LowerRange.mk 0x014A 0x0176 2 0x014B, LowerRange.mk 0x0178 0x0178 1 0x00FF,
   LowerRange.mk 0x0179 0x017D 2 0x017A, LowerRange.mk 0x0181 0x0181 1 0x0253,
   LowerRange.mk 0x0182 0x0184 2 0x0183, LowerRange.mk 0x0186 0x0186 1 0x0254,
   LowerRange.mk 0x0187 0x0187 1 0x0188, LowerRange.mk 0x0189 0x018A 1 0x0256,
   LowerRange.mk 0x018B 0x018B 1 0x018C, LowerRange.mk 0x018E 0x018E 1 0x01DD,
   LowerRange.mk 0x018F 0x018F 1 0x0259, LowerRange.mk 0x0190 0x0190 1 0x025B,
   LowerRange.mk 0x0191 0x0191 1 0x0192, LowerRange.mk 0x0193 0x0193 1 0x0260,
   LowerRange.mk 0x0194 0x0194 1 0x0263, LowerRange.mk 0x0196 0x0196 1 0x0269,
   LowerRange.mk 0x0197 0x0197 1 0x0268, LowerRange.mk 0x0198 0x0198 1 0x0199,
   LowerRange.mk 0x019C 0x019C 1 0x026F, LowerRange.mk 0x019D 0x019D 1 0x0272,
   LowerRange.mk 0x019F 0x019F 1 0x0275, LowerRange.mk 0x01A0 0x01A4 2 0x01A1,
   LowerRange.mk 0x01A6 0x01A6 1 0x0280, LowerRange.mk 0x01A7 0x01A7 1 0x01A8,
   LowerRange.mk 0x01A9 0x01A9 1 0x0283, LowerRange.mk 0x01AC 0x01AC 1 0x01AD,
   LowerRange.mk 0x01AE 0x01AE 1 0x0288, LowerRange.mk 0x01AF 0x01AF 1 0x01B0,
   LowerRange.mk 0x01B1 0x01B2 1 0x028A, LowerRange.mk 0x01B3 0x01B5 2 0x01B4,
   LowerRange.mk 0x01B7 0x01B7 1 0x0292, LowerRange.mk 0x01B8 0x01B8 1 0x01B9,
   LowerRange.mk 0x01BC 0x01BC 1 0x01BD, LowerRange.mk 0x01C4 0x01C4 1 0x01C6,
   LowerRange.mk 0x01C5 0x01C5 1 0x01C6, LowerRange.mk 0x01C7 0x01C7 1 0x01C9,
   LowerRange.mk 0x01C8 0x01C8 1 0x01C9, LowerRange.mk 0x01CA 0x01CA 1 0x01CC,
   LowerRange.mk 0x01CB 0x01DB 2 0x01CC, LowerRange.mk 0x01DE 0x01EE 2 0x01DF,
   LowerRange.mk 0x01F1 0x01F1 1 0x01F3, LowerRange.mk 0x01F2 0x01F4 2 0x01F3,
   LowerRange.mk 0x01F6 0x01F6 1 0x0195, LowerRange.mk 0x01F7 0x01F7 1 0x01BF,
   LowerRange.mk 0x01F8 0x021E 2 0x01F9, LowerRange.mk 0x0220 0x0220 1 0x019E,
   LowerRange.mk 0x0222 0x0232 2 0x0223, LowerRange.mk 0x023A 0x023A 1 0x2C65,
   LowerRange.mk 0x023B 0x023B 1 0x023C, LowerRange.mk 0x023D 0x023D 1 0x019A,
   LowerRange.mk 0x023E 0x023E 1 0x2C66, LowerRange.mk 0x0241 0x0241 1 0x0242,
   LowerRange.mk 0x0243 0x0243 1 0x0180, LowerRange.mk 0x0244 0x0244 1 0x0289,
   LowerRange.mk 0x0245 0x0245 1 0x028C, LowerRange.mk 0x0246 0x024E 2 0x0247,
   LowerRange.mk 0x0370 0x0372 2 0x0371, LowerRange.mk 0x0376 0x0376 1 0x0377,
   LowerRange.mk 0x037F 0x037F 1 0x03F3, LowerRange.mk 0x0386 0x0386 1 0x03AC,
   LowerRange.mk 0x0388 0x038A 1 0x03AD, LowerRange.mk 0x038C 0x038C 1 0x03CC,
   LowerRange.mk 0x038E 0x038F 1 0x03CD, LowerRange.mk 0x0391 0x03A1 1 0x03B1,
   LowerRange.mk 0x03A3 0x03AB 1 0x03C3, LowerRange.mk 0x03CF 0x03CF 1 0x03D7,
   LowerRange.mk 0x03D8 0x03EE 2 0x03D9, LowerRange.mk 0x03F4 0x03F4 1 0x03B8,
   LowerRange.mk 0x03F7 0x03F7 1 0x03F8, LowerRange.mk 0x03F9 0x03F9 1 0x03F2,
   LowerRange.mk 0x03FA 0x03FA 1 0x03FB, LowerRange.mk 0x03FD 0x03FF 1 0x037B,
   LowerRange.mk 0x0400 0x040F 1 0x0450, LowerRange.mk 0x0410 0x042F 1 0x0430,
   LowerRange.mk 0x0460 0x0480 2 0x0461, LowerRange.mk 0x048A 0x04BE 2 0x048B,
   LowerRange.mk 0x04C0 0x04C0 1 0x04CF, LowerRange.mk 0x04C1 0x04CD 2 0x04C2,
   LowerRange.mk 0x04D0 0x052E 2 0x04D1, LowerRange.mk 0x0531 0x0556 1 0x0561,
   LowerRange.mk 0x10A0 0x10C5 1 0x2D00, LowerRange.mk 0x10C7 0x10C7 1 0x2D27,
   LowerRange.mk 0x10CD 0x10CD 1 0x2D2D, LowerRange.mk 0x13A0 0x13EF 1 0xAB70,
   LowerRange.mk 0x13F0 0x13F5 1 0x13F8, LowerRange.mk 0x1C90 0x1CBA 1 0x10D0,
   LowerRange.mk 0x1CBD 0x1CBF 1 0x10FD, LowerRange.mk 0x1E00 0x1E94 2 0x1E01,
   LowerRange.mk 0x1E9E 0x1E9E 1 0x00DF, LowerRange.mk 0x1EA0 0x1EFE 2 0x1EA1,
   LowerRange.mk 0x1F08 0x1F0F 1 0x1F00, LowerRange.mk 0x1F18 0x1F1D 1 0x1F10,
   LowerRange.mk 0x1F28 0x1F2F 1 0x1F20, LowerRange.mk 0x1F38 0x1F3F 1 0x1F30,
   LowerRange.mk 0x1F48 0x1F4D 1 0x1F40, LowerRange.mk 0x1F59 0x1F5F 2 0x1F51,
   LowerRange.mk 0x1F68 0x1F6F 1 0x1F60, LowerRange.mk 0x1F88 0x1F8F 1 0x1F80,
   LowerRange.mk 0x1F98 0x1F9F 1 0x1F90, LowerRange.mk 0x1FA8 0x1FAF 1 0x1FA0,
   LowerRange.mk 0x1FB8 0x1FB9 1 0x1FB0, LowerRange.mk 0x1FBA 0x1FBB 1 0x1F70,
   LowerRange.mk 0x1FBC 0x1FBC 1 0x1FB3, LowerRange.mk 0x1FC8 0x1FCB 1 0x1F72,
   LowerRange.mk 0x1FCC 0x1FCC 1 0x1FC3, LowerRange.mk 0x1FD8 0x1FD9 1 0x1FD0,
   LowerRange.mk 0x1FDA 0x1FDB 1 0x1F76, LowerRange.mk 0x1FE8 0x1FE9 1 0x1FE0,
   LowerRange.mk 0x1FEA 0x1FEB 1 0x1F7A, LowerRange.mk 0x1FEC 0x1FEC 1 0x1FE5,
   LowerRange.mk 0x1FF8 0x1FF9 1 0x1F78, LowerRange.mk 0x1FFA 0x1FFB 1 0x1F7C,
   LowerRange.mk 0x1FFC 0x1FFC 1 0x1FF3, LowerRange.mk 0x2126 0x2126 1 0x03C9,
   LowerRange.mk 0x212A 0x212A 1 0x006B, LowerRange.mk 0x212B 0x212B 1 0x00E5,
   LowerRange.mk 0x2132 0x2132 1 0x214E, LowerRange.mk 0x2160 0x216F 1 0x2170,
   LowerRange.mk 0x2183 0x2183 1 0x2184, LowerRange.mk 0x24B6 0x24CF 1 0x24D0,
   LowerRange.mk 0x2C00 0x2C2F 1 0x2C30, LowerRange.mk 0x2C60 0x2C60 1 0x2C61,
   LowerRange.mk 0x2C62 0x2C62 1 0x026B, LowerRange.mk 0x2C63 0x2C63 1 0x1D7D,
   LowerRange.mk 0x2C64 0x2C64 1 0x027D, LowerRange.mk 0x2C67 0x2C6B 2 0x2C68,
   LowerRange.mk 0x2C6D 0x2C6D 1 0x0251, LowerRange.mk 0x2C6E 0x2C6E 1 0x0271,
   LowerRange.mk 0x2C6F 0x2C6F 1 0x0250, LowerRange.mk 0x2C70 0x2C70 1 0x0252,
   LowerRange.mk 0x2C72 0x2C72 1 0x2C73, LowerRange.mk 0x2C75 0x2C75 1 0x2C76,
   LowerRange.mk 0x2C7E 0x2C7F 1 0x023F, LowerRange.mk 0x2C80 0x2CE2 2 0x2C81,
   LowerRange.mk 0x2CEB 0x2CED 2 0x2CEC, LowerRange.mk 0x2CF2 0x2CF2 1 0x2CF3,
   LowerRange.mk 0xA640 0xA66C 2 0xA641, LowerRange.mk 0xA680 0xA69A 2 0xA681,
   LowerRange.mk 0xA722 0xA72E 2 0xA723, LowerRange.mk 0xA732 0xA76E 2 0xA733,
   LowerRange.mk 0xA779 0xA77B 2 0xA77A, LowerRange.mk 0xA77D 0xA77D 1 0x1D79,
   LowerRange.mk 0xA77E 0xA786 2 0xA77F, LowerRange.mk 0xA78B 0xA78B 1 0xA78C,
   LowerRange.mk 0xA78D 0xA78D 1 0x0265, LowerRange.mk 0xA790 0xA792 2 0xA791,
   LowerRange.mk 0xA796 0xA7A8 2 0xA797, LowerRange.mk 0xA7AA 0xA7AA 1 0x0266,
   LowerRange.mk 0xA7AB 0xA7AB 1 0x025C, LowerRange.mk 0xA7AC 0xA7AC 1 0x0261,
   LowerRange.mk 0xA7AD 0xA7AD 1 0x026C, LowerRange.mk 0xA7AE 0xA7AE 1 0x026A,
   LowerRange.mk 0xA7B0 0xA7B0 1 0x029E, LowerRange.mk 0xA7B1 0xA7B1 1 0x0287,
   LowerRange.mk 0xA7B2 0xA7B2 1 0x029D, LowerRange.mk 0xA7B3 0xA7B3 1 0xAB53,
   LowerRange.mk 0xA7B4 0xA7C2 2 0xA7B5, LowerRange.mk 0xA7C4 0xA7C4 1 0xA794,
   LowerRange.mk 0xA7C5 0xA7C5 1 0x0282, LowerRange.mk 0xA7C6 0xA7C6 1 0x1D8E,
   LowerRange.mk 0xA7C7 0xA7C9 2 0xA7C8, LowerRange.mk 0xA7D0 0xA7D0 1 0xA7D1,
   LowerRange.mk 0xA7D6 0xA7D8 2 0xA7D7, LowerRange.mk 0xA7F5 0xA7F5 1 0xA7F6,
   LowerRange.mk 0xFF21 0xFF3A 1 0xFF41, LowerRange.mk 0x10400 0x10427 1 0x10428,
   LowerRange.mk 0x104B0 0x104D3 1 0x104D8, LowerRange.mk 0x10570 0x1057A 1 0x10597,
   LowerRange.mk 0x1057C 0x1058A 1 0x105A3, LowerRange.mk 0x1058C 0x10592 1 0x105B3,
   LowerRange.mk 0x10594 0x10595 1 0x105BB, LowerRange.mk 0x10C80 0x10CB2 1 0x10CC0,
   LowerRange.mk 0x118A0 0x118BF 1 0x118C0, LowerRange.mk 0x16E40 0x16E5F 1 0x16E60,
   LowerRange.mk 0x1E900 0x1E921 1 0x1E922]

/-- Whether the entry `r` of the lower-case table covers the code point `n`. -/
def LowerRange.covers (r : LowerRange) (n : Nat) : Bool :=
  r.Lo ≤ n && n ≤ r.Hi && (n - r.Lo) % r.Stride == 0

/-- Go's `unicode.ToLower` on one rune.  Inside ASCII, `A`..`Z` go to `a`..`z` and
every other rune is returned as it is; outside ASCII the rune is looked up in the
lower-case table, and returned as it is when no entry covers it. -/
def toLowerRune (c : Char) : Char :=
  if c.toNat ≤ 0x7F then
    if 'A' ≤ c ∧ c ≤ 'Z' then Char.ofNat (c.toNat + 32) else c
  else
    match lowerRanges.find? (fun r => r.covers c.toNat) with
    | some r => Char.ofNat (r.Lower + (c.toNat - r.Lo))
    | none => c

/-- Go's `strings.ToLower` on the runes of a string: `unicode.ToLower` on every rune. -/
def toLower (s : List Char) : List Char := s.map toLowerRune

/-- Function `re.ReplaceAllString(s, repl)` for a regular expression of the form `[class]+`,
where `p` decides membership in the class.  The matcher scans from the left; a
match starts at the first rune in the class and, `+` being greedy, extends over
every following rune in the class.  `inMatch` tells whether the scan is inside a
match; the replacement is written when the match ends. -/
def replaceAllRuns (p : Char → Bool) (repl : List Char) : Bool → List Char → List Char
  | inMatch, [] => if inMatch then repl else []
  | inMatch, c :: cs =>
    if p c then replaceAllRuns p repl true cs
    else (if inMatch then repl else []) ++ c :: replaceAllRuns p repl false cs

/-- The replacement `nonAlphanumeric.ReplaceAllString(slug, "-")`,
with `nonAlphanumeric = [^a-z0-9]+`. -/
def nonAlphanumericReplace (s : List Char) : List Char :=
  replaceAllRuns (fun c => !isSlugRune c) ['-'] false s

/-- The replacement `multiDash.ReplaceAllString(slug, "-")`, with `multiDash = -+`. -/
def multiDashReplace (s : List Char) : List Char :=
  replaceAllRuns (fun c => c == '-') ['-'] false s

/-- Go's `strings.TrimRight(s, "-")`. -/
def trimRightDash (s : List Char) : List Char := s.rdropWhile (fun c => c == '-')

/-- Go's `strings.Trim(s, "-")`: leading and trailing `-` removed. -/
def trimDash (s : List Char) : List Char := trimRightDash (s.dropWhile (fun c => c == '-'))

/-- Go's `len(s)`: the number of bytes of the UTF-8 encoding. -/
def byteLen (s : List Char) : Nat := (s.map Char.utf8Size).sum

/-- The constant `maxSlugLen` of `GenerateBranchName`. -/
def maxSlugLen : Nat := 50

/-- The slug computed by lines 18-35 of `branch.go`.  The slice `slug[:maxSlugLen]`
is a byte slice in Go; at that point the slug holds one-byte runes only
(`trimmed_runes` and `slugRunes_byteLen` below), so it is the list of its first `maxSlugLen` runes. -/
def slugOf (summary : List Char) : List Char :=
  let slug := toLower summary
  let slug := nonAlphanumericReplace slug
  let slug := multiDashReplace slug
  let slug := trimDash slug
  if byteLen slug > maxSlugLen then trimRightDash (slug.take maxSlugLen) else slug

/-- Function `GenerateBranchName(prefix, ticketKey, summary)` of `internal/git/branch.go`. -/
def GenerateBranchName (pfx ticketKey summary : String) : String :=
  let slug := slugOf summary.data
  let ticketLower := toLower ticketKey.data
  let branchName := pfx.data ++ ticketLower
  if slug ≠ [] then ⟨branchName ++ '-' :: slug⟩ else ⟨branchName⟩

/-! ## Tickets and the ticket prompt -/

/-- The `Ticket` record of `internal/jira/types.go`. -/
structure Ticket where
  Key : String
  Summary : String
  Description : String
  AcceptanceCrit : String
  IssueType : String
  Priority : String
  Labels : List String
  ProjectKey : String
deriving DecidableEq, Repr

/-- Go's `strings.Join(elems, sep)`. -/
def joinWith (sep : String) : List String → String
  | [] => ""
  | [a] => a
  | a :: b :: rest => a ++ sep ++ joinWith sep (b :: rest)

/-- Method `(*Ticket).FormatAsPrompt(promptPrefix)`: the `strings.Builder` is the string
written so far, each `WriteString` appends to it. -/
def Ticket.FormatAsPrompt (t : Ticket) (promptPrefix : String) : String :=
  let sb := ""
  let sb := if promptPrefix ≠ "" then sb ++ promptPrefix ++ "\n\n" else sb
  let sb := sb ++ ("# Jira Ticket: " ++ t.Key ++ "\n\n")
  let sb := sb ++ ("## Summary\n" ++ t.Summary ++ "\n\n")
  let sb := if t.Description ≠ "" then sb ++ ("## Description\n" ++ t.Description ++ "\n\n") else sb
  let sb := if t.AcceptanceCrit ≠ "" then
    sb ++ ("## Acceptance Criteria\n" ++ t.AcceptanceCrit ++ "\n\n") else sb
  let sb := if t.IssueType ≠ "" then sb ++ ("**Type:** " ++ t.IssueType ++ "\n") else sb
  let sb := if t.Priority ≠ "" then sb ++ ("**Priority:** " ++ t.Priority ++ "\n") else sb
  let sb := if t.Labels.length > 0 then
    sb ++ ("**Labels:** " ++ joinWith ", " t.Labels ++ "\n") else sb
  let sb := sb ++ "\n---\n\n"
  let sb := sb ++
    "Please implement this ticket. Follow best practices and existing code patterns in the repository."
  sb

/-! ## Review comments and the comments prompt -/

/-- The `ReviewComment` record of `internal/github/comments.go`. -/
structure ReviewComment where
  ID : Int
  Author : String
  Body : String
  Path : String
  Line : Int
  DiffHunk : String
  URL : String
deriving DecidableEq, Repr

/-- The `PRComments` record of `internal/github/comments.go`. -/
structure PRComments where
  PRNumber : Int
  PRTitle : String
  PRURL : String
  Comments : List ReviewComment
deriving DecidableEq, Repr

/-- The text written by one iteration of the loop of `FormatCommentsAsPrompt`
for the comment at index `i` (lines 185-202 of `comments.go`). -/
def writeComment (sb : String) (i : Nat) (comment : ReviewComment) : String :=
  let sb := sb ++ ("### Comment " ++ toString (i + 1) ++ " by @" ++ comment.Author ++ "\n")
  let sb := sb ++ ("**File:** `" ++ comment.Path ++ "`")
  let sb := if comment.Line > 0 then sb ++ (" (line " ++ toString comment.Line ++ ")") else sb
  let sb := sb ++ "\n"
  let sb := if comment.DiffHunk ≠ "" then
    sb ++ "**Code context:**\n" ++ "```\n" ++ comment.DiffHunk ++ "\n```\n" else sb
  let sb := sb ++ "**Comment:**\n"
  let sb := sb ++ comment.Body
  let sb := sb ++ "\n\n---\n\n"
  sb

/-- The loop `for i, comment := range comments.Comments` of `FormatCommentsAsPrompt`,
from index `i` on, with the builder contents `sb`. -/
def writeComments (sb : String) (i : Nat) : List ReviewComment → String
  | [] => sb
  | comment :: rest => writeComments (writeComment sb i comment) (i + 1) rest

/-- The raw string literal written last by `FormatCommentsAsPrompt`. -/
def instructionsTrailer : String :=
  "## Instructions\n" ++
  "Please address these review comments by making the necessary code changes.\n" ++
  "For each comment, either:\n" ++
  "1. Make the requested code changes directly\n" ++
  "2. If the comment is unclear or needs discussion, note what clarification is needed\n" ++
  "\n" ++
  "Focus on implementing the requested changes accurately and completely.\n"

/-- Function `FormatCommentsAsPrompt(comments, prefix)` of `internal/github/comments.go`. -/
def FormatCommentsAsPrompt (comments : PRComments) (pfx : String) : String :=
  let sb := ""
  let sb := sb ++ ("# PR Review Comments for PR #" ++ toString comments.PRNumber ++ ": " ++
    comments.PRTitle ++ "\n\n")
  let sb := if pfx ≠ "" then sb ++ "## Additional Context\n\n" ++ pfx ++ "\n\n" else sb
  let sb := sb ++ "## Review Comments to Address\n\n"
  let sb := writeComments sb 0 comments.Comments
  let sb := sb ++ instructionsTrailer
  sb

/-- Function `FormatPRBody(ticketKey, ticketSummary, jiraHost)` of `internal/github/pr.go`. -/
def FormatPRBody (ticketKey ticketSummary jiraHost : String) : String :=
  let sb := ""
  let sb := sb ++ "## Summary\n\n"
  let sb := sb ++ ("Implements [" ++ ticketKey ++ "](" ++ jiraHost ++ "/browse/" ++ ticketKey ++
    "): " ++ ticketSummary ++ "\n\n")
  let sb := sb ++ "## Changes\n\n"
  let sb := sb ++ "_Changes implemented by Claude Code based on Jira ticket._\n\n"
  let sb := sb ++ "## Test Plan\n\n"
  let sb := sb ++ "- [ ] Review changes\n"
  let sb := sb ++ "- [ ] Run tests\n"
  let sb := sb ++ "- [ ] Manual verification\n"
  sb

/-! ## Configuration, flags and the outside world -/

/-- The `Config` record of `internal/config/config.go`. -/
structure Config where
  JiraHost : String
  JiraUsername : String
  JiraAPIToken : String
  BranchPrefix : String
  DefaultBaseBranch : String
deriving DecidableEq, Repr

/-- The package-level flag variables of `cmd/work.go` and `cmd/address_pr_comments.go`. -/
structure Flags where
  flagTicket : String
  flagRepo : String
  flagBaseBranch : String
  flagPromptPrefix : String
  flagDryRun : Bool
  flagPRNumber : Int
  flagNoPush : Bool
  flagWithReplies : Bool
deriving DecidableEq, Repr

/-- A call of a port method made by one of the two workflows. -/
inductive Call where
  | GetTicket (ticketKey : String)
  | EnsureClean
  | HasChanges
  | Checkout (branchName : String)
  | Pull
  | BranchExists (branchName : String)
  | DeleteBranch (branchName : String)
  | CreateBranch (branchName : String)
  | Run (prompt : String)
  | AddAll
  | Commit (message : String)
  | Push
  | CreatePR (title body baseBranch : String)
  | GetPRForBranch
  | GetPRComments (prNumber : Int)
  | ReplyToComment (prNumber : Int) (commentID : Int) (body : String)
deriving DecidableEq, Repr

/-- A line written by a workflow: a zerolog entry of the command's logger or a
`fmt.Print*` to standard output. -/
inductive Output where
  | log (level : String) (fields : List (String × String)) (msg : String)
  | print (text : String)
deriving DecidableEq, Repr

/-- A value of a JSON field that the Jira client did not recognise
(`issue.Fields.Unknowns`); arrays and objects are never read by the program. -/
inductive JsonValue where
  | str (s : String)
  | null
  | bool (b : Bool)
  | number (n : Int)
  | composite
deriving DecidableEq, Repr

/-- The part of go-jira's `Issue` that `GetTicket` reads.  `Priority` and
`Unknowns` may be nil. -/
structure Issue where
  Key : String
  Summary : String
  ProjectKey : String
  Description : String
  TypeName : String
  Priority : Option String
  Labels : List String
  Unknowns : Option (List (String × JsonValue))
deriving DecidableEq, Repr

/-- The outside world.  Every answer may depend on `hist`, the port calls made
so far in the run (the current one included), so an answer can change after an
earlier call, as the answer of `git status` does after the agent has run.  An
error is the text of the Go error; the text a failed subprocess wrote to stderr
is part of it. -/
structure Env where
  /-- The result of `envconfig.Process`. -/
  loadConfig : Except String Config
  /-- The result of `os.Getwd`. -/
  getwd : Except String String
  /-- The result of `filepath.Abs`. -/
  abs : String → Except String String
  /-- The result of go-jira's `NewClient` for a host. -/
  jiraNewClient : String → Except String Unit
  /-- The result of go-jira's `Issue.Get`. -/
  jiraIssueGet : (hist : List Call) → (ticketKey : String) → Except String Issue
  /-- The result of `git args...` in `repoPath`: its trimmed standard output. -/
  gitRun : (hist : List Call) → (repoPath : String) → (args : List String) → Except String String
  /-- The result of the `claude -p prompt` subprocess in `workDir`. -/
  claudeRun : (hist : List Call) → (workDir : String) → (prompt : String) → Except String Unit
  /-- The result of `gh pr create`: its standard output. -/
  ghPRCreate : (hist : List Call) → (repoPath title body baseBranch : String) → Except String String
  /-- The result of `gh pr view --json number`, decoded; a failure of the
  subprocess or of the decoding is the error `GetPRForBranch` returns. -/
  ghPRViewNumber : (hist : List Call) → (repoPath : String) → Except String Int
  /-- The result of `gh pr view <n> --json number,title,url`, decoded: title and
  URL, or the error `GetPRDetails` returns. -/
  ghPRViewDetails : (hist : List Call) → (repoPath : String) → (prNumber : Int) →
    Except String (String × String)
  /-- The result of `gh repo view`: its standard output. -/
  ghRepoView : (hist : List Call) → (repoPath : String) → Except String String
  /-- The result of `gh api <apiPath>`, decoded and converted to review comments,
  or the error `GetPRComments` returns for it. -/
  ghApiComments : (hist : List Call) → (repoPath apiPath : String) →
    Except String (List ReviewComment)
  /-- The result of `gh api <apiPath> -X POST` with a reply body. -/
  ghApiReply : (hist : List Call) → (repoPath apiPath body : String) → Except String Unit

/-- The message of `pkgerrors.Wrap(err, msg)`. -/
def wrap (err msg : String) : String := msg ++ ": " ++ err

/-! ## The Jira client (`internal/jira/client.go`) -/

/-- The candidate custom fields scanned by `GetTicket` for acceptance criteria. -/
def acceptanceFieldIDs : List String :=
  ["customfield_10016", "customfield_10017", "customfield_10001"]

/-- The loop over `fieldID` of `GetTicket`: the value of the first candidate field
that is present, is a string and is not empty; `""` (the zero value of
`ticket.AcceptanceCrit`) when the loop ends without a `break`. -/
def scanAcceptance (unknowns : List (String × JsonValue)) : List String → String
  | [] => ""
  | fieldID :: rest =>
    match unknowns.lookup fieldID with
    | some (JsonValue.str acStr) => if acStr ≠ "" then acStr else scanAcceptance unknowns rest
    | _ => scanAcceptance unknowns rest

/-- Function `jira.NewClient(host, username, apiToken)`. -/
def NewClient (env : Env) (host _username _apiToken : String) : Except String Unit :=
  match env.jiraNewClient host with
  | .error err => .error (wrap err "failed to create Jira client")
  | .ok c => .ok c

/-- Method `(*JiraClient).GetTicket(ticketKey)`. -/
def JiraClient.GetTicket (env : Env) (hist : List Call) (ticketKey : String) :
    Except String Ticket :=
  match env.jiraIssueGet hist ticketKey with
  | .error err => .error (wrap err ("failed to get ticket " ++ ticketKey))
  | .ok issue =>
    let ticket : Ticket :=
      { Key := issue.Key, Summary := issue.Summary, ProjectKey := issue.ProjectKey,
        Description := "", AcceptanceCrit := "", IssueType := "", Priority := "", Labels := [] }
    let ticket := if issue.Description ≠ "" then
      { ticket with Description := issue.Description } else ticket
    let ticket := if issue.TypeName ≠ "" then
      { ticket with IssueType := issue.TypeName } else ticket
    let ticket := match issue.Priority with
      | some name => { ticket with Priority := name }
      | none => ticket
    let ticket := if issue.Labels.length > 0 then
      { ticket with Labels := issue.Labels } else ticket
    let ticket := match issue.Unknowns with
      | some unknowns => { ticket with AcceptanceCrit := scanAcceptance unknowns acceptanceFieldIDs }
      | none => ticket
    .ok ticket

/-! ## The git client (`internal/git/git.go`) -/

/-- Method `(*Git).run(args...)`. -/
def Git.run (env : Env) (repoPath : String) (hist : List Call) (args : List String) :
    Except String String :=
  match env.gitRun hist repoPath args with
  | .error err => .error (wrap err ("git " ++ joinWith " " args ++ " failed"))
  | .ok stdout => .ok stdout

/-- The Go idiom `_, err := g.run(...); return err`. -/
def discard (res : Except String String) : Except String Unit :=
  match res with
  | .error err => .error err
  | .ok _ => .ok ()

/-- Method `(*Git).CurrentBranch()`. -/
def Git.CurrentBranch (env : Env) (repoPath : String) (hist : List Call) : Except String String :=
  Git.run env repoPath hist ["rev-parse", "--abbrev-ref", "HEAD"]

/-- Method `(*Git).CreateBranch(branchName)`. -/
def Git.CreateBranch (env : Env) (repoPath : String) (hist : List Call) (branchName : String) :
    Except String Unit :=
  discard (Git.run env repoPath hist ["checkout", "-b", branchName])

/-- Method `(*Git).Checkout(branchName)`. -/
def Git.Checkout (env : Env) (repoPath : String) (hist : List Call) (branchName : String) :
    Except String Unit :=
  discard (Git.run env repoPath hist ["checkout", branchName])

/-- Method `(*Git).BranchExists(branchName)`. -/
def Git.BranchExists (env : Env) (repoPath : String) (hist : List Call) (branchName : String) :
    Bool :=
  match Git.run env repoPath hist ["rev-parse", "--verify", branchName] with
  | .error _ => false
  | .ok _ => true

/-- Method `(*Git).DeleteBranch(branchName)`. -/
def Git.DeleteBranch (env : Env) (repoPath : String) (hist : List Call) (branchName : String) :
    Except String Unit :=
  discard (Git.run env repoPath hist ["branch", "-D", branchName])

/-- Method `(*Git).Pull()`. -/
def Git.Pull (env : Env) (repoPath : String) (hist : List Call) : Except String Unit :=
  discard (Git.run env repoPath hist ["pull"])

/-- Method `(*Git).HasChanges()`. -/
def Git.HasChanges (env : Env) (repoPath : String) (hist : List Call) : Except String Bool :=
  match Git.run env repoPath hist ["status", "--porcelain"] with
  | .error err => .error err
  | .ok status => .ok (status != "")

/-- Method `(*Git).AddAll()`. -/
def Git.AddAll (env : Env) (repoPath : String) (hist : List Call) : Except String Unit :=
  discard (Git.run env repoPath hist ["add", "-A"])

/-- Method `(*Git).Commit(message)`. -/
def Git.Commit (env : Env) (repoPath : String) (hist : List Call) (message : String) :
    Except String Unit :=
  discard (Git.run env repoPath hist ["commit", "-m", message])

/-- Method `(*Git).Push()`. -/
def Git.Push (env : Env) (repoPath : String) (hist : List Call) : Except String Unit :=
  match Git.CurrentBranch env repoPath hist with
  | .error err => .error err
  | .ok branch => discard (Git.run env repoPath hist ["push", "-u", "origin", branch])

/-- Method `(*Git).EnsureClean()`. -/
def Git.EnsureClean (env : Env) (repoPath : String) (hist : List Call) : Except String Unit :=
  match Git.HasChanges env repoPath hist with
  | .error err => .error err
  | .ok hasChanges =>
    if hasChanges then .error "working directory has uncommitted changes" else .ok ()

/-! ## The agent (`internal/claude/claude.go`) and the GitHub client (`internal/github`) -/

/-- Method `(*Claude).Run(prompt)`. -/
def Claude.Run (env : Env) (workDir : String) (hist : List Call) (prompt : String) :
    Except String Unit :=
  match env.claudeRun hist workDir prompt with
  | .error err => .error (wrap err "claude command failed")
  | .ok u => .ok u

/-- Method `(*GitHub).CreatePR(title, body, baseBranch)`; the standard output is taken trimmed. -/
def GitHub.CreatePR (env : Env) (repoPath : String) (hist : List Call)
    (title body baseBranch : String) : Except String String :=
  match env.ghPRCreate hist repoPath title body baseBranch with
  | .error err => .error (wrap err "gh pr create failed")
  | .ok prURL => .ok prURL

/-- Method `(*GitHub).GetPRForBranch()`. -/
def GitHub.GetPRForBranch (env : Env) (repoPath : String) (hist : List Call) : Except String Int :=
  env.ghPRViewNumber hist repoPath

/-- Method `(*GitHub).GetPRDetails(prNumber)`. -/
def GitHub.GetPRDetails (env : Env) (repoPath : String) (hist : List Call) (prNumber : Int) :
    Except String (String × String) :=
  env.ghPRViewDetails hist repoPath prNumber

/-- Method `(*GitHub).getRepoInfo()`. -/
def GitHub.getRepoInfo (env : Env) (repoPath : String) (hist : List Call) : Except String String :=
  match env.ghRepoView hist repoPath with
  | .error err => .error (wrap err "failed to get repo info")
  | .ok out => .ok out

/-- Method `(*GitHub).GetPRComments(prNumber)`. -/
def GitHub.GetPRComments (env : Env) (repoPath : String) (hist : List Call) (prNumber : Int) :
    Except String PRComments :=
  match GitHub.GetPRDetails env repoPath hist prNumber with
  | .error err => .error err
  | .ok (title, url) =>
    match GitHub.getRepoInfo env repoPath hist with
    | .error err => .error err
    | .ok repoInfo =>
      let apiPath := "repos/" ++ repoInfo ++ "/pulls/" ++ toString prNumber ++ "/comments"
      match env.ghApiComments hist repoPath apiPath with
      | .error err => .error err
      | .ok comments =>
        .ok { PRNumber := prNumber, PRTitle := title, PRURL := url, Comments := comments }

/-- Method `(*GitHub).ReplyToComment(prNumber, commentID, body)`. -/
def GitHub.ReplyToComment (env : Env) (repoPath : String) (hist : List Call)
    (prNumber commentID : Int) (body : String) : Except String Unit :=
  match GitHub.getRepoInfo env repoPath hist with
  | .error err => .error err
  | .ok repoInfo =>
    let apiPath := "repos/" ++ repoInfo ++ "/pulls/" ++ toString prNumber ++ "/comments/" ++
      toString commentID ++ "/replies"
    match env.ghApiReply hist repoPath apiPath body with
    | .error err => .error (wrap err "failed to post reply")
    | .ok u => .ok u

/-! ## The state of a run -/

/-- What a run has done so far: the port calls it made and the lines it wrote,
both in the order they happened. -/
structure Run where
  calls : List Call
  out : List Output
deriving DecidableEq, Repr

/-- Record a port call. -/
def Run.call (r : Run) (c : Call) : Run := { r with calls := r.calls ++ [c] }

/-- Write one entry of the command's logger. -/
def Run.log (r : Run) (level : String) (fields : List (String × String)) (msg : String) : Run :=
  { r with out := r.out ++ [Output.log level fields msg] }

/-- Write text to standard output. -/
def Run.print (r : Run) (text : String) : Run :=
  { r with out := r.out ++ [Output.print text] }

/-- The lines "Resolve repository path" shared by both commands. -/
def resolveRepoPath (env : Env) (fl : Flags) : Except String String :=
  match (if fl.flagRepo = "" then
          (match env.getwd with
           | .error err => Except.error (wrap err "failed to get current directory")
           | .ok cwd => .ok cwd)
         else .ok fl.flagRepo) with
  | .error err => .error err
  | .ok repoPath =>
    match env.abs repoPath with
    | .error err => .error (wrap err "failed to resolve repository path")
    | .ok repoPath => .ok repoPath

/-! ## The implement workflow (`cmd/work.go`) -/

/-- The fields every entry of the logger `l` of `runWork` carries. -/
def workFields (fl : Flags) : List (String × String) := [("ticket", fl.flagTicket)]

/-- The commit message `commitMsg` of `runWork`. -/
def runWork.commitMsg (ticket : Ticket) : String :=
  ticket.Key ++ ": " ++ ticket.Summary ++ "\n\nImplemented by Claude Code"

/-- The PR title `prTitle` of `runWork`. -/
def runWork.prTitle (ticket : Ticket) : String := ticket.Key ++ ": " ++ ticket.Summary

/-- The last two lines of `runWork`. -/
def runWork.finish (fl : Flags) (r : Run) : Except String Unit × Run :=
  let r := r.log "info" (workFields fl) "work complete"
  (.ok (), r)

/-- Step 7 of `runWork`: create the PR. -/
def runWork.step7 (env : Env) (fl : Flags) (conf : Config) (repoPath baseBranch : String)
    (ticket : Ticket) (r : Run) : Except String Unit × Run :=
  let r := r.log "info" (workFields fl) "creating pull request"
  if fl.flagDryRun then
    let r := r.log "info" (workFields fl) "[dry-run] would create PR"
    runWork.finish fl r
  else
    let prTitle := runWork.prTitle ticket
    let prBody := FormatPRBody ticket.Key ticket.Summary conf.JiraHost
    let r := r.call (.CreatePR prTitle prBody baseBranch)
    match GitHub.CreatePR env repoPath r.calls prTitle prBody baseBranch with
    | .error err => (.error (wrap err "failed to create PR"), r)
    | .ok prURL =>
      let r := r.log "info" (workFields fl ++ [("url", prURL)]) "created pull request"
      let r := r.print ("\nPR created: " ++ prURL ++ "\n")
      runWork.finish fl r

/-- Step 6 of `runWork`: check for changes, commit and push. -/
def runWork.step6 (env : Env) (fl : Flags) (conf : Config) (repoPath baseBranch : String)
    (ticket : Ticket) (r : Run) : Except String Unit × Run :=
  let r := r.log "info" (workFields fl) "checking for changes"
  if fl.flagDryRun then
    let r := r.log "info" (workFields fl) "[dry-run] would commit and push changes"
    runWork.step7 env fl conf repoPath baseBranch ticket r
  else
    let r := r.call .HasChanges
    match Git.HasChanges env repoPath r.calls with
    | .error err => (.error (wrap err "failed to check for changes"), r)
    | .ok hasChanges =>
      if !hasChanges then
        let r := r.log "warn" (workFields fl) "no changes were made by Claude"
        (.ok (), r)
      else
        let commitMsg := runWork.commitMsg ticket
        let r := r.call .AddAll
        match Git.AddAll env repoPath r.calls with
        | .error err => (.error (wrap err "failed to stage changes"), r)
        | .ok _ =>
          let r := r.call (.Commit commitMsg)
          match Git.Commit env repoPath r.calls commitMsg with
          | .error err => (.error (wrap err "failed to commit changes"), r)
          | .ok _ =>
            let r := r.log "info" (workFields fl) "committed changes"
            let r := r.call .Push
            match Git.Push env repoPath r.calls with
            | .error err => (.error (wrap err "failed to push branch"), r)
            | .ok _ =>
              let r := r.log "info" (workFields fl) "pushed branch to origin"
              runWork.step7 env fl conf repoPath baseBranch ticket r

/-- Step 5 of `runWork`: generate the prompt and invoke the agent. -/
def runWork.step5 (env : Env) (fl : Flags) (conf : Config) (repoPath baseBranch : String)
    (ticket : Ticket) (r : Run) : Except String Unit × Run :=
  let prompt := ticket.FormatAsPrompt fl.flagPromptPrefix
  let r := r.log "info" (workFields fl) "invoking Claude Code"
  if fl.flagDryRun then
    let r := r.log "info" (workFields fl ++ [("prompt", prompt)])
      "[dry-run] would invoke Claude with prompt"
    runWork.step6 env fl conf repoPath baseBranch ticket r
  else
    let r := r.call (.Run prompt)
    match Claude.Run env repoPath r.calls prompt with
    | .error err => (.error (wrap err "Claude Code failed"), r)
    | .ok _ => runWork.step6 env fl conf repoPath baseBranch ticket r

/-- Step 4 of `runWork`: create the feature branch. -/
def runWork.step4 (env : Env) (fl : Flags) (conf : Config) (repoPath baseBranch : String)
    (ticket : Ticket) (r : Run) : Except String Unit × Run :=
  let branchName := GenerateBranchName conf.BranchPrefix ticket.Key ticket.Summary
  let r := r.log "info" (workFields fl ++ [("branch", branchName)]) "creating feature branch"
  if fl.flagDryRun then
    let r := r.log "info" (workFields fl) "[dry-run] would create branch"
    runWork.step5 env fl conf repoPath baseBranch ticket r
  else
    let r := r.call (.BranchExists branchName)
    let deleted : Except String Unit × Run :=
      if Git.BranchExists env repoPath r.calls branchName then
        let r := r.log "info" (workFields fl ++ [("branch", branchName)])
          "branch exists, deleting and recreating"
        let r := r.call (.DeleteBranch branchName)
        (Git.DeleteBranch env repoPath r.calls branchName, r)
      else (.ok (), r)
    match deleted with
    | (.error err, r) => (.error (wrap err "failed to delete existing branch"), r)
    | (.ok _, r) =>
      let r := r.call (.CreateBranch branchName)
      match Git.CreateBranch env repoPath r.calls branchName with
      | .error err => (.error (wrap err "failed to create feature branch"), r)
      | .ok _ => runWork.step5 env fl conf repoPath baseBranch ticket r

/-- Step 3 of `runWork`: check out the base branch and pull. -/
def runWork.step3 (env : Env) (fl : Flags) (conf : Config) (repoPath baseBranch : String)
    (ticket : Ticket) (r : Run) : Except String Unit × Run :=
  let r := r.log "info" (workFields fl ++ [("branch", baseBranch)]) "checking out base branch"
  if !fl.flagDryRun then
    let r := r.call (.Checkout baseBranch)
    match Git.Checkout env repoPath r.calls baseBranch with
    | .error err => (.error (wrap err ("failed to checkout " ++ baseBranch)), r)
    | .ok _ =>
      let r := r.call .Pull
      match Git.Pull env repoPath r.calls with
      | .error err =>
        let r := r.log "warn" (workFields fl ++ [("error", err)])
          "failed to pull latest (continuing anyway)"
        runWork.step4 env fl conf repoPath baseBranch ticket r
      | .ok _ => runWork.step4 env fl conf repoPath baseBranch ticket r
  else runWork.step4 env fl conf repoPath baseBranch ticket r

/-- Function `runWork` of `cmd/work.go`: the error it returns (or `ok` for nil) and what
the run did. -/
def runWork (env : Env) (fl : Flags) : Except String Unit × Run :=
  let r : Run := { calls := [], out := [] }
  match env.loadConfig with
  | .error err =>
    (.error (wrap err "failed to load configuration (check JIRA_CLAUDE_* env vars)"), r)
  | .ok conf =>
    match resolveRepoPath env fl with
    | .error err => (.error err, r)
    | .ok repoPath =>
      let baseBranch := if fl.flagBaseBranch = "" then conf.DefaultBaseBranch else fl.flagBaseBranch
      let r := r.log "info" (workFields fl ++ [("repo", repoPath), ("baseBranch", baseBranch)])
        "starting work on ticket"
      let r := r.log "info" (workFields fl) "fetching Jira ticket"
      match NewClient env conf.JiraHost conf.JiraUsername conf.JiraAPIToken with
      | .error err => (.error (wrap err "failed to create Jira client"), r)
      | .ok _ =>
        let r := r.call (.GetTicket fl.flagTicket)
        match JiraClient.GetTicket env r.calls fl.flagTicket with
        | .error err => (.error (wrap err "failed to fetch ticket"), r)
        | .ok ticket =>
          let r := r.log "info"
            (workFields fl ++ [("summary", ticket.Summary), ("type", ticket.IssueType)])
            "fetched ticket details"
          let r := r.call .EnsureClean
          match Git.EnsureClean env repoPath r.calls with
          | .error err => (.error (wrap err "repository must be clean before starting"), r)
          | .ok _ => runWork.step3 env fl conf repoPath baseBranch ticket r

/-! ## The address-comments workflow (`cmd/address_pr_comments.go`) -/

/-- The constant `replyBody` of `runAddressPRComments`. -/
def replyBody : String := "Addressed in latest commit."

/-- The loop `for _, comment := range comments.Comments` of the reply phase: a
failed reply is logged as a warning and the loop goes on. -/
def postReplies (env : Env) (repoPath : String) (prNumber : Int) (r : Run) :
    List ReviewComment → Run
  | [] => r
  | comment :: rest =>
    let r := r.call (.ReplyToComment prNumber comment.ID replyBody)
    match GitHub.ReplyToComment env repoPath r.calls prNumber comment.ID replyBody with
    | .error err =>
      let r := r.log "warn" [("error", err), ("commentID", toString comment.ID)]
        "failed to post reply"
      postReplies env repoPath prNumber r rest
    | .ok _ => postReplies env repoPath prNumber r rest

/-- The commit message `commitMsg` of `runAddressPRComments`. -/
def runAddressPRComments.commitMsg (prNumber : Int) : String :=
  "Address PR #" ++ toString prNumber ++ " review comments\n\nAddressed by Claude Code"

/-- The end of `runAddressPRComments`: the optional reply phase and the summary. -/
def runAddressPRComments.replies (env : Env) (fl : Flags) (repoPath : String) (prNumber : Int)
    (comments : PRComments) (r : Run) : Except String Unit × Run :=
  let r := if fl.flagWithReplies then
      let r := r.log "info" [] "posting replies to comments"
      let r := postReplies env repoPath prNumber r comments.Comments
      r.log "info" [] "posted replies to all comments"
    else r
  let r := r.log "info" [] "finished addressing PR comments"
  let r := r.print ("\nSuccessfully addressed " ++ toString comments.Comments.length ++
    " review comments on PR #" ++ toString prNumber ++ "\n")
  let r := r.print ("PR: " ++ comments.PRURL ++ "\n")
  (.ok (), r)

/-- The middle of `runAddressPRComments`: invoke the agent, check for changes,
commit, push unless `--no-push`. -/
def runAddressPRComments.address (env : Env) (fl : Flags) (repoPath : String) (prNumber : Int)
    (comments : PRComments) (prompt : String) (r : Run) : Except String Unit × Run :=
  let r := r.log "info" [] "invoking Claude Code to address comments"
  let r := r.call (.Run prompt)
  match Claude.Run env repoPath r.calls prompt with
  | .error err => (.error (wrap err "Claude Code failed"), r)
  | .ok _ =>
    let r := r.call .HasChanges
    match Git.HasChanges env repoPath r.calls with
    | .error err => (.error (wrap err "failed to check for changes"), r)
    | .ok hasChanges =>
      if !hasChanges then
        let r := r.log "info" [] "no code changes were made"
        let r := r.print "No code changes were made by Claude.\n"
        (.ok (), r)
      else
        let commitMsg := runAddressPRComments.commitMsg prNumber
        let r := r.call .AddAll
        match Git.AddAll env repoPath r.calls with
        | .error err => (.error (wrap err "failed to stage changes"), r)
        | .ok _ =>
          let r := r.call (.Commit commitMsg)
          match Git.Commit env repoPath r.calls commitMsg with
          | .error err => (.error (wrap err "failed to commit changes"), r)
          | .ok _ =>
            let r := r.log "info" [] "committed changes"
            if !fl.flagNoPush then
              let r := r.call .Push
              match Git.Push env repoPath r.calls with
              | .error err => (.error (wrap err "failed to push changes"), r)
              | .ok _ =>
                let r := r.log "info" [] "pushed changes to origin"
                runAddressPRComments.replies env fl repoPath prNumber comments r
            else
              let r := r.log "info" [] "skipping push (--no-push specified)"
              runAddressPRComments.replies env fl repoPath prNumber comments r

/-- The part of `runAddressPRComments` that follows the choice of the PR number:
fetch the comments, check the git state, format the prompt. -/
def runAddressPRComments.fetch (env : Env) (fl : Flags) (repoPath : String) (prNumber : Int)
    (r : Run) : Except String Unit × Run :=
  let r := r.log "info" [("pr", toString prNumber)] "fetching PR comments"
  let r := r.call (.GetPRComments prNumber)
  match GitHub.GetPRComments env repoPath r.calls prNumber with
  | .error err => (.error (wrap err "failed to fetch PR comments"), r)
  | .ok comments =>
    if comments.Comments.length = 0 then
      let r := r.log "info" [] "no review comments to address"
      let r := r.print "No review comments found on this PR.\n"
      (.ok (), r)
    else
      let r := r.log "info" [("count", toString comments.Comments.length)] "found review comments"
      let r := r.call .HasChanges
      match Git.HasChanges env repoPath r.calls with
      | .error err => (.error (wrap err "failed to check git status"), r)
      | .ok hasChanges =>
        let r := if hasChanges then
          r.log "warn" [] "working directory has uncommitted changes" else r
        let prompt := FormatCommentsAsPrompt comments fl.flagPromptPrefix
        if fl.flagDryRun then
          let r := r.log "info" [] "[dry-run] would invoke Claude with the following prompt:"
          let r := r.print "\n--- PROMPT ---\n"
          let r := r.print (prompt ++ "\n")
          let r := r.print "--- END PROMPT ---\n"
          (.ok (), r)
        else runAddressPRComments.address env fl repoPath prNumber comments prompt r

/-- Function `runAddressPRComments` of `cmd/address_pr_comments.go`: the error it returns
(or `ok` for nil) and what the run did. -/
def runAddressPRComments (env : Env) (fl : Flags) : Except String Unit × Run :=
  let r : Run := { calls := [], out := [] }
  match resolveRepoPath env fl with
  | .error err => (.error err, r)
  | .ok repoPath =>
    if fl.flagPRNumber = 0 then
      let r := r.log "info" [] "detecting PR from current branch"
      let r := r.call .GetPRForBranch
      match GitHub.GetPRForBranch env repoPath r.calls with
      | .error err => (.error (wrap err "failed to detect PR (use --pr to specify)"), r)
      | .ok detected => runAddressPRComments.fetch env fl repoPath detected r
    else runAddressPRComments.fetch env fl repoPath fl.flagPRNumber r

/-! ## Kinds of calls and other notions the statements use -/

/-- The port calls that change the repository, the remote or the pull request. -/
def Call.isMutating : Call → Bool
  | .Checkout _ | .Pull | .DeleteBranch _ | .CreateBranch _ | .Run _ | .AddAll | .Commit _
  | .Push | .CreatePR _ _ _ | .ReplyToComment _ _ _ => true
  | _ => false

/-- The read calls a dry run is left with. -/
def Call.isRead : Call → Bool
  | .GetTicket _ | .EnsureClean | .HasChanges | .GetPRForBranch | .GetPRComments _ => true
  | _ => false

/-- The calls of steps 6 and 7 of `runWork` that follow `HasChanges`. -/
def Call.isPublish : Call → Bool
  | .AddAll | .Commit _ | .Push | .CreatePR _ _ _ => true
  | _ => false

/-- The calls of steps 1 to 4 of `runWork`. -/
def Call.isSetup : Call → Bool
  | .GetTicket _ | .EnsureClean | .Checkout _ | .Pull | .BranchExists _ | .DeleteBranch _
  | .CreateBranch _ => true
  | _ => false

/-- A `Run` call. -/
def Call.isRun : Call → Bool
  | .Run _ => true
  | _ => false

/-- A `BranchExists` call. -/
def Call.isBranchExists : Call → Bool
  | .BranchExists _ => true
  | _ => false

/-- The calls that follow `BranchExists` in a run of `runWork`. -/
def Call.isAfterBranchExists : Call → Bool
  | .DeleteBranch _ | .CreateBranch _ | .Run _ | .HasChanges | .AddAll | .Commit _ | .Push
  | .CreatePR _ _ _ => true
  | _ => false

/-- A `ReplyToComment` call. -/
def Call.isReply : Call → Bool
  | .ReplyToComment _ _ _ => true
  | _ => false

/-- The log entry written when `runAddressPRComments` enters the reply phase. -/
def replyPhaseEntered : Output := Output.log "info" [] "posting replies to comments"

/-- The reply calls for a list of comments, in the order of the list. -/
def replyCalls (prNumber : Int) (comments : List ReviewComment) : List Call :=
  comments.map (fun comment => Call.ReplyToComment prNumber comment.ID replyBody)

/-- The base branch chosen by `runWork`. -/
def baseBranchOf (fl : Flags) (conf : Config) : String :=
  if fl.flagBaseBranch = "" then conf.DefaultBaseBranch else fl.flagBaseBranch

/-- The state of a run of `runWork` when step 3 starts. -/
def runWork.atStep3 (fl : Flags) (conf : Config) (repoPath : String) (ticket : Ticket) : Run :=
  { calls := [Call.GetTicket fl.flagTicket, Call.EnsureClean],
    out := [
      Output.log "info" (workFields fl ++ [("repo", repoPath), ("baseBranch", baseBranchOf fl conf)])
        "starting work on ticket",
      Output.log "info" (workFields fl) "fetching Jira ticket",
      Output.log "info" (workFields fl ++ [("summary", ticket.Summary), ("type", ticket.IssueType)])
        "fetched ticket details"] }

/-- A result that is an error. -/
def isError (res : Except String Unit) : Prop := ∃ e, res = .error e

/-- The name of the feature branch of a run of `runWork`. -/
def runWork.branchName (conf : Config) (ticket : Ticket) : String :=
  GenerateBranchName conf.BranchPrefix ticket.Key ticket.Summary

/-! ## The slug and the branch name as the specification words them -/

/-- A rune of a generated slug: `[a-z0-9]` or `-`. -/
def isSlugOrDash (c : Char) : Bool := isSlugRune c || c == '-'

/-- No two `-` in a row. -/
def NoDoubleDash (l : List Char) : Prop := List.Chain' (fun a b => ¬(a = '-' ∧ b = '-')) l

/-- Every maximal run of runes outside `[a-z0-9]` replaced by one `-`: a rune
outside the class opens a run, the run takes in the runes outside the class that
follow it, and one `-` stands for the whole run. -/
def dashRuns : List Char → List Char
  | [] => []
  | c :: cs =>
    if isSlugRune c then c :: dashRuns cs
    else '-' :: dashRuns (cs.dropWhile (fun d => !isSlugRune d))
termination_by l => l.length
decreasing_by
  · simp
  · simp only [List.length_cons]
    exact Nat.lt_succ_of_le (List.dropWhile_sublist _).length_le

/-- The slug in the words of the specification: lower-case the summary, replace
every maximal run of non-alphanumeric characters by `-`, trim leading and
trailing `-`, truncate to at most 50 characters, trim trailing `-`. -/
def specSlug (summary : List Char) : List Char :=
  trimRightDash ((trimDash (dashRuns (toLower summary))).take 50)

/-- The lower-cased ticket key: every rune of the key replaced by its lower case. -/
def lowerKey (ticketKey : String) : String := ⟨toLower ticketKey.data⟩

/-- The branch name in the words of the specification. -/
def specBranchName (pfx ticketKey summary : String) : String :=
  if specSlug summary.data = [] then pfx ++ lowerKey ticketKey
  else pfx ++ lowerKey ticketKey ++ "-" ++ ⟨specSlug summary.data⟩

/-- The character class of branch names: `[a-z0-9]`, `/` and `-`. -/
def isBranchRune (c : Char) : Bool := isSlugRune c || c == '/' || c == '-'

/-- A rune that the slug keeps: one whose lower case is in `[a-z0-9]`, that is
an ASCII letter or digit, or one of the letters U+0130 and U+212A, the only runes
outside ASCII whose lower case is an ASCII rune (`isAlphanumericRune_iff` below). -/
def isAlphanumericRune (c : Char) : Bool := isSlugRune (toLowerRune c)

/-! ## The prompts as the specification describes them -/

/-- The fixed instruction trailer of the ticket prompt. -/
def ticketTrailer : String :=
  "Please implement this ticket. Follow best practices and existing code patterns in the repository."

/-- The optional prefix block of the ticket prompt. -/
def prefixBlock (promptPrefix : String) : String :=
  if promptPrefix ≠ "" then promptPrefix ++ "\n\n" else ""

/-- A metadata line of the ticket prompt, present only for a non-empty value. -/
def metaLine (label value : String) : String :=
  if value ≠ "" then label ++ value ++ "\n" else ""

/-- The preamble of the comments prompt: PR heading, optional context block,
heading of the comment list. -/
def commentsPreamble (comments : PRComments) (pfx : String) : String :=
  "# PR Review Comments for PR #" ++ toString comments.PRNumber ++ ": " ++ comments.PRTitle ++
    "\n\n" ++
  (if pfx ≠ "" then "## Additional Context\n\n" ++ pfx ++ "\n\n" else "") ++
  "## Review Comments to Address\n\n"

/-- What a comment subsection carries below its heading: the file (with the line
when it is positive), the diff context when there is one, and the body. -/
def commentDetails (comment : ReviewComment) : String :=
  "**File:** `" ++ comment.Path ++ "`" ++
  (if comment.Line > 0 then " (line " ++ toString comment.Line ++ ")" else "") ++ "\n" ++
  (if comment.DiffHunk ≠ "" then
    "**Code context:**\n" ++ "```\n" ++ comment.DiffHunk ++ "\n```\n" else "") ++
  "**Comment:**\n" ++ comment.Body ++ "\n\n---\n\n"

/-- The subsection of the comment numbered `k` (counting from 1). -/
def commentSection (k : Nat) (comment : ReviewComment) : String :=
  "### Comment " ++ toString k ++ " by @" ++ comment.Author ++ "\n" ++ commentDetails comment

/-- The texts of a list, one after the other. -/
def concatAll : List String → String
  | [] => ""
  | s :: rest => s ++ concatAll rest

/-- The subsections of a comment list, numbered from 1 in the order of the list. -/
def commentSections (comments : List ReviewComment) : List String :=
  comments.enum.map (fun p => commentSection (p.1 + 1) p.2)

/-- The fixed `## Instructions` block that ends the comments prompt, written out. -/
def commentsTrailer : String :=
  "## Instructions\nPlease address these review comments by making the necessary code changes.\n" ++
  "For each comment, either:\n1. Make the requested code changes directly\n" ++
  "2. If the comment is unclear or needs discussion, note what clarification is needed\n\n" ++
  "Focus on implementing the requested changes accurately and completely.\n"

/-! ## A sample repository, ticket and pull request -/

/-- A sample Jira issue. -/
def sampleIssue : Issue :=
  { Key := "PROJ-42", Summary := "Fix Login Bug!!", ProjectKey := "PROJ",
    Description := "Login fails for new users.", TypeName := "Bug", Priority := some "High",
    Labels := ["auth"], Unknowns := none }

/-- The ticket `GetTicket` builds from `sampleIssue`. -/
def sampleTicket : Ticket :=
  { Key := "PROJ-42", Summary := "Fix Login Bug!!", Description := "Login fails for new users.",
    AcceptanceCrit := "", IssueType := "Bug", Priority := "High", Labels := ["auth"],
    ProjectKey := "PROJ" }

/-- Three sample review comments. -/
def sampleComments : List ReviewComment :=
  [ { ID := 101, Author := "alice", Body := "Rename this variable.", Path := "login.go",
      Line := 10, DiffHunk := "@@ -8,3 +8,3 @@", URL := "https://github.com/acme/app/pull/7#r101" },
    { ID := 102, Author := "bob", Body := "Handle the error.", Path := "login.go",
      Line := 0, DiffHunk := "", URL := "https://github.com/acme/app/pull/7#r102" },
    { ID := 103, Author := "carol", Body := "Add a test.", Path := "login_test.go",
      Line := 3, DiffHunk := "", URL := "https://github.com/acme/app/pull/7#r103" } ]

/-- A sample pull request with the three sample comments. -/
def samplePRComments : PRComments :=
  { PRNumber := 7, PRTitle := "Fix login", PRURL := "https://github.com/acme/app/pull/7",
    Comments := sampleComments }

/-- A sample configuration, with the default branch prefix and base branch. -/
def sampleConfig : Config :=
  { JiraHost := "https://jira.example.com"
    JiraUsername := "dev"
    JiraAPIToken := "secret"
    BranchPrefix := "feature/"
    DefaultBaseBranch := "main" }

/-- The answers of git in the sample world. -/
def sampleGitRun (branchExists agentEdits : Bool) (hist : List Call) (args : List String) :
    Except String String :=
  match args with
  | ["status", "--porcelain"] =>
    if agentEdits && hist.any Call.isRun then .ok "M login.go" else .ok ""
  | ["rev-parse", "--verify", _] =>
    if branchExists then .ok "4f2a9c1" else .error "fatal: Needed a single revision"
  | ["rev-parse", "--abbrev-ref", "HEAD"] => .ok "feature/proj-42-fix-login-bug"
  | _ => .ok ""

/-- A world in which every call succeeds but one reply: the working tree is clean
until the agent has run, and dirty afterwards when `agentEdits` is set; the
feature branch exists when `branchExists` is set; the reply to the comment with
ID `failingReply` fails. -/
def sampleEnv (branchExists agentEdits : Bool) (failingReply : Int) : Env :=
  { loadConfig := .ok sampleConfig
    getwd := .ok "/repo"
    abs := fun p => .ok p
    jiraNewClient := fun _ => .ok ()
    jiraIssueGet := fun _ _ => .ok sampleIssue
    gitRun := fun hist _ args => sampleGitRun branchExists agentEdits hist args
    claudeRun := fun _ _ _ => .ok ()
    ghPRCreate := fun _ _ _ _ _ => .ok "https://github.com/acme/app/pull/7"
    ghPRViewNumber := fun _ _ => .ok 7
    ghPRViewDetails := fun _ _ _ => .ok ("Fix login bug", "https://github.com/acme/app/pull/7")
    ghRepoView := fun _ _ => .ok "acme/app"
    ghApiComments := fun _ _ _ => .ok sampleComments
    ghApiReply := fun _ _ apiPath _ =>
      if apiPath = "repos/acme/app/pulls/7/comments/" ++ toString failingReply ++ "/replies"
      then .error "HTTP 422" else .ok () }

/-- Sample flags: ticket `PROJ-42`, the current directory, no PR number. -/
def sampleFlags (dryRun withReplies : Bool) : Flags :=
  { flagTicket := "PROJ-42", flagRepo := "", flagBaseBranch := "", flagPromptPrefix := "",
    flagDryRun := dryRun, flagPRNumber := 0, flagNoPush := false, flagWithReplies := withReplies }

/-! ## Notions and samples for the remaining statements -/

/-- A candidate field qualifies when it is present in the unknown fields and its
value is a non-empty string. -/
def qualifies (unknowns : List (String × JsonValue)) (fieldID : String) : Bool :=
  match unknowns.lookup fieldID with
  | some (JsonValue.str s) => s != ""
  | _ => false

/-- The string held by a field, `""` when the field is absent or holds no string. -/
def stringValue (unknowns : List (String × JsonValue)) (fieldID : String) : String :=
  match unknowns.lookup fieldID with
  | some (JsonValue.str s) => s
  | _ => ""

/-- The acceptance criteria in the words of the specification: the value of the
first candidate field, in the order 10016, 10017, 10001, that qualifies; empty
when none does or when there are no unknown fields at all. -/
def specAcceptance (unknowns : Option (List (String × JsonValue))) : String :=
  match unknowns with
  | none => ""
  | some u =>
    match ["customfield_10016", "customfield_10017", "customfield_10001"].find? (qualifies u) with
    | some fieldID => stringValue u fieldID
    | none => ""

/-- The slug of `GenerateBranchName` with the step "collapse multiple dashes"
(line 24 of `branch.go`) left out. -/
def slugOfNoCollapse (summary : List Char) : List Char :=
  let slug := toLower summary
  let slug := nonAlphanumericReplace slug
  let slug := trimDash slug
  if byteLen slug > maxSlugLen then trimRightDash (slug.take maxSlugLen) else slug

/-- The function `GenerateBranchName` with the step "collapse multiple dashes" left out. -/
def GenerateBranchNameNoCollapse (pfx ticketKey summary : String) : String :=
  let slug := slugOfNoCollapse summary.data
  let ticketLower := toLower ticketKey.data
  let branchName := pfx.data ++ ticketLower
  if slug ≠ [] then ⟨branchName ++ '-' :: slug⟩ else ⟨branchName⟩

/-- A text as slug normalisation leaves it: runes of `[a-z0-9]` and `-` only, no
two `-` in a row, no `-` at either end, at most 50 runes. -/
structure IsSlug (t : List Char) : Prop where
  runes : ∀ c ∈ t, isSlugOrDash c = true
  noDouble : NoDoubleDash t
  noLeading : t.head? ≠ some '-'
  noTrailing : t.getLast? ≠ some '-'
  short : t.length ≤ 50

/-- The log entry written when `runAddressPRComments` skips the push. -/
def pushSkipped : Output := Output.log "info" [] "skipping push (--no-push specified)"

/-- The calls of `runAddressPRComments` that come before the agent call. -/
def Call.isFetch : Call → Bool
  | .GetPRForBranch | .GetPRComments _ | .HasChanges => true
  | _ => false

/-- The world `env` with the answers of `git pull` replaced by `pull`. -/
def withPullAnswer (env : Env) (pull : List Call → String → Except String String) : Env :=
  { env with
    gitRun := fun hist repoPath args =>
      if args = ["pull"] then pull hist repoPath else env.gitRun hist repoPath args }

/-- What the claims observe of a run: its result and its calls. -/
def observed (x : Except String Unit × Run) : Except String Unit × List Call := (x.1, x.2.calls)

/-- An issue whose first candidate field holds a number, whose second holds the
empty string and whose third holds the acceptance criteria. -/
def sampleIssueWithCriteria : Issue :=
  { sampleIssue with
    Unknowns := some [("customfield_10017", JsonValue.str ""),
      ("customfield_10001", JsonValue.str "Users can log in."),
      ("customfield_10016", JsonValue.number 3),
      ("customfield_10020", JsonValue.str "ignored")] }

/-- The sample world in which Jira returns `sampleIssueWithCriteria`. -/
def sampleEnvWithCriteria : Env :=
  { sampleEnv false true 0 with jiraIssueGet := fun _ _ => .ok sampleIssueWithCriteria }

/-- The sample world with a dirty working tree: `git status` reports a change
from the start. -/
def sampleEnvDirty : Env :=
  { sampleEnv false true 0 with
    gitRun := fun _ _ args =>
      if args = ["status", "--porcelain"] then .ok "M login.go" else .ok "" }

/-- Sample flags with `--no-push`. -/
def sampleFlagsNoPush : Flags :=
  { sampleFlags false false with flagNoPush := true }

/-- The sample world with a `git pull` that fails. -/
def sampleEnvPullFails : Env :=
  withPullAnswer (sampleEnv true true 0) (fun _ _ => .error "could not resolve host")

set_option maxRecDepth 100000

/-! ## Bookkeeping on runs, and the shape of a run of `runWork` -/

@[simp]
theorem Run.call_calls (r : Run) (c : Call) : (r.call c).calls = r.calls ++ [c] := rfl
@[simp]
theorem Run.call_out (r : Run) (c : Call) : (r.call c).out = r.out := rfl
@[simp]
theorem Run.log_calls (r : Run) (lv : String) (fs : List (String × String)) (m : String) :
    (r.log lv fs m).calls = r.calls := rfl
@[simp]
theorem Run.log_out (r : Run) (lv : String) (fs : List (String × String)) (m : String) :
    (r.log lv fs m).out = r.out ++ [Output.log lv fs m] := rfl
@[simp]
theorem Run.print_calls (r : Run) (t : String) : (r.print t).calls = r.calls := rfl
@[simp]
theorem Run.print_out (r : Run) (t : String) :
    (r.print t).out = r.out ++ [Output.print t] := rfl

/-- In a dry run, steps 3 to 7 of `runWork` make no call, succeed and log the prompt. -/
theorem runWork.step3_dry (env : Env) (fl : Flags) (conf : Config) (repoPath baseBranch : String)
    (ticket : Ticket) (r : Run) (h : fl.flagDryRun = true) :
    (runWork.step3 env fl conf repoPath baseBranch ticket r).1 = .ok () ∧
    (runWork.step3 env fl conf repoPath baseBranch ticket r).2.calls = r.calls ∧
    Output.log "info" (workFields fl ++ [("prompt", ticket.FormatAsPrompt fl.flagPromptPrefix)])
      "[dry-run] would invoke Claude with prompt" ∈
      (runWork.step3 env fl conf repoPath baseBranch ticket r).2.out := by
  simp [runWork.step3, runWork.step4, runWork.step5, runWork.step6, runWork.step7,
    runWork.finish, h]

/-- The first two steps of `runWork`, by cases on what the outside world answers. -/
theorem runWork_cases (env : Env) (fl : Flags) :
    (∃ e, (runWork env fl).1 = .error e ∧ (runWork env fl).2.calls = []) ∨
    (∃ e, (runWork env fl).1 = .error e ∧ (runWork env fl).2.calls = [Call.GetTicket fl.flagTicket] ∧
      ∃ e0, JiraClient.GetTicket env [Call.GetTicket fl.flagTicket] fl.flagTicket = .error e0) ∨
    (∃ conf repoPath ticket,
      env.loadConfig = .ok conf ∧ resolveRepoPath env fl = .ok repoPath ∧
      JiraClient.GetTicket env [Call.GetTicket fl.flagTicket] fl.flagTicket = .ok ticket ∧
      ((∃ e, Git.EnsureClean env repoPath [Call.GetTicket fl.flagTicket, Call.EnsureClean] = .error e ∧
        runWork env fl = (.error (wrap e "repository must be clean before starting"),
          runWork.atStep3 fl conf repoPath ticket)) ∨
       (Git.EnsureClean env repoPath [Call.GetTicket fl.flagTicket, Call.EnsureClean] = .ok () ∧
        runWork env fl = runWork.step3 env fl conf repoPath (baseBranchOf fl conf) ticket
          (runWork.atStep3 fl conf repoPath ticket)))) := by
  cases hc : env.loadConfig with
  | error e => left; simp [runWork, hc]
  | ok conf =>
    cases hp : resolveRepoPath env fl with
    | error e => left; simp [runWork, hc, hp]
    | ok repoPath =>
      cases hj : NewClient env conf.JiraHost conf.JiraUsername conf.JiraAPIToken with
      | error e => left; simp [runWork, hc, hp, hj]
      | ok u =>
        cases ht : JiraClient.GetTicket env [Call.GetTicket fl.flagTicket] fl.flagTicket with
        | error e => right; left; simp [runWork, hc, hp, hj, ht]
        | ok ticket =>
          right; right
          refine ⟨conf, repoPath, ticket, rfl, rfl, rfl, ?_⟩
          cases he : Git.EnsureClean env repoPath [Call.GetTicket fl.flagTicket, Call.EnsureClean] with
          | error e =>
            left
            refine ⟨e, rfl, ?_⟩
            simp [runWork, hc, hp, hj, ht, he, runWork.atStep3, Run.call, Run.log, baseBranchOf]
          | ok u2 =>
            right
            refine ⟨rfl, ?_⟩
            simp [runWork, hc, hp, hj, ht, he, runWork.atStep3, Run.call, Run.log, baseBranchOf]

/-- C1, the implement workflow half as a lemma. -/
theorem runWork_dry (env : Env) (fl : Flags) (h : fl.flagDryRun = true) :
    (∀ c ∈ (runWork env fl).2.calls, c.isRead = true ∧ c.isMutating = false) ∧
    ((runWork env fl).1 = .ok () →
      ∃ ticket, JiraClient.GetTicket env [Call.GetTicket fl.flagTicket] fl.flagTicket = .ok ticket ∧
        Output.log "info"
          (workFields fl ++ [("prompt", ticket.FormatAsPrompt fl.flagPromptPrefix)])
          "[dry-run] would invoke Claude with prompt" ∈ (runWork env fl).2.out) := by
  rcases runWork_cases env fl with ⟨e, h1, h2⟩ | ⟨e, h1, h2, -⟩ | ⟨conf, repoPath, ticket, -, -, ht, hr⟩
  · simp [h1, h2]
  · simp [h1, h2, Call.isRead, Call.isMutating]
  · rcases hr with ⟨e, -, hr⟩ | ⟨-, hr⟩
    · simp [hr, runWork.atStep3, Call.isRead, Call.isMutating]
    · obtain ⟨h1, h2, h3⟩ := runWork.step3_dry env fl conf repoPath (baseBranchOf fl conf) ticket
        (runWork.atStep3 fl conf repoPath ticket) h
      rw [hr, h2]
      exact ⟨by simp [runWork.atStep3, Call.isRead, Call.isMutating], fun _ => ⟨ticket, ht, h3⟩⟩

/-- In a dry run, `runAddressPRComments` from the fetch on makes read calls only
and, when it ends without error on a non-empty comment set, has printed the prompt. -/
theorem runAddressPRComments.fetch_dry (env : Env) (fl : Flags) (repoPath : String)
    (prNumber : Int) (r : Run) (h : fl.flagDryRun = true) :
    ((runAddressPRComments.fetch env fl repoPath prNumber r).2.calls =
        r.calls ++ [Call.GetPRComments prNumber] ∨
      (runAddressPRComments.fetch env fl repoPath prNumber r).2.calls =
        r.calls ++ [Call.GetPRComments prNumber, Call.HasChanges]) ∧
    ((runAddressPRComments.fetch env fl repoPath prNumber r).1 = .ok () →
      ∃ comments,
        GitHub.GetPRComments env repoPath (r.calls ++ [Call.GetPRComments prNumber]) prNumber =
          .ok comments ∧
        ((comments.Comments = [] ∧
          (runAddressPRComments.fetch env fl repoPath prNumber r).2.calls =
            r.calls ++ [Call.GetPRComments prNumber]) ∨
         ((runAddressPRComments.fetch env fl repoPath prNumber r).2.calls =
            r.calls ++ [Call.GetPRComments prNumber, Call.HasChanges] ∧
          Output.print (FormatCommentsAsPrompt comments fl.flagPromptPrefix ++ "\n") ∈
            (runAddressPRComments.fetch env fl repoPath prNumber r).2.out))) := by
  unfold runAddressPRComments.fetch
  cases hg : GitHub.GetPRComments env repoPath (r.calls ++ [Call.GetPRComments prNumber]) prNumber with
  | error e => simp [hg]
  | ok comments =>
    by_cases hl : comments.Comments.length = 0
    · have hnil : comments.Comments = [] := List.length_eq_zero.mp hl
      simp [hg, hl, hnil]
    · cases hh : Git.HasChanges env repoPath
          (r.calls ++ [Call.GetPRComments prNumber, Call.HasChanges]) with
      | error e => simp [hg, hl, hh]
      | ok b => cases b <;> simp [hg, hl, hh, h]

/-! ## Dry runs -/

/-- Claim C1. With the dry-run flag set, both workflows make read calls only
(`GetTicket`, `EnsureClean`, `HasChanges`, `GetPRForBranch`, `GetPRComments`) and
none of the mutating calls, and the prompt is still built: a run of `runWork`
that ends without error has logged the ticket prompt, and a run of
`runAddressPRComments` that ends without error on a non-empty comment set has
printed the comments prompt. -/
theorem dryRun_makes_read_calls_only (env : Env) (fl : Flags) (hdry : fl.flagDryRun = true) :
    (∀ c ∈ (runWork env fl).2.calls, c.isRead = true ∧ c.isMutating = false) ∧
    (∀ c ∈ (runAddressPRComments env fl).2.calls, c.isRead = true ∧ c.isMutating = false) ∧
    ((runWork env fl).1 = .ok () →
      ∃ ticket, JiraClient.GetTicket env [Call.GetTicket fl.flagTicket] fl.flagTicket = .ok ticket ∧
        Output.log "info"
          (workFields fl ++ [("prompt", ticket.FormatAsPrompt fl.flagPromptPrefix)])
          "[dry-run] would invoke Claude with prompt" ∈ (runWork env fl).2.out) ∧
    ((runAddressPRComments env fl).1 = .ok () →
      ∃ repoPath prNumber hist comments,
        resolveRepoPath env fl = .ok repoPath ∧
        GitHub.GetPRComments env repoPath (hist ++ [Call.GetPRComments prNumber]) prNumber =
          .ok comments ∧
        ((comments.Comments = [] ∧
          (runAddressPRComments env fl).2.calls = hist ++ [Call.GetPRComments prNumber]) ∨
         ((runAddressPRComments env fl).2.calls =
            hist ++ [Call.GetPRComments prNumber, Call.HasChanges] ∧
          Output.print (FormatCommentsAsPrompt comments fl.flagPromptPrefix ++ "\n") ∈
            (runAddressPRComments env fl).2.out))) := by
  obtain ⟨hw1, hw2⟩ := runWork_dry env fl hdry
  refine ⟨hw1, ?_, hw2, ?_⟩
  · unfold runAddressPRComments
    cases hp : resolveRepoPath env fl with
    | error e => simp
    | ok repoPath =>
      simp only []
      by_cases hn : fl.flagPRNumber = 0
      · simp only [hn, if_true, Run.call_calls, Run.log_calls, List.nil_append]
        cases hd : GitHub.GetPRForBranch env repoPath [Call.GetPRForBranch] with
        | error e => simp [Call.isRead, Call.isMutating]
        | ok detected =>
          simp only []
          rcases (runAddressPRComments.fetch_dry env fl repoPath detected
            (((Run.mk [] []).log "info" [] "detecting PR from current branch").call
              Call.GetPRForBranch) hdry).1 with h | h <;>
            rw [h] <;> simp [Call.isRead, Call.isMutating]
      · simp only [hn, if_false]
        rcases (runAddressPRComments.fetch_dry env fl repoPath fl.flagPRNumber
          (Run.mk [] []) hdry).1 with h | h <;>
          rw [h] <;> simp [Call.isRead, Call.isMutating]
  · unfold runAddressPRComments
    cases hp : resolveRepoPath env fl with
    | error e => simp
    | ok repoPath =>
      simp only []
      by_cases hn : fl.flagPRNumber = 0
      · simp only [hn, if_true, Run.call_calls, Run.log_calls, List.nil_append]
        cases hd : GitHub.GetPRForBranch env repoPath [Call.GetPRForBranch] with
        | error e => simp
        | ok detected =>
          simp only []
          intro hok
          obtain ⟨comments, h1, h2⟩ := (runAddressPRComments.fetch_dry env fl repoPath detected
            (((Run.mk [] []).log "info" [] "detecting PR from current branch").call
              Call.GetPRForBranch) hdry).2 hok
          exact ⟨repoPath, detected, [Call.GetPRForBranch], comments, rfl, h1, h2⟩
      · simp only [hn, if_false]
        intro hok
        obtain ⟨comments, h1, h2⟩ := (runAddressPRComments.fetch_dry env fl repoPath
          fl.flagPRNumber (Run.mk [] []) hdry).2 hok
        exact ⟨repoPath, fl.flagPRNumber, [], comments, rfl, h1, h2⟩

theorem dryRun_makes_read_calls_only_witness :
    (sampleFlags true false).flagDryRun = true ∧
    (runWork (sampleEnv false true 0) (sampleFlags true false)).2.calls =
      [Call.GetTicket "PROJ-42", Call.EnsureClean] ∧
    (∀ c ∈ (runWork (sampleEnv false true 0) (sampleFlags true false)).2.calls,
      c.isRead = true ∧ c.isMutating = false) ∧
    (runAddressPRComments (sampleEnv false true 0) (sampleFlags true false)).2.calls =
      [Call.GetPRForBranch, Call.GetPRComments 7, Call.HasChanges] ∧
    (∀ c ∈ (runAddressPRComments (sampleEnv false true 0) (sampleFlags true false)).2.calls,
      c.isRead = true ∧ c.isMutating = false) :=
  ⟨rfl, by decide,
   (dryRun_makes_read_calls_only (sampleEnv false true 0) (sampleFlags true false) rfl).1,
   by decide,
   (dryRun_makes_read_calls_only (sampleEnv false true 0) (sampleFlags true false) rfl).2.1⟩

/-! ## The implement workflow outside a dry run -/

/-- Step 7 outside a dry run: one `CreatePR` call. -/
theorem runWork.step7_calls (env : Env) (fl : Flags) (conf : Config) (repoPath baseBranch : String)
    (ticket : Ticket) (r : Run) (hdry : fl.flagDryRun = false) :
    (runWork.step7 env fl conf repoPath baseBranch ticket r).2.calls =
      r.calls ++ [Call.CreatePR (runWork.prTitle ticket)
        (FormatPRBody ticket.Key ticket.Summary conf.JiraHost) baseBranch] := by
  cases hcp : GitHub.CreatePR env repoPath (r.calls ++ [Call.CreatePR (runWork.prTitle ticket)
        (FormatPRBody ticket.Key ticket.Summary conf.JiraHost) baseBranch]) (runWork.prTitle ticket)
        (FormatPRBody ticket.Key ticket.Summary conf.JiraHost) baseBranch <;>
    simp [runWork.step7, hdry, hcp, runWork.finish]

/-- Step 6 outside a dry run: `HasChanges`, then staging, commit, push and PR
calls only; when `HasChanges` answers false the run ends there without error. -/
theorem runWork.step6_calls (env : Env) (fl : Flags) (conf : Config) (repoPath baseBranch : String)
    (ticket : Ticket) (r : Run) (hdry : fl.flagDryRun = false) :
    ∃ rest, (runWork.step6 env fl conf repoPath baseBranch ticket r).2.calls =
        r.calls ++ Call.HasChanges :: rest ∧
      (∀ c ∈ rest, c.isPublish = true) ∧
      (Git.HasChanges env repoPath (r.calls ++ [Call.HasChanges]) = .ok false →
        rest = [] ∧ (runWork.step6 env fl conf repoPath baseBranch ticket r).1 = .ok ()) := by
  unfold runWork.step6
  simp only [hdry, Run.log_calls, Run.call_calls]
  cases hh : Git.HasChanges env repoPath (r.calls ++ [Call.HasChanges]) with
  | error e => exact ⟨[], by simp⟩
  | ok b =>
    cases b with
    | false => exact ⟨[], by simp⟩
    | true =>
      cases ha : Git.AddAll env repoPath (r.calls ++ [Call.HasChanges, Call.AddAll]) with
      | error e => exact ⟨[Call.AddAll], by simp [ha, Call.isPublish]⟩
      | ok u =>
        cases hc : Git.Commit env repoPath (r.calls ++ [Call.HasChanges, Call.AddAll,
            Call.Commit (runWork.commitMsg ticket)]) (runWork.commitMsg ticket) with
        | error e =>
          exact ⟨[Call.AddAll, Call.Commit (runWork.commitMsg ticket)],
            by simp [ha, hc, Call.isPublish]⟩
        | ok u =>
          cases hp : Git.Push env repoPath (r.calls ++ [Call.HasChanges, Call.AddAll,
            Call.Commit (runWork.commitMsg ticket), Call.Push]) with
          | error e =>
            exact ⟨[Call.AddAll, Call.Commit (runWork.commitMsg ticket), Call.Push],
              by simp [ha, hc, hp, Call.isPublish]⟩
          | ok u =>
            refine ⟨[Call.AddAll, Call.Commit (runWork.commitMsg ticket), Call.Push,
              Call.CreatePR (runWork.prTitle ticket)
                (FormatPRBody ticket.Key ticket.Summary conf.JiraHost) baseBranch], ?_⟩
            simp [ha, hc, hp, Call.isPublish, runWork.step7_calls _ _ _ _ _ _ _ hdry]

/-- Step 5 outside a dry run: the agent is called with the formatted prompt; the
run ends there with an error, or goes on with `HasChanges` and step 6. -/
theorem runWork.step5_calls (env : Env) (fl : Flags) (conf : Config) (repoPath baseBranch : String)
    (ticket : Ticket) (r : Run) (hdry : fl.flagDryRun = false) :
    ∃ rest, (runWork.step5 env fl conf repoPath baseBranch ticket r).2.calls =
        r.calls ++ Call.Run (ticket.FormatAsPrompt fl.flagPromptPrefix) :: rest ∧
      ((rest = [] ∧ isError (runWork.step5 env fl conf repoPath baseBranch ticket r).1) ∨
       (∃ rest', rest = Call.HasChanges :: rest' ∧ (∀ c ∈ rest', c.isPublish = true) ∧
        (Git.HasChanges env repoPath
            (r.calls ++ [Call.Run (ticket.FormatAsPrompt fl.flagPromptPrefix), Call.HasChanges]) =
            .ok false →
          rest' = [] ∧ (runWork.step5 env fl conf repoPath baseBranch ticket r).1 = .ok ()))) := by
  unfold runWork.step5
  simp only [hdry, Run.log_calls, Run.call_calls]
  cases hr : Claude.Run env repoPath
      (r.calls ++ [Call.Run (ticket.FormatAsPrompt fl.flagPromptPrefix)])
      (ticket.FormatAsPrompt fl.flagPromptPrefix) with
  | error e => exact ⟨[], by simp [isError]⟩
  | ok u =>
    obtain ⟨rest', h1, h2, h3⟩ := runWork.step6_calls env fl conf repoPath baseBranch ticket
      ((r.log "info" (workFields fl) "invoking Claude Code").call
        (Call.Run (ticket.FormatAsPrompt fl.flagPromptPrefix))) hdry
    refine ⟨Call.HasChanges :: rest', ?_, Or.inr ⟨rest', rfl, h2, ?_⟩⟩
    · simpa using h1
    · intro hh
      simpa using h3 (by simpa using hh)

/-- Step 4 outside a dry run when the branch exists: `BranchExists`, `DeleteBranch`,
`CreateBranch`; an error of either ends the run, otherwise step 5 follows. -/
theorem runWork.step4_exists (env : Env) (fl : Flags) (conf : Config)
    (repoPath baseBranch : String) (ticket : Ticket) (r : Run) (hdry : fl.flagDryRun = false)
    (n : String) (hn : n = runWork.branchName conf ticket)
    (hbe : Git.BranchExists env repoPath (r.calls ++ [Call.BranchExists n]) n = true) :
    (isError (Git.DeleteBranch env repoPath
        (r.calls ++ [Call.BranchExists n, Call.DeleteBranch n]) n) ∧
      (runWork.step4 env fl conf repoPath baseBranch ticket r).2.calls =
        r.calls ++ [Call.BranchExists n, Call.DeleteBranch n] ∧
      isError (runWork.step4 env fl conf repoPath baseBranch ticket r).1) ∨
    (Git.DeleteBranch env repoPath (r.calls ++ [Call.BranchExists n, Call.DeleteBranch n]) n =
        .ok () ∧
      ((isError (Git.CreateBranch env repoPath
            (r.calls ++ [Call.BranchExists n, Call.DeleteBranch n, Call.CreateBranch n]) n) ∧
        (runWork.step4 env fl conf repoPath baseBranch ticket r).2.calls =
          r.calls ++ [Call.BranchExists n, Call.DeleteBranch n, Call.CreateBranch n] ∧
        isError (runWork.step4 env fl conf repoPath baseBranch ticket r).1) ∨
       (Git.CreateBranch env repoPath
            (r.calls ++ [Call.BranchExists n, Call.DeleteBranch n, Call.CreateBranch n]) n =
          .ok () ∧
        ∃ r5, r5.calls = r.calls ++ [Call.BranchExists n, Call.DeleteBranch n, Call.CreateBranch n] ∧
          runWork.step4 env fl conf repoPath baseBranch ticket r =
            runWork.step5 env fl conf repoPath baseBranch ticket r5))) := by
  subst hn
  unfold runWork.branchName at hbe ⊢
  cases hd : Git.DeleteBranch env repoPath (r.calls ++
      [Call.BranchExists (GenerateBranchName conf.BranchPrefix ticket.Key ticket.Summary),
       Call.DeleteBranch (GenerateBranchName conf.BranchPrefix ticket.Key ticket.Summary)])
      (GenerateBranchName conf.BranchPrefix ticket.Key ticket.Summary) with
  | error e =>
    left
    simp [runWork.step4, hdry, hbe, hd, isError]
  | ok u =>
    right
    refine ⟨rfl, ?_⟩
    cases hc : Git.CreateBranch env repoPath (r.calls ++
      [Call.BranchExists (GenerateBranchName conf.BranchPrefix ticket.Key ticket.Summary),
       Call.DeleteBranch (GenerateBranchName conf.BranchPrefix ticket.Key ticket.Summary),
       Call.CreateBranch (GenerateBranchName conf.BranchPrefix ticket.Key ticket.Summary)])
      (GenerateBranchName conf.BranchPrefix ticket.Key ticket.Summary) with
    | error e =>
      left
      simp [runWork.step4, hdry, hbe, hd, hc, isError]
    | ok u =>
      right
      refine ⟨rfl, ?_⟩
      simp only [runWork.step4, hdry, hbe, hd, hc, Run.call_calls, Run.log_calls,
        List.append_assoc, List.singleton_append, List.cons_append, List.nil_append, if_true,
        Bool.false_eq_true, if_false]
      exact ⟨_, by simp, rfl⟩

/-- Step 4 outside a dry run when the branch does not exist: `BranchExists`, then
`CreateBranch`; an error ends the run, otherwise step 5 follows. -/
theorem runWork.step4_fresh (env : Env) (fl : Flags) (conf : Config)
    (repoPath baseBranch : String) (ticket : Ticket) (r : Run) (hdry : fl.flagDryRun = false)
    (n : String) (hn : n = runWork.branchName conf ticket)
    (hbe : Git.BranchExists env repoPath (r.calls ++ [Call.BranchExists n]) n = false) :
    (isError (Git.CreateBranch env repoPath
        (r.calls ++ [Call.BranchExists n, Call.CreateBranch n]) n) ∧
      (runWork.step4 env fl conf repoPath baseBranch ticket r).2.calls =
        r.calls ++ [Call.BranchExists n, Call.CreateBranch n] ∧
      isError (runWork.step4 env fl conf repoPath baseBranch ticket r).1) ∨
    (Git.CreateBranch env repoPath (r.calls ++ [Call.BranchExists n, Call.CreateBranch n]) n =
        .ok () ∧
      ∃ r5, r5.calls = r.calls ++ [Call.BranchExists n, Call.CreateBranch n] ∧
        runWork.step4 env fl conf repoPath baseBranch ticket r =
          runWork.step5 env fl conf repoPath baseBranch ticket r5) := by
  subst hn
  unfold runWork.branchName at hbe ⊢
  cases hc : Git.CreateBranch env repoPath (r.calls ++
      [Call.BranchExists (GenerateBranchName conf.BranchPrefix ticket.Key ticket.Summary),
       Call.CreateBranch (GenerateBranchName conf.BranchPrefix ticket.Key ticket.Summary)])
      (GenerateBranchName conf.BranchPrefix ticket.Key ticket.Summary) with
  | error e =>
    left
    simp [runWork.step4, hdry, hbe, hc, isError]
  | ok u =>
    right
    refine ⟨rfl, ?_⟩
    simp only [runWork.step4, hdry, hbe, hc, Run.call_calls, Run.log_calls,
      List.append_assoc, List.singleton_append, List.cons_append, List.nil_append, if_true,
      Bool.false_eq_true, if_false]
    exact ⟨_, by simp, rfl⟩

/-- Step 3 outside a dry run: `Checkout` of the base branch, whose error ends the
run, then `Pull`, whose error does not, then step 4. -/
theorem runWork.step3_calls (env : Env) (fl : Flags) (conf : Config)
    (repoPath baseBranch : String) (ticket : Ticket) (r : Run) (hdry : fl.flagDryRun = false) :
    (isError (Git.Checkout env repoPath (r.calls ++ [Call.Checkout baseBranch]) baseBranch) ∧
      (runWork.step3 env fl conf repoPath baseBranch ticket r).2.calls =
        r.calls ++ [Call.Checkout baseBranch] ∧
      isError (runWork.step3 env fl conf repoPath baseBranch ticket r).1) ∨
    (Git.Checkout env repoPath (r.calls ++ [Call.Checkout baseBranch]) baseBranch = .ok () ∧
      ∃ r4, r4.calls = r.calls ++ [Call.Checkout baseBranch, Call.Pull] ∧
        runWork.step3 env fl conf repoPath baseBranch ticket r =
          runWork.step4 env fl conf repoPath baseBranch ticket r4) := by
  cases hc : Git.Checkout env repoPath (r.calls ++ [Call.Checkout baseBranch]) baseBranch with
  | error e =>
    left
    simp [runWork.step3, hdry, hc, isError]
  | ok u =>
    right
    refine ⟨rfl, ?_⟩
    cases hp : Git.Pull env repoPath (r.calls ++ [Call.Checkout baseBranch, Call.Pull]) with
    | error e =>
      simp only [runWork.step3, hdry, hc, hp, Run.call_calls, Run.log_calls,
        List.append_assoc, List.singleton_append, List.cons_append, List.nil_append,
        Bool.not_false, if_true]
      exact ⟨_, by simp, rfl⟩
    | ok u =>
      simp only [runWork.step3, hdry, hc, hp, Run.call_calls, Run.log_calls,
        List.append_assoc, List.singleton_append, List.cons_append, List.nil_append,
        Bool.not_false, if_true]
      exact ⟨_, by simp, rfl⟩

/-- A list splits in one way only around an element satisfying `p`, when no other
element satisfies `p`. -/
theorem split_unique {α : Type} (p : α → Bool) :
    ∀ (a : List α) {b a' b' : List α} {x x' : α},
      (∀ y ∈ a, p y = false) → (∀ y ∈ b, p y = false) → p x' = true →
      a ++ x :: b = a' ++ x' :: b' → a' = a ∧ x' = x ∧ b' = b
  | [], b, a', b', x, x', _, hb, hx', h => by
    cases a' with
    | nil =>
      simp only [List.nil_append, List.cons.injEq] at h
      exact ⟨rfl, h.1.symm, h.2.symm⟩
    | cons y a'' =>
      simp only [List.nil_append, List.cons_append, List.cons.injEq] at h
      have hmem : x' ∈ b := by rw [h.2]; simp
      have := hb x' hmem
      rw [hx'] at this
      exact absurd this (by decide)
  | z :: a0, b, a', b', x, x', ha, hb, hx', h => by
    cases a' with
    | nil =>
      simp only [List.nil_append, List.cons_append, List.cons.injEq] at h
      have := ha z (by simp)
      rw [h.1, hx'] at this
      exact absurd this (by decide)
    | cons y a'' =>
      simp only [List.cons_append, List.cons.injEq] at h
      obtain ⟨h1, h2, h3⟩ := split_unique p a0 (fun y hy => ha y (by simp [hy])) hb hx' h.2
      exact ⟨by rw [h.1, h1], h2, h3⟩

/-- Outside a dry run, `runWork` ends with an error within the first three steps,
or reaches step 4 after `GetTicket`, `EnsureClean`, `Checkout` and `Pull`. -/
theorem runWork_to_step4 (env : Env) (fl : Flags) (hdry : fl.flagDryRun = false) :
    (((runWork env fl).2.calls = [] ∨
      (runWork env fl).2.calls = [Call.GetTicket fl.flagTicket] ∨
      (runWork env fl).2.calls = [Call.GetTicket fl.flagTicket, Call.EnsureClean] ∨
      ∃ b, (runWork env fl).2.calls = [Call.GetTicket fl.flagTicket, Call.EnsureClean,
        Call.Checkout b]) ∧ isError (runWork env fl).1) ∨
    (∃ conf repoPath ticket r4,
      env.loadConfig = .ok conf ∧ resolveRepoPath env fl = .ok repoPath ∧
      JiraClient.GetTicket env [Call.GetTicket fl.flagTicket] fl.flagTicket = .ok ticket ∧
      r4.calls = [Call.GetTicket fl.flagTicket, Call.EnsureClean,
        Call.Checkout (baseBranchOf fl conf), Call.Pull] ∧
      runWork env fl = runWork.step4 env fl conf repoPath (baseBranchOf fl conf) ticket r4) := by
  rcases runWork_cases env fl with ⟨e, h1, h2⟩ | ⟨e, h1, h2, -⟩ | ⟨conf, repoPath, ticket, hc, hp, ht, hr⟩
  · exact Or.inl ⟨Or.inl h2, e, h1⟩
  · exact Or.inl ⟨Or.inr (Or.inl h2), e, h1⟩
  · rcases hr with ⟨e, -, hr⟩ | ⟨-, hr⟩
    · exact Or.inl ⟨Or.inr (Or.inr (Or.inl (by rw [hr]; rfl))), _, by rw [hr]⟩
    · rcases runWork.step3_calls env fl conf repoPath (baseBranchOf fl conf) ticket
        (runWork.atStep3 fl conf repoPath ticket) hdry with ⟨-, h2, h3⟩ | ⟨-, r4, h4, h5⟩
      · exact Or.inl ⟨Or.inr (Or.inr (Or.inr ⟨_, by rw [hr, h2]; rfl⟩)), by rw [hr]; exact h3⟩
      · exact Or.inr ⟨conf, repoPath, ticket, r4, hc, hp, ht, by rw [h4]; rfl, by rw [hr, h5]⟩

/-- Outside a dry run, `runWork` ends with an error within the first four steps,
having made setup calls only, or reaches step 5 after setup calls only. -/
theorem runWork_to_step5 (env : Env) (fl : Flags) (hdry : fl.flagDryRun = false) :
    ((∀ c ∈ (runWork env fl).2.calls, c.isSetup = true) ∧ isError (runWork env fl).1) ∨
    (∃ conf repoPath ticket r5,
      env.loadConfig = .ok conf ∧ resolveRepoPath env fl = .ok repoPath ∧
      JiraClient.GetTicket env [Call.GetTicket fl.flagTicket] fl.flagTicket = .ok ticket ∧
      (∀ c ∈ r5.calls, c.isSetup = true) ∧
      runWork env fl = runWork.step5 env fl conf repoPath (baseBranchOf fl conf) ticket r5) := by
  rcases runWork_to_step4 env fl hdry with ⟨hcalls, herr⟩ | ⟨conf, repoPath, ticket, r4, hc, hp, ht, h4, hr⟩
  · left
    refine ⟨?_, herr⟩
    rcases hcalls with h | h | h | ⟨b, h⟩ <;> rw [h] <;> simp [Call.isSetup]
  · cases hbe : Git.BranchExists env repoPath
        (r4.calls ++ [Call.BranchExists (runWork.branchName conf ticket)])
        (runWork.branchName conf ticket) with
    | true =>
      rcases runWork.step4_exists env fl conf repoPath (baseBranchOf fl conf) ticket r4 hdry _ rfl
        hbe with ⟨-, h2, h3⟩ | ⟨-, ⟨-, h2, h3⟩ | ⟨-, r5, h5, h6⟩⟩
      · left; rw [hr, h2, h4]; exact ⟨by simp [Call.isSetup], h3⟩
      · left; rw [hr, h2, h4]; exact ⟨by simp [Call.isSetup], h3⟩
      · right
        exact ⟨conf, repoPath, ticket, r5, hc, hp, ht, by rw [h5, h4]; simp [Call.isSetup],
          by rw [hr, h6]⟩
    | false =>
      rcases runWork.step4_fresh env fl conf repoPath (baseBranchOf fl conf) ticket r4 hdry _ rfl
        hbe with ⟨-, h2, h3⟩ | ⟨-, r5, h5, h6⟩
      · left; rw [hr, h2, h4]; exact ⟨by simp [Call.isSetup], h3⟩
      · right
        exact ⟨conf, repoPath, ticket, r5, hc, hp, ht, by rw [h5, h4]; simp [Call.isSetup],
          by rw [hr, h6]⟩

theorem Call.isRun_of_isSetup {c : Call} (h : c.isSetup = true) : c.isRun = false := by
  cases c <;> simp_all [Call.isSetup, Call.isRun]

theorem Call.isRun_of_isPublish {c : Call} (h : c.isPublish = true) : c.isRun = false := by
  cases c <;> simp_all [Call.isPublish, Call.isRun]

theorem Call.isPublish_of_isSetup {c : Call} (h : c.isSetup = true) : c.isPublish = false := by
  cases c <;> simp_all [Call.isSetup, Call.isPublish]

/-- Claim C2. In the implement workflow outside a dry run, a run whose `HasChanges`
call after the agent step reports no change returns nil, makes no further call,
and has made no `AddAll`, `Commit`, `Push` or `CreatePR` call. -/
theorem runWork_no_changes_is_success (env : Env) (fl : Flags) (repoPath prompt : String)
    (pre post : List Call)
    (hdry : fl.flagDryRun = false)
    (hrepo : resolveRepoPath env fl = .ok repoPath)
    (hcalls : (runWork env fl).2.calls = pre ++ Call.Run prompt :: Call.HasChanges :: post)
    (hno : Git.HasChanges env repoPath (pre ++ [Call.Run prompt, Call.HasChanges]) = .ok false) :
    (runWork env fl).1 = .ok () ∧ post = [] ∧
    ∀ c ∈ (runWork env fl).2.calls, c.isPublish = false := by
  rcases runWork_to_step5 env fl hdry with ⟨hs, -⟩ | ⟨conf, rp, ticket, r5, -, hp, -, hs, hr⟩
  · have := hs (Call.Run prompt) (by rw [hcalls]; simp)
    simp [Call.isSetup] at this
  · have hrp : rp = repoPath := by rw [hp] at hrepo; exact Except.ok.inj hrepo
    subst hrp
    obtain ⟨rest, h1, h2⟩ := runWork.step5_calls env fl conf rp (baseBranchOf fl conf) ticket r5 hdry
    rw [← hr] at h1 h2
    rw [h1] at hcalls
    have hrest : ∀ y ∈ rest, Call.isRun y = false := by
      rcases h2 with ⟨h, -⟩ | ⟨rest', h, hpub, -⟩
      · simp [h]
      · subst h
        intro y hy
        rcases List.mem_cons.mp hy with h | h
        · subst h; rfl
        · exact Call.isRun_of_isPublish (hpub y h)
    obtain ⟨hpre, hpr, hpost⟩ := split_unique Call.isRun r5.calls
      (fun y hy => Call.isRun_of_isSetup (hs y hy)) hrest (by rfl : Call.isRun (Call.Run prompt) = true) hcalls
    rcases h2 with ⟨h, -⟩ | ⟨rest', h, -, hfin⟩
    · rw [h] at hpost; cases hpost
    · rw [h] at hpost
      simp only [List.cons.injEq, true_and] at hpost
      simp only [Call.Run.injEq] at hpr
      subst hpre hpr hpost
      obtain ⟨hnil, hok⟩ := hfin hno
      refine ⟨hok, hnil, ?_⟩
      rw [h1, h, hnil]
      intro c hc
      simp only [List.mem_append, List.mem_cons, List.mem_singleton, List.not_mem_nil, or_false] at hc
      rcases hc with hc | hc | hc
      · exact Call.isPublish_of_isSetup (hs c hc)
      · subst hc; rfl
      · subst hc; rfl

theorem runWork_no_changes_is_success_witness :
    (sampleFlags false false).flagDryRun = false ∧
    resolveRepoPath (sampleEnv false false 0) (sampleFlags false false) = .ok "/repo" ∧
    (runWork (sampleEnv false false 0) (sampleFlags false false)).2.calls =
      [Call.GetTicket "PROJ-42", Call.EnsureClean, Call.Checkout "main", Call.Pull,
        Call.BranchExists "feature/proj-42-fix-login-bug",
        Call.CreateBranch "feature/proj-42-fix-login-bug"] ++
      Call.Run (sampleTicket.FormatAsPrompt "") :: Call.HasChanges :: [] ∧
    Git.HasChanges (sampleEnv false false 0) "/repo"
      ([Call.GetTicket "PROJ-42", Call.EnsureClean, Call.Checkout "main", Call.Pull,
        Call.BranchExists "feature/proj-42-fix-login-bug",
        Call.CreateBranch "feature/proj-42-fix-login-bug"] ++
       [Call.Run (sampleTicket.FormatAsPrompt ""), Call.HasChanges]) = .ok false ∧
    (runWork (sampleEnv false false 0) (sampleFlags false false)).1 = .ok () ∧
    ∀ c ∈ (runWork (sampleEnv false false 0) (sampleFlags false false)).2.calls,
      c.isPublish = false :=
  ⟨rfl, rfl, by decide, rfl,
   (runWork_no_changes_is_success (sampleEnv false false 0) (sampleFlags false false) "/repo"
      (sampleTicket.FormatAsPrompt "")
      [Call.GetTicket "PROJ-42", Call.EnsureClean, Call.Checkout "main", Call.Pull,
        Call.BranchExists "feature/proj-42-fix-login-bug",
        Call.CreateBranch "feature/proj-42-fix-login-bug"] [] rfl rfl (by decide) rfl).1,
   (runWork_no_changes_is_success (sampleEnv false false 0) (sampleFlags false false) "/repo"
      (sampleTicket.FormatAsPrompt "")
      [Call.GetTicket "PROJ-42", Call.EnsureClean, Call.Checkout "main", Call.Pull,
        Call.BranchExists "feature/proj-42-fix-login-bug",
        Call.CreateBranch "feature/proj-42-fix-login-bug"] [] rfl rfl (by decide) rfl).2.2⟩

/-- Step 5 outside a dry run makes no `BranchExists` call. -/
theorem runWork.step5_after (env : Env) (fl : Flags) (conf : Config) (repoPath baseBranch : String)
    (ticket : Ticket) (r : Run) (hdry : fl.flagDryRun = false) :
    ∃ rest, (runWork.step5 env fl conf repoPath baseBranch ticket r).2.calls =
        r.calls ++ Call.Run (ticket.FormatAsPrompt fl.flagPromptPrefix) :: rest ∧
      ∀ c ∈ rest, c.isAfterBranchExists = true := by
  obtain ⟨rest, h1, h2⟩ := runWork.step5_calls env fl conf repoPath baseBranch ticket r hdry
  refine ⟨rest, h1, ?_⟩
  rcases h2 with ⟨h, -⟩ | ⟨rest', h, hpub, -⟩
  · simp [h]
  · subst h
    intro c hc
    rcases List.mem_cons.mp hc with h | h
    · subst h; rfl
    · have := hpub c h
      cases c <;> simp_all [Call.isPublish, Call.isAfterBranchExists]

/-- Claim C3. In the implement workflow outside a dry run, a run that finds the
computed branch name `n` to exist calls `DeleteBranch n` next, then, when the
deletion succeeded, `CreateBranch n`, then, when the creation succeeded, the
agent; no agent call precedes them, and an error of `DeleteBranch` or of
`CreateBranch` ends the run with an error before any agent call. -/
theorem runWork_existing_branch_deleted_then_created (env : Env) (fl : Flags)
    (repoPath n : String) (pre post : List Call)
    (hdry : fl.flagDryRun = false)
    (hrepo : resolveRepoPath env fl = .ok repoPath)
    (hcalls : (runWork env fl).2.calls = pre ++ Call.BranchExists n :: post)
    (hex : Git.BranchExists env repoPath (pre ++ [Call.BranchExists n]) n = true) :
    (∃ conf ticket, env.loadConfig = .ok conf ∧
      JiraClient.GetTicket env [Call.GetTicket fl.flagTicket] fl.flagTicket = .ok ticket ∧
      n = GenerateBranchName conf.BranchPrefix ticket.Key ticket.Summary) ∧
    (∀ c ∈ pre, c.isRun = false) ∧
    ∃ post', post = Call.DeleteBranch n :: post' ∧
      (isError (Git.DeleteBranch env repoPath
          (pre ++ [Call.BranchExists n, Call.DeleteBranch n]) n) →
        post' = [] ∧ isError (runWork env fl).1 ∧
        ∀ c ∈ (runWork env fl).2.calls, c.isRun = false) ∧
      (Git.DeleteBranch env repoPath (pre ++ [Call.BranchExists n, Call.DeleteBranch n]) n =
          .ok () →
        ∃ post'', post' = Call.CreateBranch n :: post'' ∧
          (isError (Git.CreateBranch env repoPath
              (pre ++ [Call.BranchExists n, Call.DeleteBranch n, Call.CreateBranch n]) n) →
            post'' = [] ∧ isError (runWork env fl).1 ∧
            ∀ c ∈ (runWork env fl).2.calls, c.isRun = false) ∧
          (Git.CreateBranch env repoPath
              (pre ++ [Call.BranchExists n, Call.DeleteBranch n, Call.CreateBranch n]) n =
              .ok () →
            ∃ prompt rest, post'' = Call.Run prompt :: rest)) := by
  rcases runWork_to_step4 env fl hdry with ⟨hearly, -⟩ |
    ⟨conf, rp, ticket, r4, hc, hp, ht, h4, hr⟩
  · exfalso
    have hmem : Call.BranchExists n ∈ (runWork env fl).2.calls := by rw [hcalls]; simp
    rcases hearly with h | h | h | ⟨b, h⟩ <;> rw [h] at hmem <;> simp at hmem
  · have hrp : rp = repoPath := by rw [hp] at hrepo; exact Except.ok.inj hrepo
    subst hrp
    have hpre4 : ∀ y ∈ r4.calls, Call.isBranchExists y = false := by
      rw [h4]; simp [Call.isBranchExists]
    have hbe_after : ∀ {l : List Call}, (∀ c ∈ l, c.isAfterBranchExists = true) →
        ∀ y ∈ l, Call.isBranchExists y = false := by
      intro l hl y hy
      have := hl y hy
      cases y <;> simp_all [Call.isAfterBranchExists, Call.isBranchExists]
    have hrun4 : ∀ c ∈ r4.calls, c.isRun = false := by rw [h4]; simp [Call.isRun]
    -- the name asked for is the computed one, and `pre` is the trace up to step 4
    have key : ∀ (tail : List Call), (∀ c ∈ tail, c.isAfterBranchExists = true) →
        (runWork env fl).2.calls =
          r4.calls ++ Call.BranchExists (runWork.branchName conf ticket) :: tail →
        pre = r4.calls ∧ n = runWork.branchName conf ticket ∧ post = tail := by
      intro tail htail heq
      rw [heq] at hcalls
      obtain ⟨h1, h2, h3⟩ := split_unique Call.isBranchExists r4.calls hpre4 (hbe_after htail)
        (by rfl : Call.isBranchExists (Call.BranchExists n) = true) hcalls
      exact ⟨h1, by simpa using h2, h3⟩
    cases hbe : Git.BranchExists env rp
        (r4.calls ++ [Call.BranchExists (runWork.branchName conf ticket)])
        (runWork.branchName conf ticket) with
    | false =>
      exfalso
      rcases runWork.step4_fresh env fl conf rp (baseBranchOf fl conf) ticket r4 hdry _ rfl
        hbe with ⟨-, h2, -⟩ | ⟨-, r5, h5, h6⟩
      · obtain ⟨h1, h2', -⟩ := key [Call.CreateBranch (runWork.branchName conf ticket)]
          (by simp [Call.isAfterBranchExists]) (by rw [hr, h2])
        rw [h1, h2', hbe] at hex
        exact absurd hex (by decide)
      · obtain ⟨rest, h7, h8⟩ := runWork.step5_after env fl conf rp (baseBranchOf fl conf)
          ticket r5 hdry
        obtain ⟨h1, h2', -⟩ := key (Call.CreateBranch (runWork.branchName conf ticket) ::
            Call.Run (ticket.FormatAsPrompt fl.flagPromptPrefix) :: rest)
          (by
            intro c hc
            simp only [List.mem_cons] at hc
            rcases hc with h | h | h
            · subst h; rfl
            · subst h; rfl
            · exact h8 c h)
          (by rw [hr, h6, h7, h5]; simp)
        rw [h1, h2', hbe] at hex
        exact absurd hex (by decide)
    | true =>
      rcases runWork.step4_exists env fl conf rp (baseBranchOf fl conf) ticket r4 hdry _ rfl
        hbe with ⟨hde, h2, h3⟩ | ⟨hdo, ⟨hce, h2, h3⟩ | ⟨hco, r5, h5, h6⟩⟩
      · -- `DeleteBranch` failed
        obtain ⟨h1, h2', h3'⟩ := key [Call.DeleteBranch (runWork.branchName conf ticket)]
          (by simp [Call.isAfterBranchExists]) (by rw [hr, h2])
        subst h1 h2' h3'
        refine ⟨⟨conf, ticket, hc, ht, rfl⟩, hrun4, [], rfl, ?_, ?_⟩
        · intro _
          refine ⟨rfl, by rw [hr]; exact h3, ?_⟩
          rw [hr, h2, h4]; simp [Call.isRun]
        · intro hok
          obtain ⟨e, he⟩ := hde
          rw [he] at hok
          cases hok
      · -- `DeleteBranch` succeeded, `CreateBranch` failed
        obtain ⟨h1, h2', h3'⟩ := key [Call.DeleteBranch (runWork.branchName conf ticket),
            Call.CreateBranch (runWork.branchName conf ticket)]
          (by simp [Call.isAfterBranchExists]) (by rw [hr, h2])
        subst h1 h2' h3'
        refine ⟨⟨conf, ticket, hc, ht, rfl⟩, hrun4, _, rfl, ?_, ?_⟩
        · rintro ⟨e, he⟩
          rw [he] at hdo
          cases hdo
        · intro _
          refine ⟨[], rfl, ?_, ?_⟩
          · intro _
            refine ⟨rfl, by rw [hr]; exact h3, ?_⟩
            rw [hr, h2, h4]; simp [Call.isRun]
          · intro hok
            obtain ⟨e, he⟩ := hce
            rw [he] at hok
            cases hok
      · -- both succeeded: step 5 follows
        obtain ⟨rest, h7, h8⟩ := runWork.step5_after env fl conf rp (baseBranchOf fl conf)
          ticket r5 hdry
        obtain ⟨h1, h2', h3'⟩ := key (Call.DeleteBranch (runWork.branchName conf ticket) ::
            Call.CreateBranch (runWork.branchName conf ticket) ::
            Call.Run (ticket.FormatAsPrompt fl.flagPromptPrefix) :: rest)
          (by
            intro c hc
            simp only [List.mem_cons] at hc
            rcases hc with h | h | h | h
            · subst h; rfl
            · subst h; rfl
            · subst h; rfl
            · exact h8 c h)
          (by rw [hr, h6, h7, h5]; simp)
        subst h1 h2' h3'
        refine ⟨⟨conf, ticket, hc, ht, rfl⟩, hrun4, _, rfl, ?_, ?_⟩
        · rintro ⟨e, he⟩
          rw [he] at hdo
          cases hdo
        · intro _
          refine ⟨_, rfl, ?_, ?_⟩
          · rintro ⟨e, he⟩
            rw [he] at hco
            cases hco
          · intro _
            exact ⟨_, _, rfl⟩

theorem runWork_existing_branch_deleted_then_created_witness :
    (sampleFlags false false).flagDryRun = false ∧
    resolveRepoPath (sampleEnv true true 0) (sampleFlags false false) = .ok "/repo" ∧
    (runWork (sampleEnv true true 0) (sampleFlags false false)).2.calls =
      [Call.GetTicket "PROJ-42", Call.EnsureClean, Call.Checkout "main", Call.Pull] ++
      Call.BranchExists "feature/proj-42-fix-login-bug" ::
      [Call.DeleteBranch "feature/proj-42-fix-login-bug",
        Call.CreateBranch "feature/proj-42-fix-login-bug",
        Call.Run (sampleTicket.FormatAsPrompt ""), Call.HasChanges, Call.AddAll,
        Call.Commit "PROJ-42: Fix Login Bug!!\n\nImplemented by Claude Code", Call.Push,
        Call.CreatePR "PROJ-42: Fix Login Bug!!"
          (FormatPRBody "PROJ-42" "Fix Login Bug!!" "https://jira.example.com") "main"] ∧
    Git.BranchExists (sampleEnv true true 0) "/repo"
      ([Call.GetTicket "PROJ-42", Call.EnsureClean, Call.Checkout "main", Call.Pull] ++
        [Call.BranchExists "feature/proj-42-fix-login-bug"])
      "feature/proj-42-fix-login-bug" = true ∧
    ∃ conf ticket, (sampleEnv true true 0).loadConfig = .ok conf ∧
      JiraClient.GetTicket (sampleEnv true true 0) [Call.GetTicket "PROJ-42"] "PROJ-42" =
        .ok ticket ∧
      "feature/proj-42-fix-login-bug" =
        GenerateBranchName conf.BranchPrefix ticket.Key ticket.Summary :=
  ⟨rfl, rfl, by decide, rfl,
   (runWork_existing_branch_deleted_then_created (sampleEnv true true 0)
      (sampleFlags false false) "/repo" "feature/proj-42-fix-login-bug"
      [Call.GetTicket "PROJ-42", Call.EnsureClean, Call.Checkout "main", Call.Pull]
      [Call.DeleteBranch "feature/proj-42-fix-login-bug",
        Call.CreateBranch "feature/proj-42-fix-login-bug",
        Call.Run (sampleTicket.FormatAsPrompt ""), Call.HasChanges, Call.AddAll,
        Call.Commit "PROJ-42: Fix Login Bug!!\n\nImplemented by Claude Code", Call.Push,
        Call.CreatePR "PROJ-42: Fix Login Bug!!"
          (FormatPRBody "PROJ-42" "Fix Login Bug!!" "https://jira.example.com") "main"]
      rfl rfl (by decide) rfl).1⟩

/-! ## The reply phase -/

/-- The reply loop calls `ReplyToComment` once per comment, in order, whatever
the replies answer. -/
theorem postReplies_calls (env : Env) (repoPath : String) (prNumber : Int) :
    ∀ (comments : List ReviewComment) (r : Run),
      (postReplies env repoPath prNumber r comments).calls =
        r.calls ++ replyCalls prNumber comments
  | [], r => by simp [postReplies, replyCalls]
  | comment :: rest, r => by
    unfold postReplies
    simp only [Run.call_calls]
    cases GitHub.ReplyToComment env repoPath (r.calls ++
        [Call.ReplyToComment prNumber comment.ID replyBody]) prNumber comment.ID replyBody with
    | error e =>
      simp only []
      rw [postReplies_calls env repoPath prNumber rest]
      simp [replyCalls]
    | ok u =>
      simp only []
      rw [postReplies_calls env repoPath prNumber rest]
      simp [replyCalls]

/-- The end of `runAddressPRComments` returns nil; with `--with-replies` it
calls `ReplyToComment` once per comment, in order. -/
theorem runAddressPRComments.replies_calls (env : Env) (fl : Flags) (repoPath : String)
    (prNumber : Int) (comments : PRComments) (r : Run) :
    (runAddressPRComments.replies env fl repoPath prNumber comments r).1 = .ok () ∧
    (fl.flagWithReplies = true →
      (runAddressPRComments.replies env fl repoPath prNumber comments r).2.calls =
        r.calls ++ replyCalls prNumber comments.Comments) ∧
    (fl.flagWithReplies = false →
      (runAddressPRComments.replies env fl repoPath prNumber comments r).2.calls = r.calls ∧
      (replyPhaseEntered ∉ r.out →
        replyPhaseEntered ∉ (runAddressPRComments.replies env fl repoPath prNumber comments r).2.out)) := by
  refine ⟨rfl, ?_, ?_⟩
  · intro h
    simp [runAddressPRComments.replies, h, postReplies_calls]
  · intro h
    simp [runAddressPRComments.replies, h, replyPhaseEntered]

/-- From the agent call on, a run of `runAddressPRComments` that enters the reply
phase returns nil and ends with one reply call per comment, in order. -/
theorem runAddressPRComments.address_replies (env : Env) (fl : Flags) (repoPath : String)
    (prNumber : Int) (comments : PRComments) (prompt : String) (r : Run)
    (hm : replyPhaseEntered ∉ r.out)
    (hreach : replyPhaseEntered ∈
      (runAddressPRComments.address env fl repoPath prNumber comments prompt r).2.out) :
    (runAddressPRComments.address env fl repoPath prNumber comments prompt r).1 = .ok () ∧
    ∃ more, (∀ c ∈ more, c.isReply = false) ∧
      (runAddressPRComments.address env fl repoPath prNumber comments prompt r).2.calls =
        r.calls ++ more ++ replyCalls prNumber comments.Comments := by
  unfold replyPhaseEntered at hm hreach
  unfold runAddressPRComments.address at hreach ⊢
  simp only [Run.call_calls, Run.log_calls, List.append_assoc, List.cons_append,
    List.nil_append] at hreach ⊢
  cases hrun : Claude.Run env repoPath (r.calls ++ [Call.Run prompt]) prompt with
  | error e => simp [hrun, hm] at hreach
  | ok u =>
    simp only [hrun] at hreach ⊢
    cases hh : Git.HasChanges env repoPath (r.calls ++ [Call.Run prompt, Call.HasChanges]) with
    | error e => simp [hh, hm] at hreach
    | ok b =>
      simp only [hh] at hreach ⊢
      cases b with
      | false => simp [hm] at hreach
      | true =>
        simp only [Bool.not_true, Bool.false_eq_true, if_false] at hreach ⊢
        cases ha : Git.AddAll env repoPath
            (r.calls ++ [Call.Run prompt, Call.HasChanges, Call.AddAll]) with
        | error e => simp [ha, hm] at hreach
        | ok u =>
          simp only [ha] at hreach ⊢
          cases hc : Git.Commit env repoPath
              (r.calls ++ [Call.Run prompt, Call.HasChanges, Call.AddAll,
                Call.Commit (runAddressPRComments.commitMsg prNumber)])
              (runAddressPRComments.commitMsg prNumber) with
          | error e => simp [hc, hm] at hreach
          | ok u =>
            simp only [hc] at hreach ⊢
            have hwith : fl.flagWithReplies = true := by
              cases hw : fl.flagWithReplies with
              | true => rfl
              | false =>
                exfalso
                cases hnp : fl.flagNoPush with
                | true =>
                  simp only [hnp, Bool.not_true, Bool.false_eq_true, if_false] at hreach
                  refine (runAddressPRComments.replies_calls env fl repoPath prNumber comments
                    _).2.2 hw |>.2 ?_ hreach
                  simp [replyPhaseEntered, hm]
                | false =>
                  simp only [hnp, Bool.not_false, if_true] at hreach
                  cases hp : Git.Push env repoPath
                      (r.calls ++ [Call.Run prompt, Call.HasChanges, Call.AddAll,
                        Call.Commit (runAddressPRComments.commitMsg prNumber), Call.Push]) with
                  | error e => simp [hp, hm] at hreach
                  | ok u =>
                    simp only [hp] at hreach
                    refine (runAddressPRComments.replies_calls env fl repoPath prNumber comments
                      _).2.2 hw |>.2 ?_ hreach
                    simp [replyPhaseEntered, hm]
            cases hnp : fl.flagNoPush with
            | true =>
              simp only [hnp, Bool.not_true, Bool.false_eq_true, if_false] at hreach ⊢
              obtain ⟨h1, h2, -⟩ := runAddressPRComments.replies_calls env fl repoPath prNumber
                comments ((((((((r.log "info" [] "invoking Claude Code to address comments").call
                  (Call.Run prompt)).call Call.HasChanges).call Call.AddAll).call
                  (Call.Commit (runAddressPRComments.commitMsg prNumber))).log "info" []
                  "committed changes").log "info" [] "skipping push (--no-push specified)"))
              refine ⟨h1, [Call.Run prompt, Call.HasChanges, Call.AddAll,
                Call.Commit (runAddressPRComments.commitMsg prNumber)], by simp [Call.isReply], ?_⟩
              rw [h2 hwith]
              simp
            | false =>
              simp only [hnp, Bool.not_false, if_true] at hreach ⊢
              cases hp : Git.Push env repoPath
                  (r.calls ++ [Call.Run prompt, Call.HasChanges, Call.AddAll,
                    Call.Commit (runAddressPRComments.commitMsg prNumber), Call.Push]) with
              | error e => simp [hp, hm] at hreach
              | ok u =>
                simp only [hp] at hreach ⊢
                obtain ⟨h1, h2, -⟩ := runAddressPRComments.replies_calls env fl repoPath prNumber
                  comments (((((((((r.log "info" [] "invoking Claude Code to address comments").call
                    (Call.Run prompt)).call Call.HasChanges).call Call.AddAll).call
                    (Call.Commit (runAddressPRComments.commitMsg prNumber))).log "info" []
                    "committed changes").call Call.Push).log "info" [] "pushed changes to origin"))
                refine ⟨h1, [Call.Run prompt, Call.HasChanges, Call.AddAll,
                  Call.Commit (runAddressPRComments.commitMsg prNumber), Call.Push],
                  by simp [Call.isReply], ?_⟩
                rw [h2 hwith]
                simp

/-- From the fetch on, a run of `runAddressPRComments` that enters the reply phase
returns nil and ends with one reply call per fetched comment, in order. -/
theorem runAddressPRComments.fetch_replies (env : Env) (fl : Flags) (repoPath : String)
    (prNumber : Int) (r : Run)
    (hm : replyPhaseEntered ∉ r.out)
    (hreach : replyPhaseEntered ∈ (runAddressPRComments.fetch env fl repoPath prNumber r).2.out) :
    (runAddressPRComments.fetch env fl repoPath prNumber r).1 = .ok () ∧
    ∃ comments more,
      GitHub.GetPRComments env repoPath (r.calls ++ [Call.GetPRComments prNumber]) prNumber =
        .ok comments ∧
      (∀ c ∈ more, c.isReply = false) ∧
      (runAddressPRComments.fetch env fl repoPath prNumber r).2.calls =
        r.calls ++ Call.GetPRComments prNumber :: more ++ replyCalls prNumber comments.Comments := by
  have hm' := hm
  unfold replyPhaseEntered at hm' hreach
  unfold runAddressPRComments.fetch at hreach ⊢
  simp only [Run.call_calls, Run.log_calls, List.append_assoc, List.cons_append,
    List.nil_append] at hreach ⊢
  cases hg : GitHub.GetPRComments env repoPath (r.calls ++ [Call.GetPRComments prNumber])
      prNumber with
  | error e => simp [hg, hm'] at hreach
  | ok comments =>
    simp only [hg] at hreach ⊢
    by_cases hl : comments.Comments.length = 0
    · simp [hl, hm'] at hreach
    · simp only [hl, if_false] at hreach ⊢
      cases hh : Git.HasChanges env repoPath
          (r.calls ++ [Call.GetPRComments prNumber, Call.HasChanges]) with
      | error e => simp [hh, hm'] at hreach
      | ok b =>
        simp only [hh] at hreach ⊢
        cases hd : fl.flagDryRun with
        | true => cases b <;> simp [hd, hm'] at hreach
        | false =>
          simp only [hd, Bool.false_eq_true, if_false] at hreach ⊢
          obtain ⟨h1, more, h2, h3⟩ := runAddressPRComments.address_replies env fl repoPath prNumber
            comments (FormatCommentsAsPrompt comments fl.flagPromptPrefix) _
            (by cases b <;> simp [replyPhaseEntered, hm']) hreach
          refine ⟨h1, comments, Call.HasChanges :: more, rfl, ?_, ?_⟩
          · intro c hc
            rcases List.mem_cons.mp hc with h | h
            · subst h; rfl
            · exact h2 c h
          · rw [h3]
            cases b <;> simp

/-- Claim C4. In the address-comments workflow with `--with-replies`, a run that
enters the reply phase returns nil and its calls end with exactly one
`ReplyToComment` per fetched comment, in the fetched order, each with the
comment's ID; no reply call is made before; this holds whatever the replies
answer. -/
theorem runAddressPRComments_replies_to_every_comment (env : Env) (fl : Flags)
    (hwith : fl.flagWithReplies = true)
    (hreach : replyPhaseEntered ∈ (runAddressPRComments env fl).2.out) :
    (runAddressPRComments env fl).1 = .ok () ∧
    ∃ repoPath prNumber comments hist more,
      resolveRepoPath env fl = .ok repoPath ∧
      GitHub.GetPRComments env repoPath (hist ++ [Call.GetPRComments prNumber]) prNumber =
        .ok comments ∧
      (∀ c ∈ hist ++ Call.GetPRComments prNumber :: more, c.isReply = false) ∧
      (runAddressPRComments env fl).2.calls =
        hist ++ Call.GetPRComments prNumber :: more ++
          comments.Comments.map
            (fun comment => Call.ReplyToComment prNumber comment.ID "Addressed in latest commit.") := by
  have _ := hwith
  unfold runAddressPRComments at hreach ⊢
  cases hp : resolveRepoPath env fl with
  | error e => simp [hp, replyPhaseEntered] at hreach
  | ok repoPath =>
    simp only [hp] at hreach ⊢
    by_cases hn : fl.flagPRNumber = 0
    · simp only [hn, if_true, Run.call_calls, Run.log_calls, List.nil_append] at hreach ⊢
      cases hd : GitHub.GetPRForBranch env repoPath [Call.GetPRForBranch] with
      | error e => simp [hd, replyPhaseEntered] at hreach
      | ok detected =>
        simp only [hd] at hreach ⊢
        obtain ⟨h1, comments, more, h2, h3, h4⟩ := runAddressPRComments.fetch_replies env fl
          repoPath detected _ (by simp [replyPhaseEntered]) hreach
        refine ⟨h1, repoPath, detected, comments, [Call.GetPRForBranch], more, rfl, ?_, ?_, ?_⟩
        · simpa using h2
        · intro c hc
          simp only [List.cons_append, List.nil_append, List.mem_cons] at hc
          rcases hc with h | h | h
          · subst h; rfl
          · subst h; rfl
          · exact h3 c h
        · rw [h4]; simp [replyCalls, replyBody]
    · simp only [hn, if_false] at hreach ⊢
      obtain ⟨h1, comments, more, h2, h3, h4⟩ := runAddressPRComments.fetch_replies env fl
        repoPath fl.flagPRNumber _ (by simp [replyPhaseEntered]) hreach
      refine ⟨h1, repoPath, fl.flagPRNumber, comments, [], more, rfl, ?_, ?_, ?_⟩
      · simpa using h2
      · intro c hc
        simp only [List.nil_append, List.mem_cons] at hc
        rcases hc with h | h
        · subst h; rfl
        · exact h3 c h
      · rw [h4]; simp [replyCalls, replyBody]

theorem runAddressPRComments_replies_to_every_comment_witness :
    (sampleFlags false true).flagWithReplies = true ∧
    replyPhaseEntered ∈
      (runAddressPRComments (sampleEnv false true 102) (sampleFlags false true)).2.out ∧
    GitHub.ReplyToComment (sampleEnv false true 102) "/repo" [] 7 102
      "Addressed in latest commit." = .error "failed to post reply: HTTP 422" ∧
    (runAddressPRComments (sampleEnv false true 102) (sampleFlags false true)).2.calls.filter
        Call.isReply =
      [Call.ReplyToComment 7 101 "Addressed in latest commit.",
       Call.ReplyToComment 7 102 "Addressed in latest commit.",
       Call.ReplyToComment 7 103 "Addressed in latest commit."] ∧
    (runAddressPRComments (sampleEnv false true 102) (sampleFlags false true)).1 = .ok () :=
  ⟨rfl, by decide, rfl, by decide,
   (runAddressPRComments_replies_to_every_comment (sampleEnv false true 102)
      (sampleFlags false true) rfl (by decide)).1⟩

/-! ## Branch names -/

theorem isSlugRune_ne_dash {c : Char} (h : isSlugRune c = true) : c ≠ '-' := by
  rintro rfl
  exact absurd h (by decide)

/-- Every rune written by a replacement comes from the replacement text or is a
rune of the input outside the class. -/
theorem replaceAllRuns_mem (p : Char → Bool) (repl : List Char) :
    ∀ (l : List Char) (b : Bool) (c : Char), c ∈ replaceAllRuns p repl b l →
      c ∈ repl ∨ (c ∈ l ∧ p c = false)
  | [], b, c, h => by
    cases b <;> simp [replaceAllRuns] at h
    exact Or.inl h
  | x :: xs, b, c, h => by
    unfold replaceAllRuns at h
    by_cases hx : p x = true
    · rw [if_pos hx] at h
      rcases replaceAllRuns_mem p repl xs true c h with h' | ⟨h', h''⟩
      · exact Or.inl h'
      · exact Or.inr ⟨List.mem_cons_of_mem _ h', h''⟩
    · rw [if_neg hx] at h
      rcases List.mem_append.mp h with h' | h'
      · cases b
        · simp at h'
        · exact Or.inl (by simpa using h')
      · rcases List.mem_cons.mp h' with h'' | h''
        · subst h''
          exact Or.inr ⟨List.mem_cons_self _ _, by simpa using hx⟩
        · rcases replaceAllRuns_mem p repl xs false c h'' with h3 | ⟨h3, h4⟩
          · exact Or.inl h3
          · exact Or.inr ⟨List.mem_cons_of_mem _ h3, h4⟩

/-- After `nonAlphanumeric` has been replaced, the slug holds `[a-z0-9]` and `-` only. -/
theorem nonAlphanumericReplace_runes (s : List Char) :
    ∀ c ∈ nonAlphanumericReplace s, isSlugOrDash c = true := by
  intro c hc
  rcases replaceAllRuns_mem _ _ s false c hc with h | ⟨-, h⟩
  · simp at h; subst h; rfl
  · simp at h
    simp [isSlugOrDash, h]

/-- The shape of a replacement by `-` of the runs of non-slug runes: started
inside a match it begins with the `-` of that match, followed by no other `-`;
no two `-` are ever adjacent. -/
theorem replaceAllRuns_noDoubleDash :
    ∀ (l : List Char),
      NoDoubleDash (replaceAllRuns (fun c => !isSlugRune c) ['-'] false l) ∧
      ∃ t, replaceAllRuns (fun c => !isSlugRune c) ['-'] true l = '-' :: t ∧
        t.head? ≠ some '-' ∧ NoDoubleDash ('-' :: t)
  | [] => by
    refine ⟨by simp [replaceAllRuns, NoDoubleDash], [], by simp [replaceAllRuns], by simp, ?_⟩
    simp [NoDoubleDash]
  | x :: xs => by
    obtain ⟨ih1, t, ih2, ih3, ih4⟩ := replaceAllRuns_noDoubleDash xs
    by_cases hx : isSlugRune x = true
    · have hne := isSlugRune_ne_dash hx
      have hcons : NoDoubleDash
          (x :: replaceAllRuns (fun c => !isSlugRune c) ['-'] false xs) := by
        apply List.Chain'.cons' ih1
        intro y _ hxy
        exact hne hxy.1
      refine ⟨by simpa [replaceAllRuns, hx] using hcons, ?_⟩
      refine ⟨x :: replaceAllRuns (fun c => !isSlugRune c) ['-'] false xs,
        by simp [replaceAllRuns, hx], by simpa using hne, ?_⟩
      apply List.Chain'.cons' hcons
      intro y hy hxy
      simp at hy
      exact hne (hy ▸ hxy.2)
    · have hx' : isSlugRune x = false := by simpa using hx
      refine ⟨by simpa [replaceAllRuns, hx', ih2] using ih4, t, by simp [replaceAllRuns, hx', ih2],
        ih3, ih4⟩

theorem nonAlphanumericReplace_noDoubleDash (s : List Char) :
    NoDoubleDash (nonAlphanumericReplace s) :=
  (replaceAllRuns_noDoubleDash s).1

/-- Replacing the runs of `-` by `-` changes nothing where no two `-` are adjacent. -/
theorem multiDash_fixed :
    ∀ (l : List Char), NoDoubleDash l →
      replaceAllRuns (fun c => c == '-') ['-'] false l = l ∧
      (l.head? ≠ some '-' → replaceAllRuns (fun c => c == '-') ['-'] true l = '-' :: l)
  | [], _ => by simp [replaceAllRuns]
  | x :: xs, h => by
    have hxs : NoDoubleDash xs := List.Chain'.tail h
    obtain ⟨ih1, ih2⟩ := multiDash_fixed xs hxs
    by_cases hx : x = '-'
    · subst hx
      have hhead : xs.head? ≠ some '-' := by
        cases xs with
        | nil => simp
        | cons y ys =>
          have := (List.chain'_cons.mp h).1
          simpa using this
      refine ⟨by simp [replaceAllRuns, ih2 hhead], by simp⟩
    · have hx' : (x == '-') = false := by simpa using hx
      refine ⟨by simp [replaceAllRuns, hx', ih1], fun _ => by simp [replaceAllRuns, hx', ih1]⟩

/-- The step "collapse multiple dashes" changes nothing after the first replacement. -/
theorem multiDashReplace_nonAlphanumericReplace (s : List Char) :
    multiDashReplace (nonAlphanumericReplace s) = nonAlphanumericReplace s :=
  (multiDash_fixed _ (nonAlphanumericReplace_noDoubleDash s)).1

theorem utf8Size_of_le {c : Char} (h : c ≤ 'z') : c.utf8Size = 1 := by
  have h1 : c.val ≤ 'z'.val := h
  have h2 : c.val.toNat ≤ 122 := by
    have := UInt32.le_def.mp h1
    simpa using this
  unfold Char.utf8Size
  simp only []
  rw [if_pos]
  show c.val.toNat ≤ 127
  omega

theorem isSlugOrDash_utf8Size {c : Char} (h : isSlugOrDash c = true) : c.utf8Size = 1 := by
  apply utf8Size_of_le
  show c.val ≤ 'z'.val
  apply UInt32.le_def.mpr
  simp only [isSlugOrDash, isSlugRune, Bool.or_eq_true, Bool.and_eq_true, decide_eq_true_eq,
    beq_iff_eq] at h
  rcases h with (⟨-, h⟩ | ⟨-, h⟩) | h
  · exact UInt32.le_def.mp h
  · have h1 : c.val ≤ '9'.val := h
    have h2 := UInt32.le_def.mp h1
    have h3 : ('9'.val).val ≤ ('z'.val).val := by decide
    exact le_trans h2 h3
  · subst h; decide

/-- On a slug the number of bytes is the number of runes. -/
theorem slugRunes_byteLen : ∀ (l : List Char), (∀ c ∈ l, isSlugOrDash c = true) →
    byteLen l = l.length
  | [], _ => rfl
  | x :: xs, h => by
    have ih := slugRunes_byteLen xs (fun c hc => h c (List.mem_cons_of_mem _ hc))
    have hx := isSlugOrDash_utf8Size (h x (List.mem_cons_self _ _))
    simp only [byteLen, List.map, List.sum_cons, List.length_cons] at ih ⊢
    omega

theorem trimRightDash_mem {l : List Char} {c : Char} (h : c ∈ trimRightDash l) : c ∈ l :=
  (List.rdropWhile_prefix _ _).subset h

theorem trimDash_mem {l : List Char} {c : Char} (h : c ∈ trimDash l) : c ∈ l :=
  (List.dropWhile_sublist _).subset (trimRightDash_mem h)

theorem trimRightDash_getLast (l : List Char) : (trimRightDash l).getLast? ≠ some '-' := by
  intro h
  have hne : trimRightDash l ≠ [] := by
    intro h0
    rw [h0] at h
    simp at h
  have hlast := List.rdropWhile_last_not (fun c => c == '-') l hne
  rw [List.getLast?_eq_getLast _ hne] at h
  have : (trimRightDash l).getLast hne = '-' := Option.some.inj h
  apply hlast
  show ((trimRightDash l).getLast hne == '-') = true
  simp [this]

theorem trimRightDash_trimRightDash (l : List Char) :
    trimRightDash (trimRightDash l) = trimRightDash l :=
  List.rdropWhile_idempotent _ _

theorem trimRightDash_length (l : List Char) : (trimRightDash l).length ≤ l.length :=
  (List.rdropWhile_prefix _ _).length_le

/-- The slug before truncation holds `[a-z0-9]` and `-` only. -/
theorem trimmed_runes (s : List Char) :
    ∀ c ∈ trimDash (multiDashReplace (nonAlphanumericReplace s)), isSlugOrDash c = true := by
  intro c hc
  rw [multiDashReplace_nonAlphanumericReplace] at hc
  exact nonAlphanumericReplace_runes s c (trimDash_mem hc)

/-- The generated slug holds `[a-z0-9]` and `-` only. -/
theorem slugOf_runes (s : List Char) : ∀ c ∈ slugOf s, isSlugOrDash c = true := by
  intro c hc
  unfold slugOf at hc
  simp only [] at hc
  split at hc
  · exact trimmed_runes _ c ((List.take_subset _ _) (trimRightDash_mem hc))
  · exact trimmed_runes _ c hc

/-- A replacement started inside a match writes `-` and goes on after the run. -/
theorem replaceAllRuns_true (p : Char → Bool) :
    ∀ (l : List Char), replaceAllRuns p ['-'] true l =
      '-' :: replaceAllRuns p ['-'] false (l.dropWhile p)
  | [] => by simp [replaceAllRuns]
  | x :: xs => by
    by_cases hx : p x = true
    · simp [replaceAllRuns, hx, List.dropWhile, replaceAllRuns_true p xs]
    · have hx' : p x = false := by simpa using hx
      simp [replaceAllRuns, hx', List.dropWhile]

/-- The replacement of `nonAlphanumeric` replaces every maximal run by one `-`. -/
theorem nonAlphanumericReplace_eq_dashRuns (l : List Char) :
    nonAlphanumericReplace l = dashRuns l := by
  unfold nonAlphanumericReplace
  induction l using dashRuns.induct with
  | case1 => simp [replaceAllRuns, dashRuns]
  | case2 c cs h ih =>
    rw [dashRuns, if_pos h]
    simp [replaceAllRuns, h, ih]
  | case3 c cs h ih =>
    rw [dashRuns, if_neg h]
    have h' : isSlugRune c = false := by simpa using h
    simp [replaceAllRuns, h', replaceAllRuns_true, ih]

/-- The slug of the code is the slug of the specification. -/
theorem slugOf_eq_specSlug (s : List Char) : slugOf s = specSlug s := by
  unfold slugOf specSlug
  simp only [multiDashReplace_nonAlphanumericReplace]
  simp only [nonAlphanumericReplace_eq_dashRuns]
  have hrunes : ∀ c ∈ trimDash (dashRuns (toLower s)), isSlugOrDash c = true := by
    have := trimmed_runes (toLower s)
    rwa [multiDashReplace_nonAlphanumericReplace, nonAlphanumericReplace_eq_dashRuns] at this
  rw [slugRunes_byteLen _ hrunes]
  split
  · rfl
  · rename_i h
    have hle : (trimDash (dashRuns (toLower s))).length ≤ 50 := by
      simpa [maxSlugLen] using h
    rw [List.take_of_length_le hle]
    exact (trimRightDash_trimRightDash _).symm

/-- The branch name is the prefix, the lower-cased key and, for a non-empty slug,
`-` and the slug. -/
theorem generateBranchName_data (pfx ticketKey summary : String) :
    (GenerateBranchName pfx ticketKey summary).data =
      pfx.data ++ (toLower ticketKey.data ++
        (if slugOf summary.data = [] then [] else '-' :: slugOf summary.data)) := by
  unfold GenerateBranchName
  by_cases h : slugOf summary.data = [] <;> simp [h]

/-- Claim C5. `GenerateBranchName` returns the branch name of the specification:
`prefix ++ lower(key)` for an empty slug, `prefix ++ lower(key) ++ "-" ++ slug`
otherwise, with the slug obtained by lower-casing the summary, replacing every
maximal run of non-alphanumeric characters by `-`, trimming `-` on both sides,
truncating to 50 characters and trimming trailing `-`.  On
(`feature/`, `PROJ-42`, `Fix Login Bug!!`) it returns `feature/proj-42-fix-login-bug`.
The key is lower-cased as `strings.ToLower` does it, letters outside ASCII
included: the keys `ÉCOLE-1` and `ΣΊΣΥΦΟΣ-7` become `école-1` and `σίσυφοσ-7`. -/
theorem generateBranchName_eq_spec :
    (∀ pfx ticketKey summary : String,
      GenerateBranchName pfx ticketKey summary = specBranchName pfx ticketKey summary) ∧
    GenerateBranchName "feature/" "PROJ-42" "Fix Login Bug!!" = "feature/proj-42-fix-login-bug" ∧
    GenerateBranchName "feature/" "ÉCOLE-1" "Fix" = "feature/école-1-fix" ∧
    GenerateBranchName "feature/" "ΣΊΣΥΦΟΣ-7" "Ärger mit Login" =
      "feature/σίσυφοσ-7-rger-mit-login" ∧
    lowerKey "ÉCOLE-1" = "école-1" ∧ lowerKey "PROJ-42" = "proj-42" ∧
    lowerKey "my_Proj-İK9" = "my_proj-ik9" := by
  refine ⟨?_, by decide, by decide, by decide, by decide, by decide, by decide⟩
  intro pfx ticketKey summary
  apply String.ext
  rw [generateBranchName_data, slugOf_eq_specSlug]
  unfold specBranchName lowerKey
  by_cases h : specSlug summary.data = [] <;> simp [h, String.data_append]

/-- Claim C6 as stated fails. The ticket key is lower-cased and nothing else: with
the key `MY_PROJ-1` the branch name holds `_` after the prefix. -/
theorem generateBranchName_key_not_sanitised :
    ¬ (∀ pfx ticketKey summary : String,
        ∀ c ∈ (GenerateBranchName pfx ticketKey summary).data.drop pfx.data.length,
          isBranchRune c = true) := by
  intro h
  have := h "feature/" "MY_PROJ-1" "Fix" '_' (by decide)
  exact absurd this (by decide)

/-- Claim C6, amended. `GenerateBranchName` is a function of its three arguments,
and when the lower-cased ticket key holds only `[a-z0-9]`, `/` and `-`, so does
the whole result after the untouched prefix. -/
theorem generateBranchName_safe_runes (pfx ticketKey summary : String)
    (hkey : ∀ c ∈ toLower ticketKey.data, isBranchRune c = true) :
    (∀ pfx2 ticketKey2 summary2 : String, pfx2 = pfx → ticketKey2 = ticketKey →
      summary2 = summary →
      GenerateBranchName pfx2 ticketKey2 summary2 = GenerateBranchName pfx ticketKey summary) ∧
    (GenerateBranchName pfx ticketKey summary).data.take pfx.data.length = pfx.data ∧
    ∀ c ∈ (GenerateBranchName pfx ticketKey summary).data.drop pfx.data.length,
      isBranchRune c = true := by
  refine ⟨?_, ?_, ?_⟩
  · rintro _ _ _ rfl rfl rfl
    rfl
  · rw [generateBranchName_data, List.take_left]
  · rw [generateBranchName_data, List.drop_left]
    intro c hc
    rcases List.mem_append.mp hc with h | h
    · exact hkey c h
    · split at h
      · simp at h
      · rcases List.mem_cons.mp h with h | h
        · subst h; rfl
        · have := slugOf_runes _ c h
          simp only [isSlugOrDash, Bool.or_eq_true] at this
          simp only [isBranchRune, Bool.or_eq_true]
          rcases this with h | h
          · exact Or.inl (Or.inl h)
          · exact Or.inr h

theorem generateBranchName_safe_runes_witness :
    (∀ c ∈ toLower "PROJ-42".data, isBranchRune c = true) ∧
    ∀ c ∈ (GenerateBranchName "feature/" "PROJ-42" "Fix Login Bug!!").data.drop
        "feature/".data.length, isBranchRune c = true :=
  ⟨by decide,
   (generateBranchName_safe_runes "feature/" "PROJ-42" "Fix Login Bug!!" (by decide)).2.2⟩

theorem length_le_byteLen : ∀ (l : List Char), l.length ≤ byteLen l
  | [] => Nat.le_refl _
  | x :: xs => by
    have ih := length_le_byteLen xs
    have hx := Char.utf8Size_pos x
    simp only [byteLen, List.map, List.sum_cons, List.length_cons] at ih ⊢
    omega

/-- Claim C7. The slug generated inside `GenerateBranchName`, the part of the result
that follows `prefix ++ lower(key) ++ "-"`, has at most 50 characters (and bytes)
and does not end in `-`. -/
theorem generateBranchName_slug_bounded (pfx ticketKey summary : String) :
    (GenerateBranchName pfx ticketKey summary).data =
      pfx.data ++ (toLower ticketKey.data ++
        (if slugOf summary.data = [] then [] else '-' :: slugOf summary.data)) ∧
    (slugOf summary.data).length ≤ 50 ∧
    byteLen (slugOf summary.data) ≤ 50 ∧
    (slugOf summary.data).getLast? ≠ some '-' := by
  have hlen : (slugOf summary.data).length ≤ 50 ∧ (slugOf summary.data).getLast? ≠ some '-' := by
    unfold slugOf
    simp only []
    split
    · refine ⟨le_trans (trimRightDash_length _) ?_, trimRightDash_getLast _⟩
      simp [maxSlugLen, List.length_take]
    · rename_i h
      refine ⟨le_trans (length_le_byteLen _) (by simpa [maxSlugLen] using h), ?_⟩
      unfold trimDash
      exact trimRightDash_getLast _
  refine ⟨generateBranchName_data pfx ticketKey summary, hlen.1, ?_, hlen.2⟩
  rw [slugRunes_byteLen _ (slugOf_runes _)]
  exact hlen.1

theorem char_le_iff (a b : Char) : a ≤ b ↔ a.toNat ≤ b.toNat := by
  show a.val ≤ b.val ↔ _
  exact UInt32.le_def

/-- Only the entries of U+0130 and U+212A of the lower-case table lead into ASCII. -/
theorem lowerRanges_lower : ∀ r ∈ lowerRanges,
    128 ≤ r.Lower ∨ (r.Lo = 0x130 ∧ r.Hi = 0x130) ∨ (r.Lo = 0x212A ∧ r.Hi = 0x212A) := by
  decide

/-- The entries of the lower-case table are in increasing order and do not overlap,
so that at most one entry covers a rune. -/
theorem lowerRanges_sorted :
    ∀ p ∈ lowerRanges.zip lowerRanges.tail, p.1.Lo ≤ p.1.Hi ∧ p.1.Hi < p.2.Lo := by
  decide

/-- The lower-case table covers 1407 runes, all of them outside ASCII. -/
theorem lowerRanges_count :
    (lowerRanges.map (fun r => (r.Hi - r.Lo) / r.Stride + 1)).sum = 1407 ∧
    ∀ r ∈ lowerRanges, 0x7F < r.Lo ∧ 0 < r.Stride := by
  decide

/-- The runes of `[a-z0-9]` are ASCII runes. -/
theorem isSlugRune_toNat {c : Char} (h : isSlugRune c = true) : 48 ≤ c.toNat ∧ c.toNat ≤ 122 := by
  simp only [isSlugRune, Bool.or_eq_true, Bool.and_eq_true, decide_eq_true_eq, char_le_iff] at h
  have n1 : 'a'.toNat = 97 := rfl
  have n2 : 'z'.toNat = 122 := rfl
  have n3 : '0'.toNat = 48 := rfl
  have n4 : '9'.toNat = 57 := rfl
  omega

theorem toNat_ofNat_cases (m : Nat) : (Char.ofNat m).toNat = m ∨ (Char.ofNat m).toNat = 0 := by
  unfold Char.ofNat
  split
  · left; rfl
  · right; rfl

/-- Outside ASCII, `toLowerRune` leads into `[a-z0-9]` for U+0130 and U+212A only. -/
theorem toLowerRune_not_ascii {c : Char} (h : ¬ c.toNat ≤ 0x7F)
    (h2 : c ≠ Char.ofNat 0x130) (h3 : c ≠ Char.ofNat 0x212A) :
    isSlugRune (toLowerRune c) = false := by
  rw [Bool.eq_false_iff]
  intro hs
  have hb := isSlugRune_toNat hs
  unfold toLowerRune at hb
  rw [if_neg h] at hb
  split at hb
  · rename_i r hr
    have hmem := List.mem_of_find?_eq_some hr
    have hcov := List.find?_some hr
    simp only [LowerRange.covers, Bool.and_eq_true, decide_eq_true_eq] at hcov
    have hc : c = Char.ofNat c.toNat := (Char.ofNat_toNat c).symm
    rcases lowerRanges_lower r hmem with hl | ⟨hl, hh⟩ | ⟨hl, hh⟩
    · rcases toNat_ofNat_cases (r.Lower + (c.toNat - r.Lo)) with e | e <;> omega
    · apply h2
      rw [hc]
      congr 1
      omega
    · apply h3
      rw [hc]
      congr 1
      omega
  · omega

/-- The runes the slug keeps are the ASCII letters and digits and the two letters
that Go lower-cases into ASCII. -/
theorem isAlphanumericRune_iff (c : Char) :
    isAlphanumericRune c = true ↔
      (c.isAlphanum = true ∨ c = Char.ofNat 0x130 ∨ c = Char.ofNat 0x212A) := by
  have e1 : ∀ k : UInt32, (c.val ≥ k ↔ k.toNat ≤ c.toNat) := fun k => UInt32.le_def
  have e2 : ∀ k : UInt32, (c.val ≤ k ↔ c.toNat ≤ k.toNat) := fun k => UInt32.le_def
  have n1 : 'a'.toNat = 97 := rfl
  have n2 : 'z'.toNat = 122 := rfl
  have n3 : '0'.toNat = 48 := rfl
  have n4 : '9'.toNat = 57 := rfl
  have m1 : (65 : UInt32).toNat = 65 := rfl
  have m2 : (90 : UInt32).toNat = 90 := rfl
  have m3 : (97 : UInt32).toNat = 97 := rfl
  have m4 : (122 : UInt32).toNat = 122 := rfl
  have m5 : (48 : UInt32).toNat = 48 := rfl
  have m6 : (57 : UInt32).toNat = 57 := rfl
  by_cases h2 : c = Char.ofNat 0x130
  · subst h2; decide
  by_cases h3 : c = Char.ofNat 0x212A
  · subst h3; decide
  simp only [h2, h3, or_false]
  by_cases h0 : c.toNat ≤ 0x7F
  · unfold isAlphanumericRune toLowerRune
    rw [if_pos h0]
    by_cases h1 : 'A' ≤ c ∧ c ≤ 'Z'
    · rw [if_pos h1]
      have hb : 65 ≤ c.toNat ∧ c.toNat ≤ 90 := by
        have ha := (char_le_iff 'A' c).mp h1.1
        have hz := (char_le_iff c 'Z').mp h1.2
        simpa using And.intro ha hz
      have hc : c = Char.ofNat c.toNat := (Char.ofNat_toNat c).symm
      generalize c.toNat = n at hb hc
      subst hc
      obtain ⟨hlo, hhi⟩ := hb
      interval_cases n <;> decide
    · rw [if_neg h1]
      have hu : ¬ (65 ≤ c.toNat ∧ c.toNat ≤ 90) := by
        intro h
        exact h1 ⟨(char_le_iff 'A' c).mpr (by simpa using h.1),
          (char_le_iff c 'Z').mpr (by simpa using h.2)⟩
      simp only [isSlugRune, Char.isAlphanum, Char.isAlpha, Char.isUpper, Char.isLower,
        Char.isDigit, Bool.or_eq_true, Bool.and_eq_true, decide_eq_true_eq, char_le_iff]
      simp only [e1, e2]
      simp only [n1, n2, n3, n4, m1, m2, m3, m4, m5, m6]
      omega
  · have hf := toLowerRune_not_ascii h0 h2 h3
    unfold isAlphanumericRune
    rw [hf]
    simp only [Char.isAlphanum, Char.isAlpha, Char.isUpper, Char.isLower,
      Char.isDigit, Bool.or_eq_true, Bool.and_eq_true, decide_eq_true_eq, char_le_iff]
    simp only [e1, e2]
    simp only [m1, m2, m3, m4, m5, m6]
    constructor
    · intro h; cases h
    · intro h; omega

/-- A text made of runes of the class only is one match. -/
theorem replaceAllRuns_all (p : Char → Bool) (repl : List Char) :
    ∀ (l : List Char), (∀ c ∈ l, p c = true) →
      replaceAllRuns p repl true l = repl ∧
      replaceAllRuns p repl false l = if l = [] then [] else repl
  | [], _ => by simp [replaceAllRuns]
  | x :: xs, h => by
    have hx := h x (List.mem_cons_self _ _)
    obtain ⟨ih, -⟩ := replaceAllRuns_all p repl xs (fun c hc => h c (List.mem_cons_of_mem _ hc))
    simp [replaceAllRuns, hx, ih]

/-- Claim C8. For a summary without any alphanumeric character (the empty summary,
one made of punctuation only) `GenerateBranchName` returns exactly
`prefix ++ lower(key)`: no `-` is appended. -/
theorem generateBranchName_no_alphanumeric (pfx ticketKey summary : String)
    (h : ∀ c ∈ summary.data, isAlphanumericRune c = false) :
    GenerateBranchName pfx ticketKey summary = pfx ++ lowerKey ticketKey := by
  have hslug : slugOf summary.data = [] := by
    have hall : ∀ c ∈ toLower summary.data, (fun c => !isSlugRune c) c = true := by
      intro c hc
      simp only [toLower, List.mem_map] at hc
      obtain ⟨d, hd, rfl⟩ := hc
      have := h d hd
      simp only [isAlphanumericRune] at this
      simp [this]
    unfold slugOf nonAlphanumericReplace
    simp only [(replaceAllRuns_all _ ['-'] _ hall).2]
    by_cases hnil : toLower summary.data = [] <;> simp [hnil] <;> decide
  apply String.ext
  rw [generateBranchName_data, hslug]
  simp [lowerKey, String.data_append]

theorem generateBranchName_no_alphanumeric_witness :
    (∀ c ∈ "?!... --".data, isAlphanumericRune c = false) ∧
    GenerateBranchName "feature/" "ÉCOLE-1" "?!... --" = "feature/école-1" :=
  ⟨by decide,
   (generateBranchName_no_alphanumeric "feature/" "ÉCOLE-1" "?!... --" (by decide)).trans
     (by decide)⟩

/-! ## Prompts -/

/-- Claim C9. For a ticket without description, acceptance criteria and labels, the
ticket prompt is the optional prefix block, the `# Jira Ticket:` heading, the
`## Summary` section, the Type and Priority lines (each only for a non-empty
value), the `---` rule and the instruction trailer: nothing is written for the
description, the acceptance criteria or the labels. -/
theorem formatAsPrompt_omits_empty_sections (t : Ticket) (promptPrefix : String)
    (hdesc : t.Description = "") (hac : t.AcceptanceCrit = "") (hlabels : t.Labels = []) :
    t.FormatAsPrompt promptPrefix =
      prefixBlock promptPrefix ++ "# Jira Ticket: " ++ t.Key ++ "\n\n" ++
      "## Summary\n" ++ t.Summary ++ "\n\n" ++
      metaLine "**Type:** " t.IssueType ++ metaLine "**Priority:** " t.Priority ++
      "\n---\n\n" ++ ticketTrailer := by
  unfold Ticket.FormatAsPrompt prefixBlock metaLine ticketTrailer
  by_cases h1 : promptPrefix = "" <;> by_cases h2 : t.IssueType = "" <;>
    by_cases h3 : t.Priority = "" <;>
    simp only [h1, h2, h3, hdesc, hac, hlabels, if_true, if_false, ne_eq, not_true_eq_false,
      not_false_eq_true, String.append_assoc, String.append_empty, String.empty_append,
      List.length_nil, gt_iff_lt, Nat.lt_irrefl]

theorem formatAsPrompt_omits_empty_sections_witness :
    ({ Key := "PROJ-7", Summary := "Bump dependencies", Description := "", AcceptanceCrit := "",
       IssueType := "Story", Priority := "", Labels := [], ProjectKey := "PROJ" } : Ticket
      ).FormatAsPrompt "" =
      "# Jira Ticket: PROJ-7\n\n## Summary\nBump dependencies\n\n**Type:** Story\n\n---\n\n" ++
        "Please implement this ticket. Follow best practices and existing code patterns in the repository." :=
  (formatAsPrompt_omits_empty_sections
    { Key := "PROJ-7", Summary := "Bump dependencies", Description := "", AcceptanceCrit := "",
      IssueType := "Story", Priority := "", Labels := [], ProjectKey := "PROJ" } "" rfl rfl rfl).trans
    (by decide)

theorem writeComment_eq (sb : String) (i : Nat) (comment : ReviewComment) :
    writeComment sb i comment = sb ++ commentSection (i + 1) comment := by
  unfold writeComment commentSection commentDetails
  by_cases h1 : comment.Line > 0 <;> by_cases h2 : comment.DiffHunk = "" <;>
    simp only [h1, h2, if_true, if_false, ne_eq, not_true_eq_false, not_false_eq_true,
      String.append_assoc, String.append_empty, String.empty_append]

theorem writeComments_eq : ∀ (comments : List ReviewComment) (sb : String) (i : Nat),
    writeComments sb i comments =
      sb ++ concatAll ((comments.enumFrom i).map (fun p => commentSection (p.1 + 1) p.2))
  | [], sb, i => by
    simp only [writeComments, List.enumFrom, List.map, concatAll, String.append_empty]
  | comment :: rest, sb, i => by
    rw [writeComments, writeComments_eq rest, writeComment_eq]
    simp only [List.enumFrom, List.map, concatAll, String.append_assoc]

/-- Claim C10. The comments prompt is the fixed preamble, then one subsection per
comment, in the order of the input and numbered from 1, the i-th headed
`Comment i by @author` and carrying the file, diff context and body of the i-th
comment, then the fixed `## Instructions` trailer; for an empty comment set it is
the preamble followed at once by the trailer.  The last two parts give the whole
prompt of a pull request without comments and of one with three comments. -/
theorem formatCommentsAsPrompt_sections (comments : PRComments) (pfx : String) :
    FormatCommentsAsPrompt comments pfx =
      commentsPreamble comments pfx ++ concatAll (commentSections comments.Comments) ++
        commentsTrailer ∧
    (commentSections comments.Comments).length = comments.Comments.length ∧
    (∀ (i : Nat) (h : i < comments.Comments.length),
      (commentSections comments.Comments)[i]? =
        some ("### Comment " ++ toString (i + 1) ++ " by @" ++ (comments.Comments[i]).Author ++
          "\n" ++ commentDetails (comments.Comments[i]))) ∧
    (comments.Comments = [] →
      FormatCommentsAsPrompt comments pfx = commentsPreamble comments pfx ++ commentsTrailer) ∧
    FormatCommentsAsPrompt
        { PRNumber := 7, PRTitle := "Fix login", PRURL := "", Comments := [] } "" =
      "# PR Review Comments for PR #7: Fix login\n\n## Review Comments to Address\n\n" ++
      "## Instructions\n" ++
      "Please address these review comments by making the necessary code changes.\n" ++
      "For each comment, either:\n" ++
      "1. Make the requested code changes directly\n" ++
      "2. If the comment is unclear or needs discussion, note what clarification is needed\n" ++
      "\n" ++
      "Focus on implementing the requested changes accurately and completely.\n" ∧
    FormatCommentsAsPrompt samplePRComments "Use Go 1.22." =
      "# PR Review Comments for PR #7: Fix login\n\n" ++
      "## Additional Context\n\nUse Go 1.22.\n\n" ++
      "## Review Comments to Address\n\n" ++
      "### Comment 1 by @alice\n**File:** `login.go` (line 10)\n" ++
      "**Code context:**\n```\n@@ -8,3 +8,3 @@\n```\n" ++
      "**Comment:**\nRename this variable.\n\n---\n\n" ++
      "### Comment 2 by @bob\n**File:** `login.go`\n" ++
      "**Comment:**\nHandle the error.\n\n---\n\n" ++
      "### Comment 3 by @carol\n**File:** `login_test.go` (line 3)\n" ++
      "**Comment:**\nAdd a test.\n\n---\n\n" ++
      "## Instructions\n" ++
      "Please address these review comments by making the necessary code changes.\n" ++
      "For each comment, either:\n" ++
      "1. Make the requested code changes directly\n" ++
      "2. If the comment is unclear or needs discussion, note what clarification is needed\n" ++
      "\n" ++
      "Focus on implementing the requested changes accurately and completely.\n" := by
  have htrailer : instructionsTrailer = commentsTrailer := by decide
  have hmain : FormatCommentsAsPrompt comments pfx =
      commentsPreamble comments pfx ++ concatAll (commentSections comments.Comments) ++
        commentsTrailer := by
    rw [← htrailer]
    unfold FormatCommentsAsPrompt commentsPreamble commentSections
    simp only [writeComments_eq]
    by_cases h : pfx = "" <;>
      simp only [h, if_true, if_false, ne_eq, not_true_eq_false, not_false_eq_true,
        String.append_assoc, String.append_empty, String.empty_append, List.enum]
  refine ⟨hmain, by simp [commentSections], ?_, ?_, by decide, by decide⟩
  · intro i h
    simp [commentSections, List.enum, List.getElem?_enumFrom, h, commentSection]
  · intro h
    rw [hmain, h]
    simp only [commentSections, List.enum, List.enumFrom, List.map, concatAll,
      String.append_empty]

theorem formatCommentsAsPrompt_sections_witness :
    ({ PRNumber := 12, PRTitle := "Bump dependencies", PRURL := "", Comments := [] } : PRComments
      ).Comments = [] ∧
    FormatCommentsAsPrompt
        { PRNumber := 12, PRTitle := "Bump dependencies", PRURL := "", Comments := [] }
        "Keep the diff small." =
      "# PR Review Comments for PR #12: Bump dependencies\n\n" ++
      "## Additional Context\n\nKeep the diff small.\n\n" ++
      "## Review Comments to Address\n\n" ++
      "## Instructions\n" ++
      "Please address these review comments by making the necessary code changes.\n" ++
      "For each comment, either:\n" ++
      "1. Make the requested code changes directly\n" ++
      "2. If the comment is unclear or needs discussion, note what clarification is needed\n" ++
      "\n" ++
      "Focus on implementing the requested changes accurately and completely.\n" :=
  ⟨rfl,
   ((formatCommentsAsPrompt_sections
      { PRNumber := 12, PRTitle := "Bump dependencies", PRURL := "", Comments := [] }
      "Keep the diff small.").2.2.2.1 rfl).trans (by decide)⟩

/-! ## Precondition: a dirty working tree -/

/-- A dirty working tree makes `EnsureClean` return an error. -/
theorem ensureClean_dirty (env : Env) (repoPath : String) (hist : List Call)
    (h : Git.HasChanges env repoPath hist = .ok true) :
    Git.EnsureClean env repoPath hist = .error "working directory has uncommitted changes" := by
  simp [Git.EnsureClean, h]

/-- Claim C11. In the implement workflow, when `EnsureClean` returns an error (as
it does for a dirty working tree) the run returns an error and has made no
mutating call: no `Checkout`, `Pull`, `DeleteBranch`, `CreateBranch`, agent `Run`,
`AddAll`, `Commit`, `Push` or `CreatePR`; a run that reached `EnsureClean` ends
there, with the error of `EnsureClean` wrapped. -/
theorem runWork_dirty_tree_aborts (env : Env) (fl : Flags) (repoPath : String)
    (hrepo : resolveRepoPath env fl = .ok repoPath)
    (hdirty : isError (Git.EnsureClean env repoPath
      [Call.GetTicket fl.flagTicket, Call.EnsureClean])) :
    isError (runWork env fl).1 ∧
    (∀ c ∈ (runWork env fl).2.calls, c.isMutating = false) ∧
    (Call.EnsureClean ∈ (runWork env fl).2.calls →
      (runWork env fl).2.calls = [Call.GetTicket fl.flagTicket, Call.EnsureClean] ∧
      ∃ e, Git.EnsureClean env repoPath [Call.GetTicket fl.flagTicket, Call.EnsureClean] =
          .error e ∧
        (runWork env fl).1 = .error (wrap e "repository must be clean before starting")) ∧
    (Git.HasChanges env repoPath [Call.GetTicket fl.flagTicket, Call.EnsureClean] = .ok true →
      Git.EnsureClean env repoPath [Call.GetTicket fl.flagTicket, Call.EnsureClean] =
        .error "working directory has uncommitted changes") := by
  refine ⟨?_, ?_, ?_, ensureClean_dirty env repoPath _⟩
  all_goals
    rcases runWork_cases env fl with ⟨e, h1, h2⟩ | ⟨e, h1, h2, -⟩ |
      ⟨conf, rp, ticket, -, hp, -, hr⟩
  · exact ⟨e, h1⟩
  · exact ⟨e, h1⟩
  · have hrp : rp = repoPath := by rw [hp] at hrepo; exact Except.ok.inj hrepo
    subst hrp
    rcases hr with ⟨e, -, hr⟩ | ⟨hok, -⟩
    · exact ⟨_, by rw [hr]⟩
    · obtain ⟨e, he⟩ := hdirty
      rw [he] at hok
      cases hok
  · rw [h2]; simp
  · rw [h2]; simp [Call.isMutating]
  · have hrp : rp = repoPath := by rw [hp] at hrepo; exact Except.ok.inj hrepo
    subst hrp
    rcases hr with ⟨e, -, hr⟩ | ⟨hok, -⟩
    · rw [hr]; simp [runWork.atStep3, Call.isMutating]
    · obtain ⟨e, he⟩ := hdirty
      rw [he] at hok
      cases hok
  · rw [h2]; simp
  · rw [h2]; simp
  · have hrp : rp = repoPath := by rw [hp] at hrepo; exact Except.ok.inj hrepo
    subst hrp
    rcases hr with ⟨e, he, hr⟩ | ⟨hok, -⟩
    · intro _
      exact ⟨by rw [hr]; rfl, e, he, by rw [hr]⟩
    · obtain ⟨e, he⟩ := hdirty
      rw [he] at hok
      cases hok

theorem runWork_dirty_tree_aborts_witness :
    resolveRepoPath sampleEnvDirty (sampleFlags false false) = .ok "/repo" ∧
    Git.EnsureClean sampleEnvDirty "/repo" [Call.GetTicket "PROJ-42", Call.EnsureClean] =
      .error "working directory has uncommitted changes" ∧
    isError (runWork sampleEnvDirty (sampleFlags false false)).1 ∧
    (runWork sampleEnvDirty (sampleFlags false false)).2.calls =
      [Call.GetTicket "PROJ-42", Call.EnsureClean] ∧
    ∀ c ∈ (runWork sampleEnvDirty (sampleFlags false false)).2.calls, c.isMutating = false :=
  ⟨rfl, rfl,
   (runWork_dirty_tree_aborts sampleEnvDirty (sampleFlags false false) "/repo" rfl ⟨_, rfl⟩).1,
   by decide,
   (runWork_dirty_tree_aborts sampleEnvDirty (sampleFlags false false) "/repo" rfl
      ⟨_, rfl⟩).2.1⟩

/-! ## The address-comments workflow with `--no-push` -/

/-- The commit message of `runAddressPRComments`: the line `Address PR #<n> review
comments`, an empty line and the line `Addressed by Claude Code`. -/
theorem commitMsg_eq (prNumber : Int) :
    runAddressPRComments.commitMsg prNumber =
      "Address PR #" ++ toString prNumber ++ " review comments" ++
        "\n\nAddressed by Claude Code" := by
  unfold runAddressPRComments.commitMsg
  rw [String.append_assoc _ " review comments" "\n\nAddressed by Claude Code"]
  rfl

/-- The reply loop keeps what was written before it. -/
theorem postReplies_out (env : Env) (repoPath : String) (prNumber : Int) (o : Output) :
    ∀ (comments : List ReviewComment) (r : Run), o ∈ r.out →
      o ∈ (postReplies env repoPath prNumber r comments).out
  | [], r, h => by simpa [postReplies] using h
  | comment :: rest, r, h => by
    unfold postReplies
    simp only [Run.call_calls]
    split
    · exact postReplies_out env repoPath prNumber o rest _ (by simp [h])
    · exact postReplies_out env repoPath prNumber o rest _ (by simp [h])

/-- The end of `runAddressPRComments` keeps what was written before it. -/
theorem runAddressPRComments.replies_out (env : Env) (fl : Flags) (repoPath : String)
    (prNumber : Int) (comments : PRComments) (r : Run) (o : Output) (h : o ∈ r.out) :
    o ∈ (runAddressPRComments.replies env fl repoPath prNumber comments r).2.out := by
  unfold runAddressPRComments.replies
  cases hw : fl.flagWithReplies with
  | false => simp [h]
  | true =>
    have := postReplies_out env repoPath prNumber o comments.Comments
      (r.log "info" [] "posting replies to comments") (by simp [h])
    simp [this]

/-- With `--no-push`, from the agent call on: no `Push`; after changes, `AddAll`,
then `Commit`, then the run ends without error. -/
theorem runAddressPRComments.address_noPush (env : Env) (fl : Flags) (repoPath : String)
    (prNumber : Int) (comments : PRComments) (prompt : String) (r : Run)
    (hnp : fl.flagNoPush = true) :
    ∃ rest, (runAddressPRComments.address env fl repoPath prNumber comments prompt r).2.calls =
        r.calls ++ Call.Run prompt :: rest ∧
      (∀ c ∈ rest, c.isRun = false ∧ c ≠ Call.Push) ∧
      (∀ post, rest = Call.HasChanges :: post →
        Git.HasChanges env repoPath (r.calls ++ [Call.Run prompt, Call.HasChanges]) = .ok true →
        ∃ post1, post = Call.AddAll :: post1 ∧
          (Git.AddAll env repoPath
              (r.calls ++ [Call.Run prompt, Call.HasChanges, Call.AddAll]) = .ok () →
            ∃ post2, post1 = Call.Commit (runAddressPRComments.commitMsg prNumber) :: post2 ∧
              (Git.Commit env repoPath
                  (r.calls ++ [Call.Run prompt, Call.HasChanges, Call.AddAll,
                    Call.Commit (runAddressPRComments.commitMsg prNumber)])
                  (runAddressPRComments.commitMsg prNumber) = .ok () →
                (runAddressPRComments.address env fl repoPath prNumber comments prompt r).1 =
                  .ok () ∧
                pushSkipped ∈
                  (runAddressPRComments.address env fl repoPath prNumber comments prompt r).2.out ∧
                ∀ c ∈ post2, c.isReply = true))) := by
  unfold runAddressPRComments.address
  simp only [Run.call_calls, Run.log_calls, List.append_assoc, List.cons_append,
    List.nil_append, hnp, Bool.not_true, Bool.false_eq_true, if_false]
  cases hrun : Claude.Run env repoPath (r.calls ++ [Call.Run prompt]) prompt with
  | error e => exact ⟨[], by simp⟩
  | ok u =>
    simp only []
    cases hh : Git.HasChanges env repoPath (r.calls ++ [Call.Run prompt, Call.HasChanges]) with
    | error e => exact ⟨[Call.HasChanges], by simp [Call.isRun]⟩
    | ok b =>
      cases b with
      | false => exact ⟨[Call.HasChanges], by simp [Call.isRun]⟩
      | true =>
        simp only [Bool.not_true, Bool.false_eq_true, if_false]
        cases ha : Git.AddAll env repoPath
            (r.calls ++ [Call.Run prompt, Call.HasChanges, Call.AddAll]) with
        | error e => exact ⟨[Call.HasChanges, Call.AddAll], by simp [Call.isRun]⟩
        | ok u =>
          simp only []
          cases hc : Git.Commit env repoPath
              (r.calls ++ [Call.Run prompt, Call.HasChanges, Call.AddAll,
                Call.Commit (runAddressPRComments.commitMsg prNumber)])
              (runAddressPRComments.commitMsg prNumber) with
          | error e =>
            exact ⟨[Call.HasChanges, Call.AddAll,
              Call.Commit (runAddressPRComments.commitMsg prNumber)], by simp [Call.isRun]⟩
          | ok u =>
            simp only []
            obtain ⟨h1, h2, h3⟩ := runAddressPRComments.replies_calls env fl repoPath prNumber
              comments (((((((r.log "info" [] "invoking Claude Code to address comments").call
                (Call.Run prompt)).call Call.HasChanges).call Call.AddAll).call
                (Call.Commit (runAddressPRComments.commitMsg prNumber))).log "info" []
                "committed changes").log "info" [] "skipping push (--no-push specified)")
            have hout := runAddressPRComments.replies_out env fl repoPath prNumber
              comments (((((((r.log "info" [] "invoking Claude Code to address comments").call
                (Call.Run prompt)).call Call.HasChanges).call Call.AddAll).call
                (Call.Commit (runAddressPRComments.commitMsg prNumber))).log "info" []
                "committed changes").log "info" [] "skipping push (--no-push specified)")
              pushSkipped (by simp [pushSkipped])
            cases hw : fl.flagWithReplies with
            | true =>
              refine ⟨[Call.HasChanges, Call.AddAll,
                Call.Commit (runAddressPRComments.commitMsg prNumber)] ++
                replyCalls prNumber comments.Comments, ?_, ?_, ?_⟩
              · rw [h2 hw]; simp
              · intro c hc
                simp only [List.cons_append, List.nil_append, List.mem_cons, replyCalls,
                  List.mem_map] at hc
                rcases hc with h | h | h | ⟨cm, -, h⟩ <;> subst h <;>
                  simp [Call.isRun]
              · intro post hpost _
                simp only [List.cons_append, List.nil_append, List.cons.injEq, true_and] at hpost
                subst hpost
                refine ⟨_, rfl, fun _ => ⟨_, rfl, fun _ => ⟨h1, hout, ?_⟩⟩⟩
                intro c hc
                simp only [replyCalls, List.mem_map] at hc
                obtain ⟨cm, -, rfl⟩ := hc
                rfl
            | false =>
              refine ⟨[Call.HasChanges, Call.AddAll,
                Call.Commit (runAddressPRComments.commitMsg prNumber)], ?_, ?_, ?_⟩
              · rw [(h3 hw).1]; simp
              · simp [Call.isRun]
              · intro post hpost _
                simp only [List.cons.injEq, true_and] at hpost
                subst hpost
                exact ⟨_, rfl, fun _ => ⟨_, rfl, fun _ => ⟨h1, hout, by simp⟩⟩⟩

theorem fetch_calls_append (l extra : List Call) (h : ∀ c ∈ extra, c.isFetch = true) :
    ∀ c ∈ l ++ extra, c ∈ l ∨ c.isFetch = true := by
  intro c hc
  rcases List.mem_append.mp hc with h1 | h1
  · exact Or.inl h1
  · exact Or.inr (h c h1)

/-- From the fetch on, a run of `runAddressPRComments` ends before the agent call,
having fetched and checked only, or reaches the agent call after
`GetPRComments` and `HasChanges`. -/
theorem runAddressPRComments.fetch_to_address (env : Env) (fl : Flags) (repoPath : String)
    (prNumber : Int) (r : Run) :
    (∀ c ∈ (runAddressPRComments.fetch env fl repoPath prNumber r).2.calls,
      c ∈ r.calls ∨ c.isFetch = true) ∨
    (∃ comments r', r'.calls = r.calls ++ [Call.GetPRComments prNumber, Call.HasChanges] ∧
      runAddressPRComments.fetch env fl repoPath prNumber r =
        runAddressPRComments.address env fl repoPath prNumber comments
          (FormatCommentsAsPrompt comments fl.flagPromptPrefix) r') := by
  unfold runAddressPRComments.fetch
  simp only [Run.call_calls, Run.log_calls, List.append_assoc, List.cons_append,
    List.nil_append]
  cases hg : GitHub.GetPRComments env repoPath (r.calls ++ [Call.GetPRComments prNumber])
      prNumber with
  | error e =>
    left
    simpa using fetch_calls_append r.calls [Call.GetPRComments prNumber]
      (by simp [Call.isFetch])
  | ok comments =>
    simp only []
    by_cases hl : comments.Comments.length = 0
    · left
      simpa [hl] using fetch_calls_append r.calls [Call.GetPRComments prNumber]
        (by simp [Call.isFetch])
    · simp only [hl, if_false]
      cases hh : Git.HasChanges env repoPath
          (r.calls ++ [Call.GetPRComments prNumber, Call.HasChanges]) with
      | error e =>
        left
        simpa using fetch_calls_append r.calls [Call.GetPRComments prNumber, Call.HasChanges]
          (by simp [Call.isFetch])
      | ok b =>
        simp only []
        cases hd : fl.flagDryRun with
        | true =>
          left
          cases b <;>
            simpa using fetch_calls_append r.calls
              [Call.GetPRComments prNumber, Call.HasChanges] (by simp [Call.isFetch])
        | false =>
          right
          simp only [Bool.false_eq_true, if_false]
          refine ⟨comments, _, ?_, rfl⟩
          cases b <;> simp

/-- Claim C12. In the address-comments workflow with `--no-push`, `Push` is never
called; when the agent produced changes (`HasChanges` after the agent call
answers true) `AddAll` is called next, then, once staging succeeded, `Commit`
with the message that starts with the line `Address PR #<n> review comments`,
and once the commit succeeded the run returns nil, having logged that the push
is skipped and making reply calls only. -/
theorem runAddressPRComments_noPush (env : Env) (fl : Flags) (hnp : fl.flagNoPush = true) :
    Call.Push ∉ (runAddressPRComments env fl).2.calls ∧
    ∀ repoPath pre prompt post, resolveRepoPath env fl = .ok repoPath →
      (runAddressPRComments env fl).2.calls = pre ++ Call.Run prompt :: Call.HasChanges :: post →
      Git.HasChanges env repoPath (pre ++ [Call.Run prompt, Call.HasChanges]) = .ok true →
      ∃ n post1, Call.GetPRComments n ∈ pre ∧ post = Call.AddAll :: post1 ∧
        (Git.AddAll env repoPath
            (pre ++ [Call.Run prompt, Call.HasChanges, Call.AddAll]) = .ok () →
          ∃ post2,
            post1 = Call.Commit ("Address PR #" ++ toString n ++ " review comments" ++
              "\n\nAddressed by Claude Code") :: post2 ∧
            (Git.Commit env repoPath
                (pre ++ [Call.Run prompt, Call.HasChanges, Call.AddAll,
                  Call.Commit ("Address PR #" ++ toString n ++ " review comments" ++
                    "\n\nAddressed by Claude Code")])
                ("Address PR #" ++ toString n ++ " review comments" ++
                  "\n\nAddressed by Claude Code") = .ok () →
              (runAddressPRComments env fl).1 = .ok () ∧
              pushSkipped ∈ (runAddressPRComments env fl).2.out ∧
              ∀ c ∈ post2, c.isReply = true)) := by
  -- the run is the fetch part started after the choice of the PR number
  have hshape : (∀ c ∈ (runAddressPRComments env fl).2.calls, c.isFetch = true) ∨
      ∃ repoPath n r0, resolveRepoPath env fl = .ok repoPath ∧
        (∀ c ∈ r0.calls, c.isFetch = true) ∧
        runAddressPRComments env fl = runAddressPRComments.fetch env fl repoPath n r0 := by
    unfold runAddressPRComments
    cases hp : resolveRepoPath env fl with
    | error e => left; simp
    | ok repoPath =>
      simp only []
      by_cases hn : fl.flagPRNumber = 0
      · simp only [hn, if_true, Run.call_calls, Run.log_calls, List.nil_append]
        cases hd : GitHub.GetPRForBranch env repoPath [Call.GetPRForBranch] with
        | error e => left; simp [Call.isFetch]
        | ok detected =>
          right
          exact ⟨repoPath, detected, _, rfl, by simp [Call.isFetch], rfl⟩
      · right
        simp only [hn, if_false]
        exact ⟨repoPath, fl.flagPRNumber, _, rfl, by simp, rfl⟩
  have hfetch_noPush : ∀ c : Call, c.isFetch = true → c ≠ Call.Push ∧ c.isRun = false := by
    intro c hc
    cases c <;> simp_all [Call.isFetch, Call.isRun]
  rcases hshape with hall | ⟨rp, n, r0, hp, hr0, hrun⟩
  · refine ⟨fun hmem => (hfetch_noPush _ (hall _ hmem)).1 rfl, ?_⟩
    intro repoPath pre prompt post _ hcalls _
    have := (hfetch_noPush _ (hall (Call.Run prompt) (by rw [hcalls]; simp))).2
    simp [Call.isRun] at this
  · rcases runAddressPRComments.fetch_to_address env fl rp n r0 with hall | ⟨comments, r', hr', hfa⟩
    · have hall' : ∀ c ∈ (runAddressPRComments env fl).2.calls, c.isFetch = true := by
        intro c hc
        rw [hrun] at hc
        rcases hall c hc with h | h
        · exact hr0 c h
        · exact h
      refine ⟨fun hmem => (hfetch_noPush _ (hall' _ hmem)).1 rfl, ?_⟩
      intro repoPath pre prompt post _ hcalls _
      have := (hfetch_noPush _ (hall' (Call.Run prompt) (by rw [hcalls]; simp))).2
      simp [Call.isRun] at this
    · obtain ⟨rest, h1, h2, h3⟩ := runAddressPRComments.address_noPush env fl rp n comments
        (FormatCommentsAsPrompt comments fl.flagPromptPrefix) r' hnp
      rw [← hfa, ← hrun] at h1 h3
      have hr'fetch : ∀ c ∈ r'.calls, c.isFetch = true := by
        intro c hc
        rw [hr'] at hc
        rcases List.mem_append.mp hc with h | h
        · exact hr0 c h
        · simp only [List.mem_cons, List.mem_singleton, List.not_mem_nil, or_false] at h
          rcases h with h | h <;> subst h <;> rfl
      constructor
      · rw [h1]
        intro hmem
        rcases List.mem_append.mp hmem with h | h
        · exact (hfetch_noPush _ (hr'fetch _ h)).1 rfl
        · rcases List.mem_cons.mp h with h | h
          · cases h
          · exact (h2 _ h).2 rfl
      · intro repoPath pre prompt post hrepo hcalls hchanged
        have hrp : rp = repoPath := by rw [hp] at hrepo; exact Except.ok.inj hrepo
        subst hrp
        rw [h1] at hcalls
        obtain ⟨hpre, hprompt, hpost⟩ := split_unique Call.isRun r'.calls
          (fun y hy => (hfetch_noPush _ (hr'fetch y hy)).2) (fun y hy => (h2 y hy).1)
          (by rfl : Call.isRun (Call.Run prompt) = true) hcalls
        subst hpre
        simp only [Call.Run.injEq] at hprompt
        subst hprompt
        obtain ⟨post1, hp1, hnext⟩ := h3 post hpost.symm hchanged
        refine ⟨n, post1, by rw [hr']; simp, hp1, ?_⟩
        rw [← commitMsg_eq]
        exact hnext

theorem runAddressPRComments_noPush_witness :
    sampleFlagsNoPush.flagNoPush = true ∧
    (runAddressPRComments (sampleEnv false true 0) sampleFlagsNoPush).2.calls =
      [Call.GetPRForBranch, Call.GetPRComments 7, Call.HasChanges,
        Call.Run (FormatCommentsAsPrompt
          { PRNumber := 7, PRTitle := "Fix login bug",
            PRURL := "https://github.com/acme/app/pull/7", Comments := sampleComments } ""),
        Call.HasChanges, Call.AddAll,
        Call.Commit "Address PR #7 review comments\n\nAddressed by Claude Code"] ∧
    (runAddressPRComments (sampleEnv false true 0) sampleFlagsNoPush).1 = .ok () ∧
    Call.Push ∉ (runAddressPRComments (sampleEnv false true 0) sampleFlagsNoPush).2.calls :=
  ⟨rfl, by decide, rfl,
   (runAddressPRComments_noPush (sampleEnv false true 0) sampleFlagsNoPush rfl).1⟩

/-! ## The answer of `git pull` does not matter -/

theorem git_run_withPullAnswer (env : Env) (pull : List Call → String → Except String String)
    (repoPath : String) (hist : List Call) (args : List String) (h : args ≠ ["pull"]) :
    Git.run (withPullAnswer env pull) repoPath hist args = Git.run env repoPath hist args := by
  simp [Git.run, withPullAnswer, h]

@[simp]
theorem hasChanges_withPullAnswer (env : Env) (pull : List Call → String → Except String String)
    (repoPath : String) (hist : List Call) :
    Git.HasChanges (withPullAnswer env pull) repoPath hist = Git.HasChanges env repoPath hist := by
  simp [Git.HasChanges, git_run_withPullAnswer]

@[simp]
theorem ensureClean_withPullAnswer (env : Env) (pull : List Call → String → Except String String)
    (repoPath : String) (hist : List Call) :
    Git.EnsureClean (withPullAnswer env pull) repoPath hist = Git.EnsureClean env repoPath hist := by
  simp [Git.EnsureClean]

@[simp]
theorem checkout_withPullAnswer (env : Env) (pull : List Call → String → Except String String)
    (repoPath : String) (hist : List Call) (b : String) :
    Git.Checkout (withPullAnswer env pull) repoPath hist b = Git.Checkout env repoPath hist b := by
  simp [Git.Checkout, git_run_withPullAnswer]

@[simp]
theorem branchExists_withPullAnswer (env : Env) (pull : List Call → String → Except String String)
    (repoPath : String) (hist : List Call) (b : String) :
    Git.BranchExists (withPullAnswer env pull) repoPath hist b =
      Git.BranchExists env repoPath hist b := by
  simp [Git.BranchExists, git_run_withPullAnswer]

@[simp]
theorem deleteBranch_withPullAnswer (env : Env) (pull : List Call → String → Except String String)
    (repoPath : String) (hist : List Call) (b : String) :
    Git.DeleteBranch (withPullAnswer env pull) repoPath hist b =
      Git.DeleteBranch env repoPath hist b := by
  simp [Git.DeleteBranch, git_run_withPullAnswer]

@[simp]
theorem createBranch_withPullAnswer (env : Env) (pull : List Call → String → Except String String)
    (repoPath : String) (hist : List Call) (b : String) :
    Git.CreateBranch (withPullAnswer env pull) repoPath hist b =
      Git.CreateBranch env repoPath hist b := by
  simp [Git.CreateBranch, git_run_withPullAnswer]

@[simp]
theorem addAll_withPullAnswer (env : Env) (pull : List Call → String → Except String String)
    (repoPath : String) (hist : List Call) :
    Git.AddAll (withPullAnswer env pull) repoPath hist = Git.AddAll env repoPath hist := by
  simp [Git.AddAll, git_run_withPullAnswer]

@[simp]
theorem commit_withPullAnswer (env : Env) (pull : List Call → String → Except String String)
    (repoPath : String) (hist : List Call) (m : String) :
    Git.Commit (withPullAnswer env pull) repoPath hist m = Git.Commit env repoPath hist m := by
  simp [Git.Commit, git_run_withPullAnswer]

@[simp]
theorem push_withPullAnswer (env : Env) (pull : List Call → String → Except String String)
    (repoPath : String) (hist : List Call) :
    Git.Push (withPullAnswer env pull) repoPath hist = Git.Push env repoPath hist := by
  simp [Git.Push, Git.CurrentBranch, git_run_withPullAnswer]

@[simp]
theorem claudeRun_withPullAnswer (env : Env) (pull : List Call → String → Except String String)
    (workDir : String) (hist : List Call) (prompt : String) :
    Claude.Run (withPullAnswer env pull) workDir hist prompt = Claude.Run env workDir hist prompt :=
  rfl

@[simp]
theorem createPR_withPullAnswer (env : Env) (pull : List Call → String → Except String String)
    (repoPath : String) (hist : List Call) (t b bb : String) :
    GitHub.CreatePR (withPullAnswer env pull) repoPath hist t b bb =
      GitHub.CreatePR env repoPath hist t b bb :=
  rfl

@[simp]
theorem getTicket_withPullAnswer (env : Env) (pull : List Call → String → Except String String)
    (hist : List Call) (k : String) :
    JiraClient.GetTicket (withPullAnswer env pull) hist k = JiraClient.GetTicket env hist k :=
  rfl

@[simp]
theorem newClient_withPullAnswer (env : Env) (pull : List Call → String → Except String String)
    (h u t : String) :
    NewClient (withPullAnswer env pull) h u t = NewClient env h u t :=
  rfl

@[simp]
theorem resolveRepoPath_withPullAnswer (env : Env)
    (pull : List Call → String → Except String String) (fl : Flags) :
    resolveRepoPath (withPullAnswer env pull) fl = resolveRepoPath env fl :=
  rfl

/-- Step 7 does not depend on the answers of `git pull` nor on what was logged. -/
theorem runWork.step7_observed (env : Env) (pull : List Call → String → Except String String)
    (fl : Flags) (conf : Config) (repoPath baseBranch : String) (ticket : Ticket) (r r' : Run)
    (h : r.calls = r'.calls) :
    observed (runWork.step7 (withPullAnswer env pull) fl conf repoPath baseBranch ticket r) =
      observed (runWork.step7 env fl conf repoPath baseBranch ticket r') := by
  unfold runWork.step7
  simp only [createPR_withPullAnswer, Run.call_calls, Run.log_calls, h]
  split
  · simp [observed, runWork.finish, h]
  · split <;> simp [observed, runWork.finish, h]

/-- Step 6 does not depend on the answers of `git pull` nor on what was logged. -/
theorem runWork.step6_observed (env : Env) (pull : List Call → String → Except String String)
    (fl : Flags) (conf : Config) (repoPath baseBranch : String) (ticket : Ticket) (r r' : Run)
    (h : r.calls = r'.calls) :
    observed (runWork.step6 (withPullAnswer env pull) fl conf repoPath baseBranch ticket r) =
      observed (runWork.step6 env fl conf repoPath baseBranch ticket r') := by
  unfold runWork.step6
  simp only [hasChanges_withPullAnswer, addAll_withPullAnswer, commit_withPullAnswer,
    push_withPullAnswer, Run.call_calls, Run.log_calls, h]
  split
  · exact runWork.step7_observed env pull fl conf repoPath baseBranch ticket _ _ (by simp [h])
  · split
    · simp [observed, h]
    · split
      · simp [observed, h]
      · split
        · simp [observed, h]
        · split
          · simp [observed, h]
          · split
            · simp [observed, h]
            · exact runWork.step7_observed env pull fl conf repoPath baseBranch ticket _ _
                (by simp [h])

/-- Step 5 does not depend on the answers of `git pull` nor on what was logged. -/
theorem runWork.step5_observed (env : Env) (pull : List Call → String → Except String String)
    (fl : Flags) (conf : Config) (repoPath baseBranch : String) (ticket : Ticket) (r r' : Run)
    (h : r.calls = r'.calls) :
    observed (runWork.step5 (withPullAnswer env pull) fl conf repoPath baseBranch ticket r) =
      observed (runWork.step5 env fl conf repoPath baseBranch ticket r') := by
  unfold runWork.step5
  simp only [claudeRun_withPullAnswer, Run.call_calls, Run.log_calls, h]
  split
  · exact runWork.step6_observed env pull fl conf repoPath baseBranch ticket _ _ (by simp [h])
  · split
    · simp [observed, h]
    · exact runWork.step6_observed env pull fl conf repoPath baseBranch ticket _ _ (by simp [h])

/-- Step 4 does not depend on the answers of `git pull` nor on what was logged. -/
theorem runWork.step4_observed (env : Env) (pull : List Call → String → Except String String)
    (fl : Flags) (conf : Config) (repoPath baseBranch : String) (ticket : Ticket) (r r' : Run)
    (h : r.calls = r'.calls) :
    observed (runWork.step4 (withPullAnswer env pull) fl conf repoPath baseBranch ticket r) =
      observed (runWork.step4 env fl conf repoPath baseBranch ticket r') := by
  unfold runWork.step4
  simp only [branchExists_withPullAnswer, deleteBranch_withPullAnswer,
    createBranch_withPullAnswer, Run.call_calls, Run.log_calls, h]
  cases hd : fl.flagDryRun with
  | true =>
    simp only [if_true]
    exact runWork.step5_observed env pull fl conf repoPath baseBranch ticket _ _ (by simp [h])
  | false =>
    simp only [Bool.false_eq_true, if_false]
    cases hbe : Git.BranchExists env repoPath
        (r'.calls ++ [Call.BranchExists (GenerateBranchName conf.BranchPrefix ticket.Key
          ticket.Summary)])
        (GenerateBranchName conf.BranchPrefix ticket.Key ticket.Summary) with
    | false =>
      simp only [Bool.false_eq_true, if_false, Run.call_calls, Run.log_calls, h]
      split
      · simp [observed, h]
      · exact runWork.step5_observed env pull fl conf repoPath baseBranch ticket _ _
          (by simp [h])
    | true =>
      simp only [if_true, Run.call_calls, Run.log_calls, h]
      cases hdel : Git.DeleteBranch env repoPath
          (r'.calls ++ [Call.BranchExists (GenerateBranchName conf.BranchPrefix ticket.Key
            ticket.Summary)] ++ [Call.DeleteBranch (GenerateBranchName conf.BranchPrefix
            ticket.Key ticket.Summary)])
          (GenerateBranchName conf.BranchPrefix ticket.Key ticket.Summary) with
      | error e => simp [observed, h]
      | ok u =>
        simp only [Run.call_calls, Run.log_calls, h]
        split
        · simp [observed, h]
        · exact runWork.step5_observed env pull fl conf repoPath baseBranch ticket _ _
            (by simp [h])

/-- Step 3 gives the same result and the same calls whatever `git pull` answers. -/
theorem runWork.step3_observed (env : Env) (pull : List Call → String → Except String String)
    (fl : Flags) (conf : Config) (repoPath baseBranch : String) (ticket : Ticket) (r : Run) :
    observed (runWork.step3 (withPullAnswer env pull) fl conf repoPath baseBranch ticket r) =
      observed (runWork.step3 env fl conf repoPath baseBranch ticket r) := by
  unfold runWork.step3
  simp only [checkout_withPullAnswer, Run.call_calls, Run.log_calls]
  split
  · split
    · simp [observed]
    · split <;> split <;>
        exact runWork.step4_observed env pull fl conf repoPath baseBranch ticket _ _ (by simp)
  · exact runWork.step4_observed env pull fl conf repoPath baseBranch ticket _ _ rfl

/-- The run gives the same result and the same calls whatever `git pull` answers. -/
theorem runWork_observed (env : Env) (pull : List Call → String → Except String String)
    (fl : Flags) :
    observed (runWork (withPullAnswer env pull) fl) = observed (runWork env fl) := by
  unfold runWork
  simp only [resolveRepoPath_withPullAnswer, newClient_withPullAnswer,
    getTicket_withPullAnswer, ensureClean_withPullAnswer]
  have hc : (withPullAnswer env pull).loadConfig = env.loadConfig := rfl
  rw [hc]
  split
  · rfl
  · split
    · rfl
    · split
      · rfl
      · split
        · rfl
        · split
          · rfl
          · exact runWork.step3_observed env pull fl _ _ _ _ _

/-- Step 4 outside a dry run starts with `BranchExists`; the calls that follow
are those of branch provisioning and of the later steps. -/
theorem runWork.step4_after (env : Env) (fl : Flags) (conf : Config)
    (repoPath baseBranch : String) (ticket : Ticket) (r : Run) (hdry : fl.flagDryRun = false) :
    ∃ rest, (runWork.step4 env fl conf repoPath baseBranch ticket r).2.calls =
        r.calls ++ Call.BranchExists (runWork.branchName conf ticket) :: rest ∧
      ∀ c ∈ rest, c.isAfterBranchExists = true := by
  cases hbe : Git.BranchExists env repoPath
      (r.calls ++ [Call.BranchExists (runWork.branchName conf ticket)])
      (runWork.branchName conf ticket) with
  | true =>
    rcases runWork.step4_exists env fl conf repoPath baseBranch ticket r hdry _ rfl hbe with
      ⟨-, h2, -⟩ | ⟨-, ⟨-, h2, -⟩ | ⟨-, r5, h5, h6⟩⟩
    · exact ⟨[Call.DeleteBranch (runWork.branchName conf ticket)], by rw [h2],
        by simp [Call.isAfterBranchExists]⟩
    · exact ⟨[Call.DeleteBranch (runWork.branchName conf ticket),
        Call.CreateBranch (runWork.branchName conf ticket)], by rw [h2],
        by simp [Call.isAfterBranchExists]⟩
    · obtain ⟨rest, h7, h8⟩ := runWork.step5_after env fl conf repoPath baseBranch ticket r5 hdry
      refine ⟨Call.DeleteBranch (runWork.branchName conf ticket) ::
        Call.CreateBranch (runWork.branchName conf ticket) ::
        Call.Run (ticket.FormatAsPrompt fl.flagPromptPrefix) :: rest,
        by rw [h6, h7, h5]; simp, ?_⟩
      intro c hc
      simp only [List.mem_cons] at hc
      rcases hc with h | h | h | h
      · subst h; rfl
      · subst h; rfl
      · subst h; rfl
      · exact h8 c h
  | false =>
    rcases runWork.step4_fresh env fl conf repoPath baseBranch ticket r hdry _ rfl hbe with
      ⟨-, h2, -⟩ | ⟨-, r5, h5, h6⟩
    · exact ⟨[Call.CreateBranch (runWork.branchName conf ticket)], by rw [h2],
        by simp [Call.isAfterBranchExists]⟩
    · obtain ⟨rest, h7, h8⟩ := runWork.step5_after env fl conf repoPath baseBranch ticket r5 hdry
      refine ⟨Call.CreateBranch (runWork.branchName conf ticket) ::
        Call.Run (ticket.FormatAsPrompt fl.flagPromptPrefix) :: rest,
        by rw [h6, h7, h5]; simp, ?_⟩
      intro c hc
      simp only [List.mem_cons] at hc
      rcases hc with h | h | h
      · subst h; rfl
      · subst h; rfl
      · exact h8 c h

/-- Claim C13. In the implement workflow outside a dry run the answer of `Pull`
does not matter: the run returns the same result and makes the same calls
whatever `git pull` answers, and a run that calls `Pull` goes on to
`BranchExists`; a failure of `Checkout` of the base branch ends the run at once
with an error. -/
theorem runWork_pull_failure_tolerated (env : Env) (fl : Flags)
    (pull : List Call → String → Except String String) (hdry : fl.flagDryRun = false) :
    (runWork (withPullAnswer env pull) fl).1 = (runWork env fl).1 ∧
    (runWork (withPullAnswer env pull) fl).2.calls = (runWork env fl).2.calls ∧
    (Call.Pull ∈ (runWork env fl).2.calls →
      ∃ b n rest, (runWork env fl).2.calls =
        [Call.GetTicket fl.flagTicket, Call.EnsureClean, Call.Checkout b, Call.Pull,
          Call.BranchExists n] ++ rest) ∧
    (∀ repoPath b, resolveRepoPath env fl = .ok repoPath →
      Call.Checkout b ∈ (runWork env fl).2.calls →
      isError (Git.Checkout env repoPath
        [Call.GetTicket fl.flagTicket, Call.EnsureClean, Call.Checkout b] b) →
      isError (runWork env fl).1 ∧
      (runWork env fl).2.calls =
        [Call.GetTicket fl.flagTicket, Call.EnsureClean, Call.Checkout b]) := by
  have hobs := runWork_observed env pull fl
  simp only [observed, Prod.mk.injEq] at hobs
  refine ⟨hobs.1, hobs.2, ?_, ?_⟩
  · intro hpull
    rcases runWork_to_step4 env fl hdry with ⟨hearly, -⟩ | ⟨conf, rp, ticket, r4, -, -, -, h4, hr⟩
    · exfalso
      rcases hearly with h | h | h | ⟨b, h⟩ <;> rw [h] at hpull <;> simp at hpull
    · obtain ⟨rest, h1, -⟩ := runWork.step4_after env fl conf rp (baseBranchOf fl conf) ticket
        r4 hdry
      exact ⟨baseBranchOf fl conf, runWork.branchName conf ticket, rest,
        by rw [hr, h1, h4]; simp⟩
  · intro repoPath b hrepo hmem hfail
    rcases runWork_cases env fl with ⟨e, h1, h2⟩ | ⟨e, h1, h2, -⟩ |
      ⟨conf, rp, ticket, -, hp, -, hr⟩
    · rw [h2] at hmem; simp at hmem
    · rw [h2] at hmem; simp at hmem
    · have hrp : rp = repoPath := by rw [hp] at hrepo; exact Except.ok.inj hrepo
      subst hrp
      rcases hr with ⟨e, -, hr⟩ | ⟨-, hr⟩
      · rw [hr] at hmem; simp [runWork.atStep3] at hmem
      · rcases runWork.step3_calls env fl conf rp (baseBranchOf fl conf) ticket
          (runWork.atStep3 fl conf rp ticket) hdry with ⟨-, h2, h3⟩ | ⟨hok, r4, h4, h5⟩
        · rw [hr, h2] at hmem
          have hb : b = baseBranchOf fl conf := by simpa [runWork.atStep3] using hmem
          subst hb
          exact ⟨by rw [hr]; exact h3, by rw [hr, h2]; rfl⟩
        · exfalso
          obtain ⟨rest, h6, h7⟩ := runWork.step4_after env fl conf rp (baseBranchOf fl conf)
            ticket r4 hdry
          rw [hr, h5, h6, h4] at hmem
          have hb : b = baseBranchOf fl conf := by
            simp only [runWork.atStep3, List.cons_append, List.nil_append, List.mem_cons,
              List.mem_append, Call.Checkout.injEq] at hmem
            rcases hmem with h | h | h | h | h | h
            · cases h
            · cases h
            · exact h
            · cases h
            · cases h
            · have := h7 _ h
              simp [Call.isAfterBranchExists] at this
          subst hb
          obtain ⟨e, he⟩ := hfail
          have hok' : Git.Checkout env rp
              [Call.GetTicket fl.flagTicket, Call.EnsureClean, Call.Checkout (baseBranchOf fl conf)]
              (baseBranchOf fl conf) = .ok () := hok
          rw [he] at hok'
          cases hok'

theorem runWork_pull_failure_tolerated_witness :
    (sampleFlags false false).flagDryRun = false ∧
    isError (Git.Pull sampleEnvPullFails "/repo"
      [Call.GetTicket "PROJ-42", Call.EnsureClean, Call.Checkout "main", Call.Pull]) ∧
    Git.Pull (sampleEnv true true 0) "/repo"
      [Call.GetTicket "PROJ-42", Call.EnsureClean, Call.Checkout "main", Call.Pull] = .ok () ∧
    Call.Pull ∈ (runWork sampleEnvPullFails (sampleFlags false false)).2.calls ∧
    (runWork sampleEnvPullFails (sampleFlags false false)).1 = .ok () ∧
    (runWork sampleEnvPullFails (sampleFlags false false)).1 =
      (runWork (sampleEnv true true 0) (sampleFlags false false)).1 ∧
    (runWork sampleEnvPullFails (sampleFlags false false)).2.calls =
      (runWork (sampleEnv true true 0) (sampleFlags false false)).2.calls :=
  ⟨rfl, ⟨_, rfl⟩, rfl, by decide, rfl,
   (runWork_pull_failure_tolerated (sampleEnv true true 0) (sampleFlags false false)
      (fun _ _ => .error "could not resolve host") rfl).1,
   (runWork_pull_failure_tolerated (sampleEnv true true 0) (sampleFlags false false)
      (fun _ _ => .error "could not resolve host") rfl).2.1⟩

/-! ## Acceptance criteria -/

theorem qualifies_iff (u : List (String × JsonValue)) (fieldID : String) :
    qualifies u fieldID = true ↔
      ∃ s, u.lookup fieldID = some (JsonValue.str s) ∧ s ≠ "" := by
  unfold qualifies
  cases hl : u.lookup fieldID with
  | none => simp
  | some v => cases v <;> simp

/-- One turn of the loop of `GetTicket`: a qualifying field ends it with its
value, any other field is skipped. -/
theorem scanAcceptance_cons (u : List (String × JsonValue)) (fieldID : String)
    (rest : List String) :
    scanAcceptance u (fieldID :: rest) =
      if qualifies u fieldID = true then stringValue u fieldID else scanAcceptance u rest := by
  unfold qualifies stringValue
  rw [scanAcceptance]
  cases hl : u.lookup fieldID with
  | none => simp
  | some v =>
    cases v with
    | str s => by_cases hs : s = "" <;> simp [hs]
    | null => simp
    | bool b => simp
    | number n => simp
    | composite => simp

/-- The loop of `GetTicket` returns the value of the first qualifying field of the list. -/
theorem scanAcceptance_eq_find (u : List (String × JsonValue)) :
    ∀ (ids : List String), scanAcceptance u ids =
      match ids.find? (qualifies u) with
      | some fieldID => stringValue u fieldID
      | none => ""
  | [] => rfl
  | fieldID :: rest => by
    rw [scanAcceptance_cons, List.find?_cons, scanAcceptance_eq_find u rest]
    cases hq : qualifies u fieldID <;> simp

/-- The loop of `GetTicket` on a list whose first qualifying field is known. -/
theorem scanAcceptance_split (u : List (String × JsonValue)) (fieldID : String)
    (later : List String) :
    ∀ (before : List String), (∀ f ∈ before, qualifies u f = false) →
      qualifies u fieldID = true →
      scanAcceptance u (before ++ fieldID :: later) = stringValue u fieldID
  | [], _, hq => by simp [scanAcceptance_cons, hq]
  | f :: before, hb, hq => by
    have hf : qualifies u f = false := hb f (List.mem_cons_self _ _)
    rw [List.cons_append, scanAcceptance_cons, hf]
    simpa using scanAcceptance_split u fieldID later before
      (fun g hg => hb g (List.mem_cons_of_mem _ hg)) hq

/-- The loop of `GetTicket` on a list without qualifying field. -/
theorem scanAcceptance_none (u : List (String × JsonValue)) :
    ∀ (ids : List String), (∀ f ∈ ids, qualifies u f = false) → scanAcceptance u ids = ""
  | [], _ => rfl
  | f :: rest, h => by
    rw [scanAcceptance_cons, h f (List.mem_cons_self _ _)]
    simpa using scanAcceptance_none u rest (fun g hg => h g (List.mem_cons_of_mem _ hg))

/-- The acceptance criteria of the ticket `GetTicket` returns. -/
theorem getTicket_acceptance (env : Env) (hist : List Call) (ticketKey : String)
    (issue : Issue) (hget : env.jiraIssueGet hist ticketKey = .ok issue) :
    ∃ ticket, JiraClient.GetTicket env hist ticketKey = .ok ticket ∧
      ticket.AcceptanceCrit =
        match issue.Unknowns with
        | some u => scanAcceptance u acceptanceFieldIDs
        | none => "" := by
  unfold JiraClient.GetTicket
  rw [hget]
  refine ⟨_, rfl, ?_⟩
  cases hu : issue.Unknowns with
  | none =>
    by_cases h1 : issue.Description = "" <;> by_cases h2 : issue.TypeName = "" <;>
      by_cases h3 : issue.Labels.length > 0 <;> cases h4 : issue.Priority <;>
      simp [h1, h2, h3, h4]
  | some u =>
    by_cases h1 : issue.Description = "" <;> by_cases h2 : issue.TypeName = "" <;>
      by_cases h3 : issue.Labels.length > 0 <;> cases h4 : issue.Priority <;>
      simp [h1, h2, h3, h4]

/-- Claim C14. `GetTicket` sets the acceptance criteria of the ticket to the value
of the first of `customfield_10016`, `customfield_10017`, `customfield_10001`,
in that order, that is present and holds a non-empty string, and leaves them
empty when no candidate qualifies: absent fields, values that are not strings
and empty strings are skipped. -/
theorem getTicket_acceptance_first_match (env : Env) (hist : List Call) (ticketKey : String)
    (issue : Issue) (hget : env.jiraIssueGet hist ticketKey = .ok issue) :
    ∃ ticket, JiraClient.GetTicket env hist ticketKey = .ok ticket ∧
      ticket.AcceptanceCrit = specAcceptance issue.Unknowns ∧
      (∀ u, issue.Unknowns = some u →
        (∀ fieldID ∈ ["customfield_10016", "customfield_10017", "customfield_10001"],
          qualifies u fieldID = false) →
        ticket.AcceptanceCrit = "") ∧
      (∀ u before fieldID later, issue.Unknowns = some u →
        ["customfield_10016", "customfield_10017", "customfield_10001"] =
          before ++ fieldID :: later →
        (∀ f ∈ before, qualifies u f = false) → qualifies u fieldID = true →
        u.lookup fieldID = some (JsonValue.str ticket.AcceptanceCrit) ∧
        ticket.AcceptanceCrit ≠ "") := by
  obtain ⟨ticket, ht, hac⟩ := getTicket_acceptance env hist ticketKey issue hget
  refine ⟨ticket, ht, ?_, ?_, ?_⟩
  · rw [hac]
    unfold specAcceptance
    cases issue.Unknowns with
    | none => rfl
    | some u => exact scanAcceptance_eq_find u _
  · intro u hu hnone
    rw [hac, hu]
    exact scanAcceptance_none u _ hnone
  · intro u before fieldID later hu hsplit hbefore hq
    rw [hac, hu]
    simp only []
    rw [acceptanceFieldIDs, hsplit, scanAcceptance_split u fieldID later before hbefore hq]
    obtain ⟨s, hs, hne⟩ := (qualifies_iff u fieldID).mp hq
    simp [stringValue, hs, hne]

theorem getTicket_acceptance_first_match_witness :
    sampleEnvWithCriteria.jiraIssueGet [Call.GetTicket "PROJ-42"] "PROJ-42" = .ok sampleIssueWithCriteria ∧
    ∃ ticket, JiraClient.GetTicket
        sampleEnvWithCriteria [Call.GetTicket "PROJ-42"] "PROJ-42" = .ok ticket ∧
      ticket.AcceptanceCrit = "Users can log in." := by
  refine ⟨rfl, ?_⟩
  obtain ⟨ticket, h1, h2, -⟩ := getTicket_acceptance_first_match
    sampleEnvWithCriteria [Call.GetTicket "PROJ-42"] "PROJ-42" sampleIssueWithCriteria rfl
  exact ⟨ticket, h1, h2.trans (by decide)⟩

/-! ## The step "collapse multiple dashes" -/

/-- A text without two `-` in a row does not hold `--`. -/
theorem NoDoubleDash.no_dash_pair {l : List Char} (h : NoDoubleDash l) : ¬ (['-', '-'] <:+: l) := by
  intro hinf
  have := List.Chain'.infix h hinf
  simp at this

/-- Claim C15. The step "collapse multiple dashes" of `GenerateBranchName` is
redundant: what the replacement of the runs matched by `[^a-z0-9]+` returns
never holds two `-` in a row, the replacement of the runs matched by `-+` leaves
it unchanged, and the function without that step returns the same result on
every input. -/
theorem collapse_step_redundant :
    (∀ s : List Char, ¬ (['-', '-'] <:+: nonAlphanumericReplace s)) ∧
    (∀ s : List Char, multiDashReplace (nonAlphanumericReplace s) = nonAlphanumericReplace s) ∧
    (∀ pfx ticketKey summary : String,
      GenerateBranchNameNoCollapse pfx ticketKey summary =
        GenerateBranchName pfx ticketKey summary) := by
  refine ⟨fun s => (nonAlphanumericReplace_noDoubleDash s).no_dash_pair,
    multiDashReplace_nonAlphanumericReplace, ?_⟩
  intro pfx ticketKey summary
  have hslug : slugOfNoCollapse summary.data = slugOf summary.data := by
    unfold slugOfNoCollapse slugOf
    simp only [multiDashReplace_nonAlphanumericReplace]
  unfold GenerateBranchNameNoCollapse GenerateBranchName
  rw [hslug]

/-! ## Slug normalisation is idempotent -/

theorem toLowerRune_slug {c : Char} (h : isSlugOrDash c = true) : toLowerRune c = c := by
  have hn : c.toNat ≤ 122 ∧ ¬ (65 ≤ c.toNat ∧ c.toNat ≤ 90) := by
    simp only [isSlugOrDash, Bool.or_eq_true, beq_iff_eq] at h
    rcases h with h | h
    · have := isSlugRune_toNat h
      simp only [isSlugRune, Bool.or_eq_true, Bool.and_eq_true, decide_eq_true_eq, char_le_iff] at h
      have n1 : 'a'.toNat = 97 := rfl
      have n2 : 'z'.toNat = 122 := rfl
      have n3 : '0'.toNat = 48 := rfl
      have n4 : '9'.toNat = 57 := rfl
      omega
    · subst h; decide
  unfold toLowerRune
  rw [if_pos (by omega)]
  have h1 : ¬ ('A' ≤ c ∧ c ≤ 'Z') := by
    intro h1
    have ha := (char_le_iff 'A' c).mp h1.1
    have hz := (char_le_iff c 'Z').mp h1.2
    have a1 : 'A'.toNat = 65 := rfl
    have a2 : 'Z'.toNat = 90 := rfl
    omega
  rw [if_neg h1]

theorem toLower_slug : ∀ (t : List Char), (∀ c ∈ t, isSlugOrDash c = true) → toLower t = t
  | [], _ => rfl
  | x :: xs, h => by
    have ih := toLower_slug xs (fun c hc => h c (List.mem_cons_of_mem _ hc))
    unfold toLower at ih ⊢
    rw [List.map_cons, ih, toLowerRune_slug (h x (List.mem_cons_self _ _))]

/-- Two classes that agree on the runes of a text give the same replacement. -/
theorem replaceAllRuns_congr (p q : Char → Bool) (repl : List Char) :
    ∀ (l : List Char) (b : Bool), (∀ c ∈ l, p c = q c) →
      replaceAllRuns p repl b l = replaceAllRuns q repl b l
  | [], b, _ => by cases b <;> rfl
  | x :: xs, b, h => by
    have hx := h x (List.mem_cons_self _ _)
    have ih := fun b' => replaceAllRuns_congr p q repl xs b'
      (fun c hc => h c (List.mem_cons_of_mem _ hc))
    unfold replaceAllRuns
    rw [hx, ih true, ih false]

/-- On runes of `[a-z0-9]` and `-` without two `-` in a row the first replacement
changes nothing. -/
theorem nonAlphanumericReplace_fixed (t : List Char) (hr : ∀ c ∈ t, isSlugOrDash c = true)
    (hd : NoDoubleDash t) : nonAlphanumericReplace t = t := by
  unfold nonAlphanumericReplace
  rw [replaceAllRuns_congr (fun c => !isSlugRune c) (fun c => c == '-') ['-'] t false]
  · exact (multiDash_fixed t hd).1
  · intro c hc
    have h := hr c hc
    by_cases hs : isSlugRune c = true
    · have hne := isSlugRune_ne_dash hs
      simp [hs, hne]
    · have hs' : isSlugRune c = false := by simpa using hs
      simp only [isSlugOrDash, hs', Bool.false_or] at h
      simp [hs', h]

theorem dropWhile_dash_fixed {t : List Char} (h : t.head? ≠ some '-') :
    t.dropWhile (fun c => c == '-') = t := by
  cases t with
  | nil => rfl
  | cons x xs =>
    have hx : (x == '-') = false := by simpa using h
    rw [List.dropWhile_cons, hx]
    rfl

theorem trimRightDash_fixed {t : List Char} (h : t.getLast? ≠ some '-') :
    trimRightDash t = t := by
  unfold trimRightDash
  rw [List.rdropWhile_eq_self_iff]
  intro hl hp
  apply h
  rw [List.getLast?_eq_getLast _ hl]
  simpa using hp

/-- Slug normalisation leaves a slug unchanged, also behind one more `-`. -/
theorem slugOf_fixed {t : List Char} (h : IsSlug t) :
    slugOf t = t ∧ slugOf ('-' :: t) = t := by
  have hbyte : ¬ byteLen t > maxSlugLen := by
    rw [slugRunes_byteLen t h.runes]
    simpa [maxSlugLen] using h.short
  have htrim : trimDash t = t := by
    unfold trimDash
    rw [dropWhile_dash_fixed h.noLeading, trimRightDash_fixed h.noTrailing]
  constructor
  · unfold slugOf
    simp only [toLower_slug t h.runes, nonAlphanumericReplace_fixed t h.runes h.noDouble,
      (multiDash_fixed t h.noDouble).1, multiDashReplace, htrim, if_neg hbyte]
  · have hr : ∀ c ∈ '-' :: t, isSlugOrDash c = true := by
      intro c hc
      rcases List.mem_cons.mp hc with hc | hc
      · subst hc; rfl
      · exact h.runes c hc
    have hd : NoDoubleDash ('-' :: t) := by
      apply List.Chain'.cons' h.noDouble
      intro y hy hxy
      exact h.noLeading (by rw [hxy.2] at hy; simpa using hy)
    have htrim2 : trimDash ('-' :: t) = t := by
      unfold trimDash
      have : ('-' :: t).dropWhile (fun c => c == '-') = t.dropWhile (fun c => c == '-') := by
        simp [List.dropWhile]
      rw [this, dropWhile_dash_fixed h.noLeading, trimRightDash_fixed h.noTrailing]
    unfold slugOf
    simp only [toLower_slug _ hr, nonAlphanumericReplace_fixed _ hr hd,
      (multiDash_fixed _ hd).1, multiDashReplace, htrim2, if_neg hbyte]

theorem head?_of_initial {l₁ l₂ : List Char} (hp : l₁ <+: l₂) (h : l₂.head? ≠ some '-') :
    l₁.head? ≠ some '-' := by
  obtain ⟨r, rfl⟩ := hp
  cases l₁ with
  | nil => simp
  | cons x xs => simpa using h

theorem head?_dropWhile_dash (l : List Char) :
    (l.dropWhile (fun c => c == '-')).head? ≠ some '-' := by
  induction l with
  | nil => simp
  | cons x xs ih =>
    by_cases hx : x = '-'
    · subst hx
      simpa [List.dropWhile] using ih
    · have hx' : (x == '-') = false := by simpa using hx
      rw [List.dropWhile_cons, hx']
      simpa using hx

/-- The slug before truncation is a trimmed piece of the first replacement. -/
theorem trimmed_shape (s : List Char) :
    NoDoubleDash (trimDash (multiDashReplace (nonAlphanumericReplace s))) ∧
    (trimDash (multiDashReplace (nonAlphanumericReplace s))).head? ≠ some '-' := by
  rw [multiDashReplace_nonAlphanumericReplace]
  unfold trimDash trimRightDash
  constructor
  · exact List.Chain'.prefix
      (List.Chain'.suffix (nonAlphanumericReplace_noDoubleDash s) (List.dropWhile_suffix _))
      (List.rdropWhile_prefix _ _)
  · exact head?_of_initial (List.rdropWhile_prefix _ _) (head?_dropWhile_dash _)

/-- The slug of any summary is a slug. -/
theorem slugOf_isSlug (s : List Char) : IsSlug (slugOf s) := by
  obtain ⟨hd, hh⟩ := trimmed_shape (toLower s)
  refine ⟨slugOf_runes s, ?_, ?_, ?_, ?_⟩
  · unfold slugOf
    simp only []
    split
    · exact List.Chain'.prefix (hd.take _) (List.rdropWhile_prefix _ _)
    · exact hd
  · unfold slugOf
    simp only []
    split
    · exact head?_of_initial ((List.rdropWhile_prefix _ _).trans (List.take_prefix _ _)) hh
    · exact hh
  · unfold slugOf
    simp only []
    split
    · exact trimRightDash_getLast _
    · unfold trimDash
      exact trimRightDash_getLast _
  · unfold slugOf
    simp only []
    split
    · refine le_trans (trimRightDash_length _) ?_
      simp [maxSlugLen, List.length_take]
    · rename_i h
      exact le_trans (length_le_byteLen _) (by simpa [maxSlugLen] using h)

/-- Claim C16. Slug normalisation is idempotent: with empty prefix and empty
ticket key, `GenerateBranchName` applied to its own result returns that result,
and the slug of a generated slug is that slug, which is already lower-case,
without leading, trailing or doubled `-`, and at most 50 characters long. -/
theorem generateBranchName_idempotent :
    (∀ s : String,
      GenerateBranchName "" "" (GenerateBranchName "" "" s) = GenerateBranchName "" "" s) ∧
    (∀ s : List Char, slugOf (slugOf s) = slugOf s) ∧
    (∀ s : List Char, toLower (slugOf s) = slugOf s ∧ (slugOf s).head? ≠ some '-' ∧
      (slugOf s).getLast? ≠ some '-' ∧ ¬ (['-', '-'] <:+: slugOf s) ∧ (slugOf s).length ≤ 50) := by
  refine ⟨?_, fun s => (slugOf_fixed (slugOf_isSlug s)).1, ?_⟩
  · intro s
    have hdata : (GenerateBranchName "" "" s).data =
        if slugOf s.data = [] then [] else '-' :: slugOf s.data := by
      rw [generateBranchName_data]
      simp [toLower]
    have hslug : slugOf (GenerateBranchName "" "" s).data = slugOf s.data := by
      rw [hdata]
      by_cases h : slugOf s.data = []
      · rw [if_pos h, h]
        rfl
      · rw [if_neg h]
        exact (slugOf_fixed (slugOf_isSlug s.data)).2
    apply String.ext
    rw [generateBranchName_data, hslug, generateBranchName_data]
  · intro s
    have h := slugOf_isSlug s
    exact ⟨toLower_slug _ h.runes, h.noLeading, h.noTrailing,
      fun hinf => by have := List.Chain'.infix h.noDouble hinf; simp at this, h.short⟩

end JiraClaude
